import Mathlib

/-!
# CJ_chat: the room/session coordinator of `src/server/server.js`

A shallow embedding of the socket handlers of `server.js` and theorems about
them.

Modelling conventions

* A JavaScript `Map` is an insertion-ordered association list (`JSMap`).
  `Map.prototype.set` overwrites in place or appends, `delete` removes the
  entry of the key, iteration goes front to back.
* Objects held in maps are mutated through references in the source
  (`limit.count++`, `room.users.set(...)`); here the map entry is rewritten.
* The handlers `createRoom`, `joinRoom`, `sendMessage`, `adminLogin`,
  `listRooms`, `cleanup` and `deleteRoom` describe the run in which no other
  handler is scheduled while they are suspended at an `await`. For
  `delete-room` the general run is `deleteRoomWith`, which takes what the
  event loop does at each of the handler's suspension points; `deleteRoom`
  is its instance with nothing scheduled.
* `Math.random()` is a double `num / 2 ^ exp` (`Draw`); a product with it is
  rounded as double arithmetic rounds (`roundToDouble`).
* The durable store (Supabase) is a value `Db` with two tables. Every call
  takes a `fault : Option DbError`; `some e` makes the call answer
  `{ data: null, error: e }` and leave the tables alone.
* Instants (`Date.now()`, `new Date()`) are integers (milliseconds); every
  clock read of a handler is a separate input.
* Message texts are JavaScript strings, i.e. lists of UTF-16 code units, so
  that `.length` and `.trim()` mean what they mean in the source.
* `parseInt` of a configured value is taken to have produced an integer (the
  `NaN` case of a malformed environment variable is outside the model).
* What a handler sends, answers and asks of the store is returned as a
  chronological list of `Effect`s.
-/

namespace CJChat

/-! ## Basic data -/

abbrev SocketId := String

abbrev RoomId := String

/-- A JavaScript string: its UTF-16 code units. -/
abbrev JSString := List Nat

/-- A value received from a client where the handler tests its type: a string,
or anything else with its truthiness. -/
inductive JSValue where
  | str (s : JSString)
  | other (truthy : Bool)
  deriving DecidableEq, Repr

/-- An insertion-ordered association list standing for a JavaScript `Map`. -/
abbrev JSMap (κ ν : Type) := List (κ × ν)

/-- The call `map.get(k)`; `none` stands for `undefined`. -/
def JSMap.get {κ ν : Type} [DecidableEq κ] : JSMap κ ν → κ → Option ν
  | [], _ => none
  | (k', v) :: rest, k => if k' = k then some v else JSMap.get rest k

/-- The call `map.has(k)`. -/
def JSMap.has {κ ν : Type} [DecidableEq κ] (m : JSMap κ ν) (k : κ) : Bool :=
  (JSMap.get m k).isSome

/-- The call `map.set(k, v)`: overwrite in place, or append a new entry. -/
def JSMap.set {κ ν : Type} [DecidableEq κ] : JSMap κ ν → κ → ν → JSMap κ ν
  | [], k, v => [(k, v)]
  | (k', v') :: rest, k, v =>
    if k' = k then (k', v) :: rest else (k', v') :: JSMap.set rest k v

/-- The call `map.delete(k)`: the entry of `k` is removed. -/
def JSMap.delete {κ ν : Type} [DecidableEq κ] : JSMap κ ν → κ → JSMap κ ν
  | [], _ => []
  | (k', v') :: rest, k =>
    if k' = k then rest else (k', v') :: JSMap.delete rest k

/-- The value of `Math.random()`, a double: the number `num / 2 ^ exp`. The
doubles of `[0, 1)` are the numbers of this form with `num < 2 ^ 53` (a
significand of 53 bits), `exp ≤ 1074` and `num < 2 ^ exp`. -/
structure Draw where
  num : Nat
  exp : Nat
  deriving DecidableEq, Repr

/-- The number of bits by which the binary length of `N` exceeds 53; `fuel`
bounds the number of halvings, and `fuel = N` is always enough. -/
def excessBits : Nat → Nat → Nat
  | 0, _ => 0
  | fuel + 1, N => if N < 2 ^ 53 then 0 else excessBits fuel (N / 2) + 1

/-- The rounding of double arithmetic applied to the significand `N` of an
exact result `N / 2 ^ exp`: `N` is rounded to 53 significant bits, to the
nearest multiple of `2 ^ s` for `s = excessBits N N`, a tie going to the
multiple whose 53-bit significand is even. -/
def roundToDouble (N : Nat) : Nat :=
  let s := excessBits N N
  let q := N / 2 ^ s
  let rem := N % 2 ^ s
  if 2 ^ s < 2 * rem ∨ (2 * rem = 2 ^ s ∧ q % 2 = 1) then (q + 1) * 2 ^ s else q * 2 ^ s

/-- The index `Math.floor(Math.random() * n)` for an integer `n` below
`2 ^ 53`: the product of the two doubles is the exact product
`num * n / 2 ^ exp` rounded to the nearest double (neither overflow nor, as
`exp ≤ 1074`, underflow occurs), and `Math.floor` of that double is exact. -/
def Draw.floorTimes (d : Draw) (n : Nat) : Nat :=
  roundToDouble (d.num * n) / 2 ^ d.exp

/-! ## Configuration (lines 44-49) -/

/-- The configured constants, and the locale-dependent clock formatting
`toLocaleTimeString([], { hour: '2-digit', minute: '2-digit' })`. -/
structure Env where
  ROOM_EXPIRY_HOURS : Int
  RATE_LIMIT_WINDOW_MS : Int
  RATE_LIMIT_MAX_MESSAGES : Int
  ADMIN_SECRET : String
  toLocaleTimeString : Int → String

def MESSAGE_HISTORY_LIMIT : Nat := 50

/-- Two decimal digits of a number below 100. -/
def twoDigits (n : Nat) : String :=
  String.mk [Char.ofNat (48 + n / 10 % 10), Char.ofNat (48 + n % 10)]

/-- A clock formatting `HH:MM` (24 hours, UTC), one possible locale. -/
def clockUTC (t : Int) : String :=
  twoDigits (t.toNat / 3600000 % 24) ++ ":" ++ twoDigits (t.toNat / 60000 % 60)

/-- The configuration when no environment variable is set. -/
def defaultEnv : Env where
  ROOM_EXPIRY_HOURS := 2
  RATE_LIMIT_WINDOW_MS := 60 * 1000
  RATE_LIMIT_MAX_MESSAGES := 10
  ADMIN_SECRET := "BOLT_ADMIN_SECRET"
  toLocaleTimeString := clockUTC

/-! ## In-memory registry (lines 39-52) -/

structure User where
  username : String
  lastActivity : Int
  deriving DecidableEq, Repr

/-- The object `newMessage` of `send-message`, as cached and broadcast. -/
structure ChatMessage where
  id : Nat
  username : String
  message : JSString
  timestamp : String
  isSelf : Bool
  deriving DecidableEq, Repr

structure Room where
  users : JSMap SocketId User
  messages : List ChatMessage
  lastActivity : Int
  deriving DecidableEq, Repr

/-- An entry of `rateLimits`. -/
structure RateLimit where
  count : Nat
  lastReset : Int
  deriving DecidableEq, Repr

/-! ## Durable store -/

structure DbError where
  code : String
  deriving DecidableEq, Repr

structure RoomRow where
  id : RoomId
  created_at : Int
  last_activity : Int
  deriving DecidableEq, Repr

structure MessageRow where
  id : Nat
  room_id : RoomId
  username : String
  content : JSString
  timestamp : Int
  deriving DecidableEq, Repr

/-- The two tables; `nextMessageId` is the identity column of `messages`. -/
structure Db where
  rooms : List RoomRow
  messages : List MessageRow
  nextMessageId : Nat
  deriving DecidableEq, Repr

/-- The answer `{ data, error }` of a store call. -/
structure DbResult (α : Type) where
  data : Option α
  error : Option DbError

/-- The query `from('rooms').select(..).eq('id', roomId).single()`: exactly
one row, or the error `PGRST116`. -/
def Db.selectRoomSingle (db : Db) (roomId : RoomId) (fault : Option DbError) :
    DbResult RoomRow :=
  match fault with
  | some e => { data := none, error := some e }
  | none =>
    match db.rooms.filter (fun r => r.id = roomId) with
    | [r] => { data := some r, error := none }
    | _ => { data := none, error := some { code := "PGRST116" } }

/-- The statement `from('rooms').update({ last_activity }).eq('id', roomId)`. -/
def Db.touchRoom (db : Db) (roomId : RoomId) (t : Int) (fault : Option DbError) : Db :=
  match fault with
  | some _ => db
  | none =>
    { db with
      rooms := db.rooms.map (fun r => if r.id = roomId then { r with last_activity := t } else r) }

/-- The clause `.order('timestamp', { ascending: true })`: a stable sort by
timestamp (rows of equal timestamp keep the table order). -/
def orderByTimestampAsc (rows : List MessageRow) : List MessageRow :=
  rows.insertionSort (fun a b => a.timestamp ≤ b.timestamp)

/-- The query `from('messages').select(..).eq('room_id', roomId)
.order('timestamp', { ascending: true }).limit(limit)`. -/
def Db.selectMessages (db : Db) (roomId : RoomId) (limit : Nat)
    (fault : Option DbError) : DbResult (List MessageRow) :=
  match fault with
  | some e => { data := none, error := some e }
  | none =>
    { data := some ((orderByTimestampAsc
        (db.messages.filter (fun m => m.room_id = roomId))).take limit),
      error := none }

/-- The statement `from('messages').insert([row]).select()`: either `error`,
or `data = [row]` with the stored row and its fresh id. -/
def Db.insertMessage (db : Db) (roomId : RoomId) (username : String)
    (content : JSString) (t : Int) (fault : Option DbError) :
    Db × Except DbError MessageRow :=
  match fault with
  | some e => (db, .error e)
  | none =>
    let row : MessageRow :=
      { id := db.nextMessageId, room_id := roomId, username := username,
        content := content, timestamp := t }
    ({ db with messages := db.messages ++ [row], nextMessageId := db.nextMessageId + 1 },
     .ok row)

/-- The statement `from('rooms').insert([{ id: roomId }]).select()`; the
columns `created_at` and `last_activity` take the store's clock `t`, and a
second row with the same primary key is refused. -/
def Db.insertRoom (db : Db) (roomId : RoomId) (t : Int) (fault : Option DbError) :
    Db × Option DbError :=
  match fault with
  | some e => (db, some e)
  | none =>
    if db.rooms.any (fun r => r.id = roomId) then (db, some { code := "23505" })
    else
      ({ db with rooms := db.rooms ++ [{ id := roomId, created_at := t, last_activity := t }] },
       none)

/-- The query `from('rooms').select('id, created_at, last_activity')`. -/
def Db.selectRooms (db : Db) (fault : Option DbError) : DbResult (List RoomRow) :=
  match fault with
  | some e => { data := none, error := some e }
  | none => { data := some db.rooms, error := none }

/-- The query `from('rooms').select('id').lt('last_activity', threshold)`. -/
def Db.selectInactive (db : Db) (threshold : Int) (fault : Option DbError) :
    DbResult (List RoomId) :=
  match fault with
  | some e => { data := none, error := some e }
  | none =>
    { data := some ((db.rooms.filter (fun r => r.last_activity < threshold)).map (fun r => r.id)),
      error := none }

/-- The statement `from('messages').delete().eq('room_id', roomId)`. -/
def Db.deleteMessages (db : Db) (roomId : RoomId) (fault : Option DbError) :
    Db × Option DbError :=
  match fault with
  | some e => (db, some e)
  | none => ({ db with messages := db.messages.filter (fun m => m.room_id ≠ roomId) }, none)

/-- The statement `from('rooms').delete().eq('id', roomId)`. -/
def Db.deleteRoom (db : Db) (roomId : RoomId) (fault : Option DbError) :
    Db × Option DbError :=
  match fault with
  | some e => (db, some e)
  | none => ({ db with rooms := db.rooms.filter (fun r => r.id ≠ roomId) }, none)

/-! ## Server state and observable effects -/

structure State where
  rooms : JSMap RoomId Room
  adminSockets : List SocketId
  rateLimits : JSMap SocketId RateLimit
  /-- The connected sockets (`io.sockets.sockets`). -/
  sockets : List SocketId
  /-- The transport rooms each socket has joined (`socket.join`). -/
  joined : List (SocketId × String)
  db : Db
  deriving DecidableEq, Repr

/-- A message of the history returned by `join-room`. -/
structure HistoryMessage where
  username : String
  message : JSString
  timestamp : String
  deriving DecidableEq, Repr

/-- An element of the room list sent to administrators. -/
structure RoomInfo where
  id : RoomId
  userCount : Nat
  createdAt : Int
  lastActivity : Int
  deriving DecidableEq, Repr

inductive Payload where
  | notice (message : String)
  | userJoined (username : String) (activeUsers : List String)
  | userLeft (username : String) (activeUsers : List String)
  | newMessage (m : ChatMessage)
  | roomCreated (roomId : RoomId)
  | typingIndicator (username : String) (isTyping : Bool)
  | roomsList (rooms : List RoomInfo) (message : Option String)
  | roomDeleted (roomId : RoomId) (message : String)
  deriving DecidableEq, Repr

/-- The argument of an acknowledgement callback. -/
inductive Reply where
  | failure (message : String)
  | created (roomId : RoomId)
  | joined (username : String) (messages : List HistoryMessage) (activeUsers : List String)
  | success
  | rooms (rooms : List RoomInfo)
  | done (message : String)
  deriving DecidableEq, Repr

inductive DbCall where
  | selectRoom (roomId : RoomId)
  | insertRoom (roomId : RoomId)
  | touchRoom (roomId : RoomId) (t : Int)
  | selectMessages (roomId : RoomId) (limit : Nat)
  | insertMessage (roomId : RoomId) (username : String) (content : JSString) (t : Int)
  | selectRooms
  | selectInactive (threshold : Int)
  | deleteMessages (roomId : RoomId)
  | deleteRoom (roomId : RoomId)
  deriving DecidableEq, Repr

inductive Effect where
  /-- The call `socket.emit(event, payload)`: to that socket only. -/
  | emitSocket (socket : SocketId) (event : String) (payload : Payload)
  /-- The call `io.to(room).emit(event, payload)`. -/
  | emitRoom (room : String) (event : String) (payload : Payload)
  /-- The call `callback(reply)` of the handler run for `socket`. -/
  | callback (socket : SocketId) (reply : Reply)
  /-- A call of the durable store. -/
  | db (call : DbCall)
  /-- An uncaught `TypeError` (property read of `undefined`). -/
  | typeError
  /-- The call `socket.to(room).emit(event, payload)`: the room but the sender. -/
  | emitOthers (socket : SocketId) (room : String) (event : String) (payload : Payload)
  /-- The call `userSocket.disconnect(true)` on a connected socket. -/
  | closeSocket (socket : SocketId)
  deriving DecidableEq, Repr

/-- Whether the effect is a broadcast to a transport room. -/
def Effect.isBroadcast : Effect → Bool
  | .emitRoom _ _ _ => true
  | _ => false

/-- Whether the effect is a call of the durable store. -/
def Effect.isDb : Effect → Bool
  | .db _ => true
  | _ => false

/-! ## Rate limiter (lines 250-265) -/

/-- The limiter of `send-message`: the updated entry, and whether the attempt
goes on. The check against the maximum sits in the `else` branch only. -/
def rateLimitStep (env : Env) (limit : RateLimit) (now : Int) : RateLimit × Bool :=
  if now - limit.lastReset > env.RATE_LIMIT_WINDOW_MS then
    ({ count := 1, lastReset := now }, true)
  else
    let limit' : RateLimit := { limit with count := limit.count + 1 }
    if (limit'.count : Int) > env.RATE_LIMIT_MAX_MESSAGES then (limit', false)
    else (limit', true)

/-! ## Message validation (line 268) -/

/-- The code units removed by `String.prototype.trim`: WhiteSpace and
LineTerminator of ECMAScript. -/
def isTrimUnit (u : Nat) : Bool :=
  u = 0x09 || u = 0x0A || u = 0x0B || u = 0x0C || u = 0x0D || u = 0x20 || u = 0xA0
    || u = 0x1680 || (0x2000 ≤ u && u ≤ 0x200A) || u = 0x2028 || u = 0x2029
    || u = 0x202F || u = 0x205F || u = 0x3000 || u = 0xFEFF

/-- The method `String.prototype.trim`. -/
def trim (s : JSString) : JSString :=
  ((s.dropWhile isTrimUnit).reverse.dropWhile isTrimUnit).reverse

/-- The condition of line 268:
`!message || typeof message !== 'string' || message.trim().length === 0
  || message.length > 500`. -/
def invalidMessage : JSValue → Bool
  | .other _ => true
  | .str s => s.isEmpty || (trim s).length == 0 || decide (s.length > 500)

/-- The string of a message value (used once it has passed validation). -/
def JSValue.text : JSValue → JSString
  | .str s => s
  | .other _ => []

/-! ## `send-message` (lines 243-315) -/

/-- The inputs of one `send-message` event: the client's payload, the two
clock reads and the faults of the two store calls. -/
structure SendArgs where
  roomId : RoomId
  message : JSValue
  now : Int
  messageTimestamp : Int
  insertFault : Option DbError
  touchFault : Option DbError

def rateLimitNotice : Payload :=
  .notice "You are sending messages too fast. Please wait."

/-- The cache update of lines 308-311: push, then shift once past the limit. -/
def pushBounded (messages : List ChatMessage) (m : ChatMessage) : List ChatMessage :=
  let pushed := messages ++ [m]
  if pushed.length > MESSAGE_HISTORY_LIMIT then pushed.tail else pushed

/-- The handler of `send-message`. -/
def sendMessage (env : Env) (s : State) (socket : SocketId) (a : SendArgs) :
    State × List Effect :=
  match JSMap.get s.rooms a.roomId with
  | none => (s, [])
  | some room =>
    match JSMap.get room.users socket with
    | none => (s, [])
    | some user =>
      match JSMap.get s.rateLimits socket with
      | none => (s, [.typeError])
      | some limit =>
        let step := rateLimitStep env limit a.now
        let s1 : State := { s with rateLimits := JSMap.set s.rateLimits socket step.1 }
        if !step.2 then
          (s1, [.emitSocket socket "rate-limit-exceeded" rateLimitNotice])
        else if invalidMessage a.message then
          (s1, [.emitSocket socket "message-error"
                  (.notice "Invalid message content or length.")])
        else
          let content := trim a.message.text
          let ins := s1.db.insertMessage a.roomId user.username content
                       a.messageTimestamp a.insertFault
          match ins.2 with
          | .error _ =>
            ({ s1 with db := ins.1 },
             [.db (.insertMessage a.roomId user.username content a.messageTimestamp),
              .emitSocket socket "message-error"
                (.notice "Failed to send message (database error).")])
          | .ok row =>
            let db2 := ins.1.touchRoom a.roomId a.messageTimestamp a.touchFault
            let newMessage : ChatMessage :=
              { id := row.id, username := user.username, message := content,
                timestamp := env.toLocaleTimeString a.messageTimestamp, isSelf := false }
            let room' : Room :=
              { users := JSMap.set room.users socket
                  { user with lastActivity := a.messageTimestamp },
                messages := pushBounded room.messages newMessage,
                lastActivity := a.messageTimestamp }
            ({ s1 with db := db2, rooms := JSMap.set s1.rooms a.roomId room' },
             [.db (.insertMessage a.roomId user.username content a.messageTimestamp),
              .db (.touchRoom a.roomId a.messageTimestamp),
              .emitRoom a.roomId "new-message" (.newMessage newMessage)])

/-- Whether the effects of a handler carry the rate-limit rejection. -/
def isRateLimited (effects : List Effect) : Bool :=
  effects.any (fun e =>
    match e with
    | .emitSocket _ event _ => event = "rate-limit-exceeded"
    | _ => false)

/-- The state after the limiter step of a participant's send. -/
def afterLimiter (env : Env) (s : State) (socket : SocketId) (limit : RateLimit) (now : Int) :
    State :=
  { s with rateLimits := JSMap.set s.rateLimits socket (rateLimitStep env limit now).1 }

/-- A run of `send-message` events of one socket, in order: the final state
and the effects of each event. -/
def sendAll (env : Env) (socket : SocketId) : State → List SendArgs → State × List (List Effect)
  | s, [] => (s, [])
  | s, a :: rest =>
    let r := sendMessage env s socket a
    let rs := sendAll env socket r.1 rest
    (rs.1, r.2 :: rs.2)

/-! ## Identifier generators (lines 54-71) -/

def characters : String := "ABCDEFGHIJKLMNOPQRSTUVWXYZ0123456789"

/-- The method `String.prototype.charAt`: the empty string past the end. -/
def charAt (s : String) (i : Nat) : String :=
  match s.toList.get? i with
  | some ch => String.singleton ch
  | none => ""

/-- The function `generateRoomCode(length)`; `random i` is the draw of the
`i`-th iteration. -/
def generateRoomCode (random : Nat → Draw) (length : Nat) : String :=
  (List.range length).foldl
    (fun result i => result ++ charAt characters ((random i).floorTimes characters.length)) ""

def adjectives : List String :=
  ["Swift", "Silent", "Brave", "Clever", "Mystic", "Golden", "Crimson", "Azure", "Emerald",
   "Whispering"]

def nouns : List String :=
  ["Wolf", "Eagle", "Lion", "Fox", "Bear", "Dragon", "Phoenix", "Shadow", "River", "Mountain"]

/-- The function `generateUsername()` with its two draws; an index past the
last element reads `undefined`. -/
def generateUsername (adjDraw nounDraw : Draw) : String :=
  let adj := (adjectives.get? (adjDraw.floorTimes adjectives.length)).getD "undefined"
  let noun := (nouns.get? (nounDraw.floorTimes nouns.length)).getD "undefined"
  "Guest_" ++ adj ++ "_" ++ noun

/-! ## `connection` (lines 130-134) -/

/-- A socket connects: the transport registers it (every socket is in the
transport room named by its own id) and the handler initialises its limiter. -/
def connection (s : State) (socket : SocketId) (now : Int) : State :=
  { s with
    sockets := s.sockets ++ [socket]
    joined := s.joined ++ [(socket, socket)]
    rateLimits := JSMap.set s.rateLimits socket { count := 0, lastReset := now } }

/-! ## `create-room` (lines 136-180) -/

/-- One round of the code search: the draws of `generateRoomCode` and the
fault of the existence check. -/
structure CodeAttempt where
  random : Nat → Draw
  fault : Option DbError

/-- The loop of lines 140-154 over the supplied rounds: the store calls made,
and the free code found (`none` inside: the handler answers a database error).
The outer `none` means every supplied round found its code taken, where the
loop of the source goes on. -/
def findFreeCode (db : Db) : List CodeAttempt → Option (List Effect × Option RoomId)
  | [] => none
  | a :: rest =>
    let roomId := generateRoomCode a.random 6
    match (db.selectRoomSingle roomId a.fault).error with
    | some e =>
      if e.code = "PGRST116" then some ([.db (.selectRoom roomId)], some roomId)
      else some ([.db (.selectRoom roomId)], none)
    | none =>
      (findFreeCode db rest).map (fun r => (Effect.db (.selectRoom roomId) :: r.1, r.2))

structure CreateArgs where
  attempts : List CodeAttempt
  insertFault : Option DbError
  storeTime : Int
  now : Int

/-- The handler of `create-room`; `none` when the code search does not end
within the supplied rounds. -/
def createRoom (s : State) (socket : SocketId) (a : CreateArgs) :
    Option (State × List Effect) :=
  match findFreeCode s.db a.attempts with
  | none => none
  | some (calls, none) =>
    some (s, calls ++ [.callback socket (.failure "Database error during room creation.")])
  | some (calls, some roomId) =>
    let ins := s.db.insertRoom roomId a.storeTime a.insertFault
    match ins.2 with
    | some _ =>
      some ({ s with db := ins.1 },
        calls ++ [.db (.insertRoom roomId),
                  .callback socket (.failure "Failed to create room in database.")])
    | none =>
      some ({ s with
              db := ins.1
              rooms := JSMap.set s.rooms roomId
                { users := [], messages := [], lastActivity := a.now } },
        calls ++ [.db (.insertRoom roomId), .callback socket (.created roomId)]
          ++ s.adminSockets.map
               (fun admin => Effect.emitRoom admin "room-created-admin-notify"
                  (.roomCreated roomId)))

/-! ## `join-room` (lines 182-241) -/

/-- The inputs of one `join-room` event: the payload, the faults of the three
store calls, the four clock reads and the two draws of `generateUsername`. -/
structure JoinArgs where
  roomId : RoomId
  lookupFault : Option DbError
  touchFault : Option DbError
  messagesFault : Option DbError
  touchTime : Int
  createTime : Int
  userTime : Int
  activityTime : Int
  adjDraw : Draw
  nounDraw : Draw

/-- The call `socket.join(room)`. -/
def socketJoin (joined : List (SocketId × String)) (socket : SocketId) (room : String) :
    List (SocketId × String) :=
  if (socket, room) ∈ joined then joined else joined ++ [(socket, room)]

/-- The mapping of line 230 from store rows to the client format. -/
def formatMessages (env : Env) (rows : List MessageRow) : List HistoryMessage :=
  rows.map (fun msg =>
    { username := msg.username, message := msg.content,
      timestamp := env.toLocaleTimeString msg.timestamp })

/-- The expression `Array.from(room.users.values()).map(u => u.username)`. -/
def activeUsers (users : JSMap SocketId User) : List String :=
  users.map (fun e => e.2.username)

/-- The handler of `join-room`. The object `room` of line 209 is the entry of
the map, or the one just created at line 203. -/
def joinRoom (env : Env) (s : State) (socket : SocketId) (a : JoinArgs) :
    State × List Effect :=
  let found := s.db.selectRoomSingle a.roomId a.lookupFault
  if found.error.isSome || found.data.isNone then
    (s, [.db (.selectRoom a.roomId),
         .callback socket (.failure "Room not found or database error.")])
  else
    let db1 := s.db.touchRoom a.roomId a.touchTime a.touchFault
    let rooms1 :=
      if !JSMap.has s.rooms a.roomId then
        JSMap.set s.rooms a.roomId { users := [], messages := [], lastActivity := a.createTime }
      else s.rooms
    let room : Room := (JSMap.get s.rooms a.roomId).getD
      { users := [], messages := [], lastActivity := a.createTime }
    let username := generateUsername a.adjDraw a.nounDraw
    let room' : Room :=
      { room with
        users := JSMap.set room.users socket { username := username, lastActivity := a.userTime }
        lastActivity := a.activityTime }
    let s2 : State :=
      { s with
        db := db1
        rooms := JSMap.set rooms1 a.roomId room'
        joined := socketJoin s.joined socket a.roomId }
    let fetched := db1.selectMessages a.roomId MESSAGE_HISTORY_LIMIT a.messagesFault
    let calls : List Effect :=
      [.db (.selectRoom a.roomId), .db (.touchRoom a.roomId a.touchTime),
       .db (.selectMessages a.roomId MESSAGE_HISTORY_LIMIT)]
    match fetched.error, fetched.data with
    | some _, _ =>
      (s2, calls ++ [.callback socket (.failure "Failed to load messages from database.")])
    | none, none => (s2, calls ++ [.typeError])
    | none, some rows =>
      let names := activeUsers room'.users
      (s2, calls ++ [.emitRoom a.roomId "user-joined" (.userJoined username names),
                     .callback socket
                       (.joined username (formatMessages env rows) names)])

/-! ## `disconnect` (lines 442-466) -/

/-- The loop of lines 448-465: the first room (in map order) holding the
socket loses that entry, and the loop breaks. -/
def leaveFirstRoom (socket : SocketId) (now : Int) :
    JSMap RoomId Room → JSMap RoomId Room × List Effect
  | [] => ([], [])
  | (roomId, roomData) :: rest =>
    match JSMap.get roomData.users socket with
    | some user =>
      let users' := JSMap.delete roomData.users socket
      ((roomId, { roomData with users := users', lastActivity := now }) :: rest,
       [.emitRoom roomId "user-left" (.userLeft user.username (activeUsers users'))])
    | none =>
      let r := leaveFirstRoom socket now rest
      ((roomId, roomData) :: r.1, r.2)

/-- A socket disconnects: the transport drops it from its rooms and from the
connected sockets, then the handler of `disconnect` runs. -/
def disconnect (s : State) (socket : SocketId) (now : Int) : State × List Effect :=
  let left := leaveFirstRoom socket now s.rooms
  ({ s with
     sockets := s.sockets.filter (fun x => x ≠ socket)
     joined := s.joined.filter (fun e => e.1 ≠ socket)
     rateLimits := JSMap.delete s.rateLimits socket
     adminSockets := s.adminSockets.filter (fun x => x ≠ socket)
     rooms := left.1 },
   left.2)

/-- The state of a freshly started server over a store `db`. -/
def initialState (db : Db) : State :=
  { rooms := [], adminSockets := [], rateLimits := [], sockets := [], joined := [], db := db }

def emptyDb : Db := { rooms := [], messages := [], nextMessageId := 1 }

/-! ## `typing` (lines 317-325) -/

/-- The handler of `typing`. -/
def typing (s : State) (socket : SocketId) (roomId : RoomId) (isTyping : Bool) :
    State × List Effect :=
  match JSMap.get s.rooms roomId with
  | none => (s, [])
  | some room =>
    match JSMap.get room.users socket with
    | none => (s, [])
    | some user =>
      (s, [.emitOthers socket roomId "typing-indicator"
             (.typingIndicator user.username isTyping)])

/-! ## Administration (lines 327-440) -/

/-- The call `set.add(x)` on a JavaScript `Set` kept as a list. -/
def setAdd (set : List SocketId) (x : SocketId) : List SocketId :=
  if x ∈ set then set else set ++ [x]

/-- The mapping of lines 341-346 and 369-374: the store rows with the number
of in-memory participants of each room (0 without an in-memory entry). -/
def roomSnapshot (rooms : JSMap RoomId Room) (rows : List RoomRow) : List RoomInfo :=
  rows.map (fun dbRoom =>
    { id := dbRoom.id,
      userCount := match JSMap.get rooms dbRoom.id with
        | some room => room.users.length
        | none => 0,
      createdAt := dbRoom.created_at,
      lastActivity := dbRoom.last_activity })

/-- The inputs of one `admin-login` event; `secret` is `none` when the value
sent is not a string. -/
structure LoginArgs where
  secret : Option String
  roomsFault : Option DbError

/-- The handler of `admin-login`, with the continuation of its room query. -/
def adminLogin (env : Env) (s : State) (socket : SocketId) (a : LoginArgs) :
    State × List Effect :=
  if a.secret = some env.ADMIN_SECRET then
    let s1 : State := { s with adminSockets := setAdd s.adminSockets socket }
    let res := s1.db.selectRooms a.roomsFault
    match res.error, res.data with
    | some _, _ =>
      (s1, [.callback socket .success, .db .selectRooms,
            .emitSocket socket "active-rooms-list"
              (.roomsList [] (some "Failed to load rooms."))])
    | none, none => (s1, [.callback socket .success, .db .selectRooms, .typeError])
    | none, some roomsData =>
      (s1, [.callback socket .success, .db .selectRooms,
            .emitSocket socket "active-rooms-list"
              (.roomsList (roomSnapshot s1.rooms roomsData) none)])
  else
    (s, [.callback socket (.failure "Invalid admin secret.")])

/-- The handler of `list-rooms`. -/
def listRooms (s : State) (socket : SocketId) (fault : Option DbError) :
    State × List Effect :=
  if socket ∉ s.adminSockets then
    (s, [.callback socket (.failure "Unauthorized.")])
  else
    let res := s.db.selectRooms fault
    match res.error, res.data with
    | some _, _ =>
      (s, [.db .selectRooms,
           .callback socket (.failure "Failed to fetch rooms from database.")])
    | none, none => (s, [.db .selectRooms, .typeError])
    | none, some roomsData =>
      (s, [.db .selectRooms, .callback socket (.rooms (roomSnapshot s.rooms roomsData))])

/-- The inputs of one `delete-room` event: the payload, the faults of the
three store calls, and the clock read by the `disconnect` handler of each
participant that is disconnected. -/
structure DeleteArgs where
  roomId : RoomId
  lookupFault : Option DbError
  messagesFault : Option DbError
  roomFault : Option DbError
  disconnectTime : SocketId → Int

/-- One turn of the loop of lines 399-405: a participant whose socket is
connected leaves the transport room and is disconnected, which runs its
`disconnect` handler at once. -/
def forceDisconnect (clock : SocketId → Int) (acc : State × List Effect)
    (userId : SocketId) : State × List Effect :=
  if userId ∈ acc.1.sockets then
    let r := disconnect acc.1 userId (clock userId)
    (r.1, acc.2 ++ [.closeSocket userId] ++ r.2)
  else acc

/-- Lines 395-407 of `delete-room`: when the room has an in-memory entry, its
transport room is notified, every participant whose socket is connected is
disconnected, and the entry is removed. -/
def evictParticipants (s : State) (a : DeleteArgs) : State × List Effect :=
  match JSMap.get s.rooms a.roomId with
  | none => (s, [])
  | some roomToDeleteInMemory =>
    let r := (roomToDeleteInMemory.users.map Prod.fst).foldl
      (forceDisconnect a.disconnectTime)
      (s, [.emitRoom a.roomId "room-deleted-user-notify"
             (.notice ("This room (" ++ a.roomId
                ++ ") has been deleted by an administrator. You will be disconnected."))])
    ({ r.1 with rooms := JSMap.delete r.1.rooms a.roomId }, r.2)

/-- The points at which the handler of `delete-room` is suspended. Each of
its three store calls (lines 384, 410 and 421) is awaited: other handlers can
run after the call is sent and before the store executes it, and again after
the store has executed it and before the answer resumes the handler. -/
inductive DeletePoint where
  | lookupSent
  | lookupAnswered
  | messagesSent
  | messagesAnswered
  | rowSent
  | rowAnswered
  deriving DecidableEq, Repr

/-- The handler of `delete-room` in an event loop: `during p` is what the
handlers of other events do to the state, and emit, while this handler is
suspended at the point `p`. The lines between two `await`s run without
interruption, on the state left by the handlers that ran in between. -/
def deleteRoomWith (during : DeletePoint → State → State × List Effect) (s : State)
    (socket : SocketId) (a : DeleteArgs) : State × List Effect :=
  if socket ∉ s.adminSockets then
    (s, [.callback socket (.failure "Unauthorized.")])
  else
    let w1 := during .lookupSent s
    let found := w1.1.db.selectRoomSingle a.roomId a.lookupFault
    let w2 := during .lookupAnswered w1.1
    let log2 : List Effect := .db (.selectRoom a.roomId) :: (w1.2 ++ w2.2)
    if found.error.isSome || found.data.isNone then
      (w2.1, log2 ++ [.callback socket (.failure "Room not found in database.")])
    else
      let evicted := evictParticipants w2.1 a
      let w3 := during .messagesSent evicted.1
      let delMessages := w3.1.db.deleteMessages a.roomId a.messagesFault
      let w4 := during .messagesAnswered { w3.1 with db := delMessages.1 }
      let log4 : List Effect :=
        log2 ++ evicted.2 ++ .db (.deleteMessages a.roomId) :: (w3.2 ++ w4.2)
      match delMessages.2 with
      | some _ =>
        (w4.1,
         log4 ++ [.callback socket (.failure "Failed to delete room messages in database.")])
      | none =>
        let w5 := during .rowSent w4.1
        let delRoom := w5.1.db.deleteRoom a.roomId a.roomFault
        let w6 := during .rowAnswered { w5.1 with db := delRoom.1 }
        let log6 : List Effect := log4 ++ .db (.deleteRoom a.roomId) :: (w5.2 ++ w6.2)
        match delRoom.2 with
        | some _ =>
          (w6.1, log6 ++ [.callback socket (.failure "Failed to delete room in database.")])
        | none =>
          (w6.1,
           log6 ++ [.callback socket (.done ("Room " ++ a.roomId ++ " deleted."))]
             ++ (w6.1.adminSockets.filter (fun admin => admin ≠ socket)).map
                  (fun admin => Effect.emitRoom admin "room-deleted-admin-notify"
                    (.roomDeleted a.roomId
                      ("Room " ++ a.roomId ++ " was deleted by another administrator."))))

/-- The handler of `delete-room` when no other handler runs while it is
suspended. -/
def deleteRoom (s : State) (socket : SocketId) (a : DeleteArgs) : State × List Effect :=
  deleteRoomWith (fun _ s => (s, [])) s socket a

/-! ## Room cleanup (lines 73-128) -/

/-- The inputs of one run of the cleanup timer: the clock, the fault of the
query for inactive rooms and the faults of the two deletions for each room. -/
structure SweepArgs where
  now : Int
  fetchFault : Option DbError
  messagesFault : RoomId → Option DbError
  roomFault : RoomId → Option DbError

/-- The condition of line 93:
`!rooms.has(roomId) || rooms.get(roomId).users.size === 0`. -/
def noActiveUsers (rooms : JSMap RoomId Room) (roomId : RoomId) : Bool :=
  match JSMap.get rooms roomId with
  | none => true
  | some room => room.users.length == 0

/-- The body of the loop of lines 89-127 for one room id. -/
def sweepRoom (a : SweepArgs) (acc : State × List Effect) (roomId : RoomId) :
    State × List Effect :=
  let s := acc.1
  if noActiveUsers s.rooms roomId then
    let delMessages := s.db.deleteMessages roomId (a.messagesFault roomId)
    match delMessages.2 with
    | some _ => ({ s with db := delMessages.1 }, acc.2 ++ [.db (.deleteMessages roomId)])
    | none =>
      let delRoom := delMessages.1.deleteRoom roomId (a.roomFault roomId)
      match delRoom.2 with
      | some _ =>
        ({ s with db := delRoom.1 },
         acc.2 ++ [.db (.deleteMessages roomId), .db (.deleteRoom roomId)])
      | none =>
        ({ s with
           db := delRoom.1
           rooms := if JSMap.has s.rooms roomId then JSMap.delete s.rooms roomId else s.rooms },
         acc.2 ++ [.db (.deleteMessages roomId), .db (.deleteRoom roomId)]
           ++ s.adminSockets.map
                (fun admin => Effect.emitRoom admin "room-deleted-admin-notify"
                  (.roomDeleted roomId
                    ("Room " ++ roomId
                      ++ " was automatically cleaned up due to inactivity."))))
  else acc

/-- The loop of lines 89-127 over the room ids answered by the store. -/
def sweepRooms (a : SweepArgs) (acc : State × List Effect) (inactiveRooms : List RoomId) :
    State × List Effect :=
  inactiveRooms.foldl (sweepRoom a) acc

/-- The callback of the cleanup timer. -/
def cleanup (env : Env) (s : State) (a : SweepArgs) : State × List Effect :=
  let expiryThreshold := a.now - env.ROOM_EXPIRY_HOURS * 60 * 60 * 1000
  let res := s.db.selectInactive expiryThreshold a.fetchFault
  match res.error, res.data with
  | some _, _ => (s, [.db (.selectInactive expiryThreshold)])
  | none, none => (s, [.db (.selectInactive expiryThreshold), .typeError])
  | none, some inactiveRooms =>
    sweepRooms a (s, [.db (.selectInactive expiryThreshold)]) inactiveRooms

/-! ## Events and reachable states -/

/-- An event of the server with the inputs of its handler. -/
inductive Event where
  | connection (socket : SocketId) (now : Int)
  | createRoom (socket : SocketId) (a : CreateArgs)
  | joinRoom (socket : SocketId) (a : JoinArgs)
  | sendMessage (socket : SocketId) (a : SendArgs)
  | typing (socket : SocketId) (roomId : RoomId) (isTyping : Bool)
  | adminLogin (socket : SocketId) (a : LoginArgs)
  | listRooms (socket : SocketId) (fault : Option DbError)
  | deleteRoom (socket : SocketId) (a : DeleteArgs)
  | disconnect (socket : SocketId) (now : Int)
  | cleanup (a : SweepArgs)

/-- The handler run for an event, with no other handler scheduled before it
finishes (for a `delete-room` overlapped by other handlers see
`deleteRoomWith`); `none` when `create-room` does not finish its code search
within the supplied rounds. -/
def step (env : Env) (s : State) : Event → Option (State × List Effect)
  | .connection socket now => some (connection s socket now, [])
  | .createRoom socket a => createRoom s socket a
  | .joinRoom socket a => some (joinRoom env s socket a)
  | .sendMessage socket a => some (sendMessage env s socket a)
  | .typing socket roomId isTyping => some (typing s socket roomId isTyping)
  | .adminLogin socket a => some (adminLogin env s socket a)
  | .listRooms socket fault => some (listRooms s socket fault)
  | .deleteRoom socket a => some (deleteRoom s socket a)
  | .disconnect socket now => some (disconnect s socket now)
  | .cleanup a => some (cleanup env s a)

/-- The states reached from a freshly started server over the store `db` by
any sequence of events. -/
inductive Reachable (env : Env) (db : Db) : State → Prop where
  | init : Reachable env db (initialState db)
  | next {s : State} {e : Event} {r : State × List Effect} :
      Reachable env db s → step env s e = some r → Reachable env db r.1

/-! ## Concrete scenarios -/

/-- The draws that make `generateRoomCode` pick the character of index `k`
at every position: the double `(⌊128 k / 36⌋ + 1) / 2 ^ 7`, which lies in
`[k / 36, (k + 1) / 36)` for `k < 36`. -/
def constantDraw (k : Nat) : Nat → Draw :=
  fun _ => { num := 128 * k / 36 + 1, exp := 7 }

/-- The inputs of a `create-room` whose first candidate is the code made of
the character of index `k`, with a healthy store. -/
def createArgs (k : Nat) (t : Int) : CreateArgs :=
  { attempts := [{ random := constantDraw k, fault := none }],
    insertFault := none, storeTime := t, now := t }

/-- The inputs of a `join-room` with a healthy store at instant `t`. -/
def joinArgs (roomId : RoomId) (t : Int) : JoinArgs :=
  { roomId := roomId, lookupFault := none, touchFault := none, messagesFault := none,
    touchTime := t, createTime := t, userTime := t, activityTime := t,
    adjDraw := { num := 0, exp := 0 }, nounDraw := { num := 0, exp := 0 } }

/-- The inputs of a `send-message` of the text `hi` at instant `t`, with a
healthy store. -/
def sendArgs (roomId : RoomId) (t : Int) : SendArgs :=
  { roomId := roomId, message := .str [104, 105], now := t, messageTimestamp := t,
    insertFault := none, touchFault := none }

/-- Socket `c1` connects at instant 0 to a fresh server with an empty store,
creates the room `AAAAAA` and joins it. -/
def demoState : State :=
  let s0 := connection (initialState emptyDb) "c1" 0
  let s1 := ((createRoom s0 "c1" (createArgs 0 0)).getD (s0, [])).1
  (joinRoom defaultEnv s1 "c1" (joinArgs "AAAAAA" 0)).1

/-- Eleven sends of `c1` at the instants 59995, ..., 60005. -/
def burst : List SendArgs :=
  (List.range 11).map (fun i => sendArgs "AAAAAA" (59995 + (i : Int)))

/-- The default configuration with `RATE_LIMIT_MAX=0`. -/
def zeroMaxEnv : Env :=
  { defaultEnv with RATE_LIMIT_MAX_MESSAGES := 0 }

/-- Ten sends of `c1` at the instants 1, ..., 10. -/
def tenSends : List SendArgs :=
  (List.range 10).map (fun i => sendArgs "AAAAAA" (1 + (i : Int)))

/-- Socket `c1` connects at instant 0 to a fresh server with an empty store
and creates the room `AAAAAA`, without joining it. -/
def lobbyState : State :=
  let s0 := connection (initialState emptyDb) "c1" 0
  ((createRoom s0 "c1" (createArgs 0 0)).getD (s0, [])).1

/-- A `join-room` of `AAAAAA` at instant 7 during which the fetch of the
message history fails. -/
def failedFetchArgs : JoinArgs :=
  { joinArgs "AAAAAA" 7 with messagesFault := some { code := "57014" } }

/-- The history carried by the successful answer of `join-room`, if any. -/
def repliedHistory : List Effect → Option (List HistoryMessage)
  | [] => none
  | .callback _ (.joined _ messages _) :: _ => some messages
  | _ :: rest => repliedHistory rest

/-- The `i`-th stored message of the archive: sent at minute `i`, its text is
the two decimal digits of `i`. -/
def archiveRow (i : Nat) : MessageRow :=
  { id := i + 1, room_id := "AAAAAA", username := "Guest_Swift_Wolf",
    content := [48 + i / 10, 48 + i % 10], timestamp := 60000 * (i : Int) }

/-- A store holding the room `AAAAAA` and 51 messages of it, sent at the
minutes 0, ..., 50. -/
def archiveDb : Db :=
  { rooms := [{ id := "AAAAAA", created_at := 0, last_activity := 3000000 }],
    messages := (List.range 51).map archiveRow,
    nextMessageId := 52 }

/-- A freshly started server over `archiveDb`, with socket `c1` connected. -/
def archiveState : State :=
  connection (initialState archiveDb) "c1" 3600000

/-- Socket `c1` connects to a fresh server with an empty store, creates the
rooms `AAAAAA` and `BBBBBB`, joins `AAAAAA` and then joins `BBBBBB`. -/
def twoRoomsState : State :=
  let s0 := connection (initialState emptyDb) "c1" 0
  let s1 := ((createRoom s0 "c1" (createArgs 0 1)).getD (s0, [])).1
  let s2 := ((createRoom s1 "c1" (createArgs 1 2)).getD (s1, [])).1
  let s3 := (joinRoom defaultEnv s2 "c1" (joinArgs "AAAAAA" 3)).1
  (joinRoom defaultEnv s3 "c1" (joinArgs "BBBBBB" 4)).1

/-- The ids of the rooms whose participant map holds the socket. -/
def roomsOf (s : State) (socket : SocketId) : List RoomId :=
  (s.rooms.filter (fun e => JSMap.has e.2.users socket)).map Prod.fst

/-- The number of participant entries over all rooms. -/
def participantEntries (rooms : JSMap RoomId Room) : Nat :=
  (rooms.map (fun e => e.2.users.length)).sum

/-- The events emitted by a handler, in order, whoever the addressee. -/
def emittedEvents : List Effect → List String
  | [] => []
  | .emitSocket _ event _ :: rest => event :: emittedEvents rest
  | .emitRoom _ event _ :: rest => event :: emittedEvents rest
  | .emitOthers _ _ event _ :: rest => event :: emittedEvents rest
  | _ :: rest => emittedEvents rest

/-- A login with the configured secret of `defaultEnv` and a healthy store. -/
def goodLogin : LoginArgs :=
  { secret := some "BOLT_ADMIN_SECRET", roomsFault := none }

/-- On top of `demoState`, socket `a1` connects at instant 1 and logs in as
administrator. -/
def adminState : State :=
  (adminLogin defaultEnv (connection demoState "a1" 1) "a1" goodLogin).1

/-- The inputs of a `delete-room` with a healthy store; every forced
disconnect reads the clock at instant `t`. -/
def deleteArgs (roomId : RoomId) (t : Int) : DeleteArgs :=
  { roomId := roomId, lookupFault := none, messagesFault := none, roomFault := none,
    disconnectTime := fun _ => t }

/-- On top of `adminState`, socket `c2` connects at instant 2. -/
def raceState : State :=
  connection adminState "c2" 2

/-- A schedule of the event loop during a `delete-room`: while the handler
waits for the answer of the deletion of the messages (line 410), the
`join-room` of `AAAAAA` by `c2` at instant 9 is handled, from its first line
to its callback; nothing else runs. -/
def joinWhileDeleting : DeletePoint → State → State × List Effect
  | .messagesAnswered, s => joinRoom defaultEnv s "c2" (joinArgs "AAAAAA" 9)
  | _, s => (s, [])

/-- A `send-message` of `hi` at instant 5 whose insert fails. -/
def failedInsertArgs : SendArgs :=
  { sendArgs "AAAAAA" 5 with insertFault := some { code := "57014" } }

/-- Whether the effect is a deletion of the room by the cleanup: one of its
two store deletions or its notice to an administrator. -/
def Effect.sweeps (roomId : RoomId) : Effect → Bool
  | .db (.deleteMessages r) => r = roomId
  | .db (.deleteRoom r) => r = roomId
  | .emitRoom _ event (.roomDeleted r _) => event = "room-deleted-admin-notify" && r = roomId
  | _ => false

/-- A run of the cleanup timer at instant `t` with a healthy store. -/
def sweepArgs (t : Int) : SweepArgs :=
  { now := t, fetchFault := none, messagesFault := fun _ => none, roomFault := fun _ => none }

/-- A `join-room` of `AAAAAA` at instant 7 during which the update of the
durable last-activity fails, the other store calls being healthy. -/
def failedTouchJoin : JoinArgs :=
  { joinArgs "AAAAAA" 7 with touchFault := some { code := "57014" } }

/-- A `send-message` of `hi` at instant 5 during which the update of the
durable last-activity fails, the insert being healthy. -/
def failedTouchSend : SendArgs :=
  { sendArgs "AAAAAA" 5 with touchFault := some { code := "57014" } }

/-- The last `k` elements of a list, in order (the whole list when it is
shorter). -/
def lastN {α : Type} (k : Nat) (l : List α) : List α :=
  l.drop (l.length - k)

/-- The message of an effect that is a `new-message` broadcast to the room. -/
def newMessageOf (roomId : RoomId) : Effect → Option ChatMessage
  | .emitRoom room event (.newMessage m) =>
    if room = roomId ∧ event = "new-message" then some m else none
  | _ => none

/-- The messages broadcast as `new-message` to the room, in order. -/
def newMessagesTo (roomId : RoomId) (effects : List Effect) : List ChatMessage :=
  effects.filterMap (newMessageOf roomId)

/-- The message cache of the in-memory entry of a room, if there is one. -/
def cacheOf (s : State) (roomId : RoomId) : Option (List ChatMessage) :=
  (JSMap.get s.rooms roomId).map (fun room => room.messages)

/-- A run of `send-message` events of any sockets, in order: the final state
and all the effects. -/
def sendMany (env : Env) : State → List (SocketId × SendArgs) → State × List Effect
  | s, [] => (s, [])
  | s, (socket, a) :: rest =>
    let r := sendMessage env s socket a
    let rs := sendMany env r.1 rest
    (rs.1, r.2 ++ rs.2)

/-- Every cache of the second map is empty or is the cache of an entry of the
first map with the same room id. -/
def CachesKept (rooms rooms' : JSMap RoomId Room) : Prop :=
  ∀ e' ∈ rooms', e'.2.messages = [] ∨ ∃ e ∈ rooms, e.1 = e'.1 ∧ e.2.messages = e'.2.messages

/-- The number of attempts, made at the given instants from the given limiter
state, that the limiter accepts and whose instant lies in `[T, T + window]`. -/
def acceptedIn (env : Env) (T : Int) : RateLimit → List Int → Nat
  | _, [] => 0
  | limit, now :: rest =>
    (if (rateLimitStep env limit now).2 && decide (T ≤ now)
        && decide (now ≤ T + env.RATE_LIMIT_WINDOW_MS) then 1 else 0)
      + acceptedIn env T (rateLimitStep env limit now).1 rest

/-- The number of `send-message` events of a run of one socket that are not
answered by the rate-limit rejection and whose instant lies in
`[T, T + window]`. -/
def acceptedWithin (env : Env) (socket : SocketId) (T : Int) : State → List SendArgs → Nat
  | _, [] => 0
  | s, a :: rest =>
    (if !isRateLimited (sendMessage env s socket a).2 && decide (T ≤ a.now)
        && decide (a.now ≤ T + env.RATE_LIMIT_WINDOW_MS) then 1 else 0)
      + acceptedWithin env socket T (sendMessage env s socket a).1 rest

/-! # Theorems -/

/-! ## Maps -/

theorem JSMap.get_set_self {κ ν : Type} [DecidableEq κ] (m : JSMap κ ν) (k : κ) (v : ν) :
    JSMap.get (JSMap.set m k v) k = some v := by
  induction m with
  | nil => simp [JSMap.set, JSMap.get]
  | cons e rest ih =>
    obtain ⟨k', v'⟩ := e
    by_cases h : k' = k
    · simp [JSMap.set, JSMap.get, h]
    · simp [JSMap.set, JSMap.get, h, ih]

theorem JSMap.get_set_ne {κ ν : Type} [DecidableEq κ] (m : JSMap κ ν) (k k₂ : κ) (v : ν)
    (hne : k₂ ≠ k) : JSMap.get (JSMap.set m k v) k₂ = JSMap.get m k₂ := by
  induction m with
  | nil => simp [JSMap.set, JSMap.get, Ne.symm hne]
  | cons e rest ih =>
    obtain ⟨k', v'⟩ := e
    by_cases h : k' = k
    · subst h
      simp [JSMap.set, JSMap.get, Ne.symm hne]
    · by_cases h2 : k' = k₂
      · subst h2
        simp [JSMap.set, JSMap.get, h]
      · simp [JSMap.set, JSMap.get, h, h2, ih]

/-! ## The limiter inside `send-message` -/

theorem rateLimitStep_elapsed (env : Env) (limit : RateLimit) (now : Int)
    (h : limit.lastReset + env.RATE_LIMIT_WINDOW_MS < now) :
    rateLimitStep env limit now = ({ count := 1, lastReset := now }, true) := by
  have h' : now - limit.lastReset > env.RATE_LIMIT_WINDOW_MS := by omega
  simp [rateLimitStep, h']

theorem rateLimitStep_within (env : Env) (limit : RateLimit) (now : Int)
    (h : ¬ limit.lastReset + env.RATE_LIMIT_WINDOW_MS < now) :
    rateLimitStep env limit now
      = ({ count := limit.count + 1, lastReset := limit.lastReset },
         !decide (env.RATE_LIMIT_MAX_MESSAGES < ((limit.count + 1 : Nat) : Int))) := by
  have h' : ¬ now - limit.lastReset > env.RATE_LIMIT_WINDOW_MS := by omega
  unfold rateLimitStep
  rw [if_neg h']
  by_cases hc : ((limit.count + 1 : Nat) : Int) > env.RATE_LIMIT_MAX_MESSAGES
  · simp only [hc, if_true]
    simp [gt_iff_lt.mp hc]
  · simp only [hc, if_false]
    have : ¬ env.RATE_LIMIT_MAX_MESSAGES < ((limit.count + 1 : Nat) : Int) := hc
    simp [this]

theorem sendMessage_rateLimits (env : Env) (s : State) (socket : SocketId) (a : SendArgs)
    (room : Room) (user : User) (limit : RateLimit)
    (hroom : JSMap.get s.rooms a.roomId = some room)
    (huser : JSMap.get room.users socket = some user)
    (hlimit : JSMap.get s.rateLimits socket = some limit) :
    (sendMessage env s socket a).1.rateLimits
      = JSMap.set s.rateLimits socket (rateLimitStep env limit a.now).1 := by
  unfold sendMessage
  simp only [hroom, huser, hlimit]
  split
  · rfl
  · split
    · rfl
    · split <;> rfl

theorem sendMessage_rejected (env : Env) (s : State) (socket : SocketId) (a : SendArgs)
    (room : Room) (user : User) (limit : RateLimit)
    (hroom : JSMap.get s.rooms a.roomId = some room)
    (huser : JSMap.get room.users socket = some user)
    (hlimit : JSMap.get s.rateLimits socket = some limit)
    (hstep : (rateLimitStep env limit a.now).2 = false) :
    sendMessage env s socket a
      = ({ s with rateLimits := JSMap.set s.rateLimits socket (rateLimitStep env limit a.now).1 },
         [.emitSocket socket "rate-limit-exceeded" rateLimitNotice]) := by
  unfold sendMessage
  simp only [hroom, huser, hlimit, hstep]
  rfl

theorem sendMessage_passed (env : Env) (s : State) (socket : SocketId) (a : SendArgs)
    (room : Room) (user : User) (limit : RateLimit)
    (hroom : JSMap.get s.rooms a.roomId = some room)
    (huser : JSMap.get room.users socket = some user)
    (hlimit : JSMap.get s.rateLimits socket = some limit)
    (hstep : (rateLimitStep env limit a.now).2 = true) :
    isRateLimited (sendMessage env s socket a).2 = false := by
  unfold sendMessage
  simp only [hroom, huser, hlimit, hstep]
  simp only [Bool.not_true, Bool.false_eq_true, if_false]
  split
  · simp [isRateLimited]
  · split <;> simp [isRateLimited]

theorem sendMessage_isRateLimited (env : Env) (s : State) (socket : SocketId) (a : SendArgs)
    (room : Room) (user : User) (limit : RateLimit)
    (hroom : JSMap.get s.rooms a.roomId = some room)
    (huser : JSMap.get room.users socket = some user)
    (hlimit : JSMap.get s.rateLimits socket = some limit) :
    isRateLimited (sendMessage env s socket a).2 = !(rateLimitStep env limit a.now).2 := by
  cases hstep : (rateLimitStep env limit a.now).2
  · rw [sendMessage_rejected env s socket a room user limit hroom huser hlimit hstep]
    simp [isRateLimited]
  · rw [sendMessage_passed env s socket a room user limit hroom huser hlimit hstep]
    rfl

theorem sendMessage_keeps_participant (env : Env) (s : State) (socket : SocketId)
    (a : SendArgs) (room : Room) (user : User)
    (hroom : JSMap.get s.rooms a.roomId = some room)
    (huser : JSMap.get room.users socket = some user) :
    ∃ room' user', JSMap.get (sendMessage env s socket a).1.rooms a.roomId = some room'
      ∧ JSMap.get room'.users socket = some user' := by
  unfold sendMessage
  simp only [hroom, huser]
  split
  · exact ⟨room, user, hroom, huser⟩
  · split
    · exact ⟨room, user, hroom, huser⟩
    · split
      · exact ⟨room, user, hroom, huser⟩
      · split
        · exact ⟨room, user, hroom, huser⟩
        · exact ⟨_, _, JSMap.get_set_self _ _ _, JSMap.get_set_self _ _ _⟩

/-- A run of sends that stays inside the current window and under the
maximum: nothing is rejected, the sender stays a participant and the count
grows by the number of sends. -/
theorem sendAll_within_window (env : Env) (socket : SocketId) (roomId : RoomId)
    (attempts : List SendArgs) :
    ∀ (s : State) (room : Room) (user : User) (limit : RateLimit),
      JSMap.get s.rooms roomId = some room →
      JSMap.get room.users socket = some user →
      JSMap.get s.rateLimits socket = some limit →
      (∀ a ∈ attempts, a.roomId = roomId) →
      (∀ a ∈ attempts, a.now - limit.lastReset ≤ env.RATE_LIMIT_WINDOW_MS) →
      ((limit.count + attempts.length : Nat) : Int) ≤ env.RATE_LIMIT_MAX_MESSAGES →
      (∀ eff ∈ (sendAll env socket s attempts).2, isRateLimited eff = false)
      ∧ ∃ room' user',
          JSMap.get (sendAll env socket s attempts).1.rooms roomId = some room'
          ∧ JSMap.get room'.users socket = some user'
          ∧ JSMap.get (sendAll env socket s attempts).1.rateLimits socket
              = some { count := limit.count + attempts.length, lastReset := limit.lastReset } := by
  induction attempts with
  | nil =>
    intro s room user limit hroom huser hlimit _ _ _
    exact ⟨by simp [sendAll], room, user, hroom, huser, by simpa [sendAll] using hlimit⟩
  | cons a rest ih =>
    intro s room user limit hroom huser hlimit hids hwin hmax
    have hid : a.roomId = roomId := hids a (List.mem_cons_self _ _)
    subst hid
    have hw : ¬ limit.lastReset + env.RATE_LIMIT_WINDOW_MS < a.now := by
      have := hwin a (List.mem_cons_self _ _)
      omega
    have hlen : ((limit.count + 1 : Nat) : Int) ≤ env.RATE_LIMIT_MAX_MESSAGES := by
      simp only [List.length_cons] at hmax
      push_cast at hmax ⊢
      omega
    have hstep : rateLimitStep env limit a.now
        = ({ count := limit.count + 1, lastReset := limit.lastReset }, true) := by
      rw [rateLimitStep_within env limit a.now hw]
      have : ¬ env.RATE_LIMIT_MAX_MESSAGES < ((limit.count + 1 : Nat) : Int) := not_lt.mpr hlen
      rw [decide_eq_false this]
      rfl
    obtain ⟨room1, user1, hroom1, huser1⟩ :=
      sendMessage_keeps_participant env s socket a room user hroom huser
    have hlimit1 : JSMap.get (sendMessage env s socket a).1.rateLimits socket
        = some { count := limit.count + 1, lastReset := limit.lastReset } := by
      rw [sendMessage_rateLimits env s socket a room user limit hroom huser hlimit,
        JSMap.get_set_self, hstep]
    have hrec := ih (sendMessage env s socket a).1 room1 user1
      { count := limit.count + 1, lastReset := limit.lastReset } hroom1 huser1 hlimit1
      (fun b hb => hids b (List.mem_cons_of_mem _ hb))
      (fun b hb => hwin b (List.mem_cons_of_mem _ hb))
      (by
        simp only [List.length_cons] at hmax
        push_cast at hmax ⊢
        omega)
    obtain ⟨hacc, room2, user2, hroom2, huser2, hlimit2⟩ := hrec
    refine ⟨?_, room2, user2, ?_, huser2, ?_⟩
    · intro eff heff
      simp only [sendAll, List.mem_cons] at heff
      rcases heff with rfl | heff
      · rw [sendMessage_isRateLimited env s socket a room user limit hroom huser hlimit, hstep]
        rfl
      · exact hacc eff heff
    · simpa [sendAll] using hroom2
    · simp only [sendAll, List.length_cons]
      rw [hlimit2]
      simp [Nat.add_assoc, Nat.add_comm 1]

/-- A run of sends inside the current window that brings the count up to the
maximum, followed by one more send inside the window: the run is accepted and
the last send is rejected, to the sender alone, with rooms and store kept. -/
theorem sendAll_fills_window (env : Env) (socket : SocketId) (roomId : RoomId)
    (first : List SendArgs) (last : SendArgs) (s : State) (room : Room) (user : User)
    (limit : RateLimit)
    (hroom : JSMap.get s.rooms roomId = some room)
    (huser : JSMap.get room.users socket = some user)
    (hlimit : JSMap.get s.rateLimits socket = some limit)
    (hids : ∀ a ∈ first ++ [last], a.roomId = roomId)
    (hwin : ∀ a ∈ first ++ [last], a.now - limit.lastReset ≤ env.RATE_LIMIT_WINDOW_MS)
    (hfull : ((limit.count + first.length : Nat) : Int) = env.RATE_LIMIT_MAX_MESSAGES) :
    (∀ eff ∈ (sendAll env socket s first).2, isRateLimited eff = false)
    ∧ (sendMessage env (sendAll env socket s first).1 socket last).2
        = [.emitSocket socket "rate-limit-exceeded" rateLimitNotice]
    ∧ (sendMessage env (sendAll env socket s first).1 socket last).1.rooms
        = (sendAll env socket s first).1.rooms
    ∧ (sendMessage env (sendAll env socket s first).1 socket last).1.db
        = (sendAll env socket s first).1.db := by
  obtain ⟨hacc, room', user', hroom', huser', hlimit'⟩ :=
    sendAll_within_window env socket roomId first s room user limit hroom huser hlimit
      (fun a ha => hids a (List.mem_append_left _ ha))
      (fun a ha => hwin a (List.mem_append_left _ ha))
      (le_of_eq hfull)
  have hid : last.roomId = roomId := hids last (by simp)
  subst hid
  have hw : ¬ limit.lastReset + env.RATE_LIMIT_WINDOW_MS < last.now := by
    have := hwin last (by simp)
    omega
  have hstep : (rateLimitStep env
      { count := limit.count + first.length, lastReset := limit.lastReset } last.now).2
        = false := by
    rw [rateLimitStep_within env
      { count := limit.count + first.length, lastReset := limit.lastReset } last.now hw]
    simp only [Bool.not_eq_false', decide_eq_true_eq, ← hfull]
    push_cast
    omega
  rw [sendMessage_rejected env _ socket last room' user' _ hroom' huser' hlimit' hstep]
  exact ⟨hacc, rfl, rfl, rfl⟩

/-! ## Validation inside `send-message` -/

theorem trim_length_le (str : JSString) : (trim str).length ≤ str.length := by
  unfold trim
  rw [List.length_reverse]
  calc ((List.dropWhile isTrimUnit str).reverse.dropWhile isTrimUnit).length
      ≤ (List.dropWhile isTrimUnit str).reverse.length :=
        (List.dropWhile_sublist _).length_le
    _ = (List.dropWhile isTrimUnit str).length := List.length_reverse _
    _ ≤ str.length := (List.dropWhile_sublist _).length_le

theorem valid_content (v : JSValue) (h : invalidMessage v = false) :
    trim v.text ≠ [] ∧ (trim v.text).length ≤ 500 := by
  cases v with
  | other t => simp [invalidMessage] at h
  | str str =>
    simp only [invalidMessage, Bool.or_eq_false_iff, beq_eq_false_iff_ne, ne_eq,
      decide_eq_false_iff_not, not_lt] at h
    obtain ⟨⟨_, hne⟩, hlen⟩ := h
    refine ⟨fun hnil => hne (by simp [JSValue.text] at hnil; simp [hnil]), ?_⟩
    exact le_trans (trim_length_le str) (by simpa using hlen)

theorem sendMessage_invalid (env : Env) (s : State) (socket : SocketId) (a : SendArgs)
    (room : Room) (user : User) (limit : RateLimit)
    (hroom : JSMap.get s.rooms a.roomId = some room)
    (huser : JSMap.get room.users socket = some user)
    (hlimit : JSMap.get s.rateLimits socket = some limit)
    (hstep : (rateLimitStep env limit a.now).2 = true)
    (hinv : invalidMessage a.message = true) :
    sendMessage env s socket a
      = (afterLimiter env s socket limit a.now,
         [.emitSocket socket "message-error" (.notice "Invalid message content or length.")]) := by
  unfold sendMessage
  simp only [hroom, huser, hlimit, hstep, hinv]
  rfl

theorem sendMessage_insert_failed (env : Env) (s : State) (socket : SocketId) (a : SendArgs)
    (room : Room) (user : User) (limit : RateLimit) (e : DbError)
    (hroom : JSMap.get s.rooms a.roomId = some room)
    (huser : JSMap.get room.users socket = some user)
    (hlimit : JSMap.get s.rateLimits socket = some limit)
    (hstep : (rateLimitStep env limit a.now).2 = true)
    (hinv : invalidMessage a.message = false)
    (hfault : a.insertFault = some e) :
    sendMessage env s socket a
      = (afterLimiter env s socket limit a.now,
         [.db (.insertMessage a.roomId user.username (trim a.message.text) a.messageTimestamp),
          .emitSocket socket "message-error"
            (.notice "Failed to send message (database error).")]) := by
  unfold sendMessage
  simp only [hroom, huser, hlimit, hstep, hinv, hfault, Db.insertMessage]
  rfl

theorem sendMessage_stored (env : Env) (s : State) (socket : SocketId) (a : SendArgs)
    (room : Room) (user : User) (limit : RateLimit)
    (hroom : JSMap.get s.rooms a.roomId = some room)
    (huser : JSMap.get room.users socket = some user)
    (hlimit : JSMap.get s.rateLimits socket = some limit)
    (hstep : (rateLimitStep env limit a.now).2 = true)
    (hinv : invalidMessage a.message = false)
    (hfault : a.insertFault = none) :
    sendMessage env s socket a
      = ({ afterLimiter env s socket limit a.now with
           db := Db.touchRoom
             { s.db with
               messages := s.db.messages ++
                 [{ id := s.db.nextMessageId, room_id := a.roomId, username := user.username,
                    content := trim a.message.text, timestamp := a.messageTimestamp }]
               nextMessageId := s.db.nextMessageId + 1 }
             a.roomId a.messageTimestamp a.touchFault
           rooms := JSMap.set s.rooms a.roomId
             { users := JSMap.set room.users socket
                 { user with lastActivity := a.messageTimestamp }
               messages := pushBounded room.messages
                 { id := s.db.nextMessageId, username := user.username,
                   message := trim a.message.text,
                   timestamp := env.toLocaleTimeString a.messageTimestamp, isSelf := false }
               lastActivity := a.messageTimestamp } },
         [.db (.insertMessage a.roomId user.username (trim a.message.text) a.messageTimestamp),
          .db (.touchRoom a.roomId a.messageTimestamp),
          .emitRoom a.roomId "new-message"
            (.newMessage
              { id := s.db.nextMessageId, username := user.username,
                message := trim a.message.text,
                timestamp := env.toLocaleTimeString a.messageTimestamp, isSelf := false })]) := by
  unfold sendMessage
  simp only [hroom, huser, hlimit, hstep, hinv, hfault, Db.insertMessage]
  rfl

/-- The outcomes of `send-message`, one per path of the handler. -/
theorem sendMessage_cases (env : Env) (s : State) (socket : SocketId) (a : SendArgs) :
    sendMessage env s socket a = (s, [])
    ∨ sendMessage env s socket a = (s, [.typeError])
    ∨ ∃ room user limit,
        JSMap.get s.rooms a.roomId = some room
        ∧ JSMap.get room.users socket = some user
        ∧ JSMap.get s.rateLimits socket = some limit
        ∧ ((rateLimitStep env limit a.now).2 = false
            ∨ ((rateLimitStep env limit a.now).2 = true ∧ invalidMessage a.message = true)
            ∨ ((rateLimitStep env limit a.now).2 = true ∧ invalidMessage a.message = false
                ∧ ∃ e, a.insertFault = some e)
            ∨ ((rateLimitStep env limit a.now).2 = true ∧ invalidMessage a.message = false
                ∧ a.insertFault = none)) := by
  cases hroom : JSMap.get s.rooms a.roomId with
  | none => left; unfold sendMessage; simp only [hroom]
  | some room =>
    cases huser : JSMap.get room.users socket with
    | none => left; unfold sendMessage; simp only [hroom, huser]
    | some user =>
      cases hlimit : JSMap.get s.rateLimits socket with
      | none => right; left; unfold sendMessage; simp only [hroom, huser, hlimit]
      | some limit =>
        right; right
        refine ⟨room, user, limit, rfl, huser, rfl, ?_⟩
        cases hstep : (rateLimitStep env limit a.now).2 with
        | false => exact Or.inl rfl
        | true =>
          cases hinv : invalidMessage a.message with
          | true => exact Or.inr (Or.inl ⟨rfl, rfl⟩)
          | false =>
            cases hf : a.insertFault with
            | some e => exact Or.inr (Or.inr (Or.inl ⟨rfl, rfl, e, rfl⟩))
            | none => exact Or.inr (Or.inr (Or.inr ⟨rfl, rfl, rfl⟩))

/-- Every store call `insert` of a message made by `send-message` carries the
trimmed text of a message that passed the validation. -/
theorem sendMessage_insert_content (env : Env) (s : State) (socket : SocketId) (a : SendArgs)
    (roomId : RoomId) (username : String) (content : JSString) (t : Int)
    (h : Effect.db (.insertMessage roomId username content t) ∈ (sendMessage env s socket a).2) :
    content = trim a.message.text ∧ invalidMessage a.message = false := by
  rcases sendMessage_cases env s socket a with h0 | h0 | ⟨room, user, limit, hroom, huser,
    hlimit, hstep | ⟨hstep, hinv⟩ | ⟨hstep, hinv, e, hf⟩ | ⟨hstep, hinv, hf⟩⟩
  · rw [h0] at h; simp at h
  · rw [h0] at h; simp at h
  · rw [sendMessage_rejected env s socket a room user limit hroom huser hlimit hstep] at h
    simp at h
  · rw [sendMessage_invalid env s socket a room user limit hroom huser hlimit hstep hinv] at h
    simp at h
  · rw [sendMessage_insert_failed env s socket a room user limit e hroom huser hlimit hstep
      hinv hf] at h
    simp at h
    exact ⟨h.2.2.1, hinv⟩
  · rw [sendMessage_stored env s socket a room user limit hroom huser hlimit hstep hinv hf] at h
    simp at h
    exact ⟨h.2.2.1, hinv⟩

theorem Db.touchRoom_messages (db : Db) (roomId : RoomId) (t : Int) (fault : Option DbError) :
    (db.touchRoom roomId t fault).messages = db.messages := by
  cases fault <;> rfl

/-- The rows of the table `messages` after a `send-message`: the same, or one
more row whose content is the trimmed text of a message that passed the
validation. -/
theorem sendMessage_db_messages (env : Env) (s : State) (socket : SocketId) (a : SendArgs) :
    (sendMessage env s socket a).1.db.messages = s.db.messages
    ∨ ∃ row, (sendMessage env s socket a).1.db.messages = s.db.messages ++ [row]
        ∧ row.content = trim a.message.text ∧ invalidMessage a.message = false := by
  rcases sendMessage_cases env s socket a with h0 | h0 | ⟨room, user, limit, hroom, huser,
    hlimit, hstep | ⟨hstep, hinv⟩ | ⟨hstep, hinv, e, hf⟩ | ⟨hstep, hinv, hf⟩⟩
  · rw [h0]; exact Or.inl rfl
  · rw [h0]; exact Or.inl rfl
  · rw [sendMessage_rejected env s socket a room user limit hroom huser hlimit hstep]
    exact Or.inl rfl
  · rw [sendMessage_invalid env s socket a room user limit hroom huser hlimit hstep hinv]
    exact Or.inl rfl
  · rw [sendMessage_insert_failed env s socket a room user limit e hroom huser hlimit hstep
      hinv hf]
    exact Or.inl rfl
  · rw [sendMessage_stored env s socket a room user limit hroom huser hlimit hstep hinv hf]
    right
    exact ⟨_, Db.touchRoom_messages _ _ _ _, rfl, hinv⟩

/-! ## The existence check of `join-room` -/

theorem joinRoom_not_found (env : Env) (s : State) (socket : SocketId) (a : JoinArgs)
    (h : ((s.db.selectRoomSingle a.roomId a.lookupFault).error.isSome
      || (s.db.selectRoomSingle a.roomId a.lookupFault).data.isNone) = true) :
    joinRoom env s socket a
      = (s, [.db (.selectRoom a.roomId),
             .callback socket (.failure "Room not found or database error.")]) := by
  unfold joinRoom
  simp only [h, if_true]

/-! ## The loop of `disconnect` -/

theorem JSMap.delete_split {κ ν : Type} [DecidableEq κ] (m : JSMap κ ν) (k : κ) (v : ν)
    (h : JSMap.get m k = some v) :
    ∃ pre post, m = pre ++ (k, v) :: post ∧ (∀ e ∈ pre, e.1 ≠ k)
      ∧ JSMap.delete m k = pre ++ post := by
  induction m with
  | nil => simp [JSMap.get] at h
  | cons e rest ih =>
    obtain ⟨k', v'⟩ := e
    by_cases hk : k' = k
    · subst hk
      simp only [JSMap.get, if_true, Option.some.injEq] at h
      subst h
      exact ⟨[], rest, rfl, by simp, by simp [JSMap.delete]⟩
    · simp only [JSMap.get, hk, if_false] at h
      obtain ⟨pre, post, hm, hpre, hdel⟩ := ih h
      refine ⟨(k', v') :: pre, post, by simp [hm], ?_, by simp [JSMap.delete, hk, hdel]⟩
      intro e he
      rcases List.mem_cons.mp he with rfl | he
      · exact hk
      · exact hpre e he

/-- The loop either finds the socket in no room and changes nothing, or
removes the socket's entry from the first room that holds it and touches
nothing else but that room's activity instant. -/
theorem leaveFirstRoom_frame (socket : SocketId) (now : Int) (rooms : JSMap RoomId Room) :
    ((∀ e ∈ rooms, JSMap.get e.2.users socket = none)
      ∧ leaveFirstRoom socket now rooms = (rooms, []))
    ∨ ∃ pre roomId room post upre user upost,
        rooms = pre ++ (roomId, room) :: post
        ∧ room.users = upre ++ (socket, user) :: upost
        ∧ leaveFirstRoom socket now rooms
            = (pre ++ (roomId, { users := upre ++ upost, messages := room.messages,
                                 lastActivity := now }) :: post,
               [.emitRoom roomId "user-left"
                  (.userLeft user.username (activeUsers (upre ++ upost)))]) := by
  induction rooms with
  | nil => left; exact ⟨by simp, rfl⟩
  | cons e rest ih =>
    obtain ⟨roomId, roomData⟩ := e
    cases hget : JSMap.get roomData.users socket with
    | some user =>
      right
      obtain ⟨upre, upost, hu, _, hdel⟩ := JSMap.delete_split roomData.users socket user hget
      refine ⟨[], roomId, roomData, rest, upre, user, upost, rfl, hu, ?_⟩
      simp [leaveFirstRoom, hget, hdel]
    | none =>
      rcases ih with ⟨hnone, heq⟩ | ⟨pre, rid, room, post, upre, user, upost, hr, hu, heq⟩
      · left
        refine ⟨?_, by simp [leaveFirstRoom, hget, heq]⟩
        intro e he
        rcases List.mem_cons.mp he with rfl | he
        · exact hget
        · exact hnone e he
      · right
        refine ⟨(roomId, roomData) :: pre, rid, room, post, upre, user, upost,
          by simp [hr], hu, ?_⟩
        simp [leaveFirstRoom, hget, heq]

/-! ## Claims -/

/-- C1, as stated, fails: a fresh connection (count 0, window start 0) under
the default configuration (10 messages per 60000 ms) sends eleven messages at
the instants 59995, ..., 60005, all within a span of 10 ms; the window
restarts at the seventh, and none of the eleven is rejected. -/
theorem rate_limit_burst_across_window_start :
    roomsOf demoState "c1" = ["AAAAAA"]
    ∧ JSMap.get demoState.rateLimits "c1" = some { count := 0, lastReset := 0 }
    ∧ burst.map (fun a => (a.roomId, a.now))
        = [("AAAAAA", 59995), ("AAAAAA", 59996), ("AAAAAA", 59997), ("AAAAAA", 59998),
           ("AAAAAA", 59999), ("AAAAAA", 60000), ("AAAAAA", 60001), ("AAAAAA", 60002),
           ("AAAAAA", 60003), ("AAAAAA", 60004), ("AAAAAA", 60005)]
    ∧ (burst.length : Int) = defaultEnv.RATE_LIMIT_MAX_MESSAGES + 1
    ∧ (∀ a ∈ burst, ∀ b ∈ burst, a.now - b.now ≤ defaultEnv.RATE_LIMIT_WINDOW_MS)
    ∧ (sendAll defaultEnv "c1" demoState burst).2.map isRateLimited
        = List.replicate 11 false := by
  decide

/-- C1, amended: a participant makes MAX + 1 send attempts that fall into one
window of its limiter: either the limiter's count is 0 and every instant is
within RATE_LIMIT_WINDOW_MS of the limiter's window start, or the first
attempt comes after the window has elapsed (and restarts it) and every later
instant is within RATE_LIMIT_WINDOW_MS of the first. Then none of the first
MAX attempts is rejected by the limiter, and the last one is answered by
`rate-limit-exceeded` to the sender alone, with the rooms and the durable
store left as they were. -/
theorem rate_limit_one_window (env : Env) (n : Nat) (s : State) (socket : SocketId)
    (roomId : RoomId) (room : Room) (user : User) (limit : RateLimit)
    (first : List SendArgs) (last : SendArgs)
    (hmax : env.RATE_LIMIT_MAX_MESSAGES = (n : Int))
    (hroom : JSMap.get s.rooms roomId = some room)
    (huser : JSMap.get room.users socket = some user)
    (hlimit : JSMap.get s.rateLimits socket = some limit)
    (hlen : first.length = n)
    (hids : ∀ a ∈ first ++ [last], a.roomId = roomId)
    (hwindow :
      (limit.count = 0
        ∧ ∀ a ∈ first ++ [last], a.now - limit.lastReset ≤ env.RATE_LIMIT_WINDOW_MS)
      ∨ ∃ a₀ rest, first = a₀ :: rest
          ∧ limit.lastReset + env.RATE_LIMIT_WINDOW_MS < a₀.now
          ∧ ∀ a ∈ rest ++ [last], a.now - a₀.now ≤ env.RATE_LIMIT_WINDOW_MS) :
    (∀ eff ∈ (sendAll env socket s first).2, isRateLimited eff = false)
    ∧ (sendMessage env (sendAll env socket s first).1 socket last).2
        = [.emitSocket socket "rate-limit-exceeded" rateLimitNotice]
    ∧ (sendMessage env (sendAll env socket s first).1 socket last).1.rooms
        = (sendAll env socket s first).1.rooms
    ∧ (sendMessage env (sendAll env socket s first).1 socket last).1.db
        = (sendAll env socket s first).1.db := by
  rcases hwindow with ⟨hfresh, hwin⟩ | ⟨a₀, rest, hfirst, helapsed, hwin⟩
  · exact sendAll_fills_window env socket roomId first last s room user limit hroom huser
      hlimit hids hwin (by rw [hfresh, hlen, hmax]; simp)
  · subst hfirst
    have hid : a₀.roomId = roomId := hids a₀ (by simp)
    subst hid
    have hstep : rateLimitStep env limit a₀.now = ({ count := 1, lastReset := a₀.now }, true) :=
      rateLimitStep_elapsed env limit a₀.now helapsed
    obtain ⟨room1, user1, hroom1, huser1⟩ :=
      sendMessage_keeps_participant env s socket a₀ room user hroom huser
    have hlimit1 : JSMap.get (sendMessage env s socket a₀).1.rateLimits socket
        = some { count := 1, lastReset := a₀.now } := by
      rw [sendMessage_rateLimits env s socket a₀ room user limit hroom huser hlimit,
        JSMap.get_set_self, hstep]
    have hrest := sendAll_fills_window env socket a₀.roomId rest last
      (sendMessage env s socket a₀).1 room1 user1 { count := 1, lastReset := a₀.now }
      hroom1 huser1 hlimit1
      (fun a ha => hids a (by
        rcases List.mem_append.mp ha with h | h
        · exact List.mem_append_left _ (List.mem_cons_of_mem _ h)
        · exact List.mem_append_right _ h))
      hwin
      (by
        simp only [List.length_cons] at hlen
        rw [hmax, ← hlen]
        push_cast
        omega)
    obtain ⟨hacc, hrej, hrooms, hdb⟩ := hrest
    refine ⟨?_, by simpa [sendAll] using hrej, by simpa [sendAll] using hrooms,
      by simpa [sendAll] using hdb⟩
    intro eff heff
    simp only [sendAll, List.mem_cons] at heff
    rcases heff with rfl | heff
    · rw [sendMessage_isRateLimited env s socket a₀ room user limit hroom huser hlimit, hstep]
      rfl
    · exact hacc eff heff

/-- Witness of `rate_limit_one_window`: the socket of `demoState` sends at
the instants 1, ..., 10 and then at 11, under the default configuration. -/
theorem rate_limit_one_window_witness :
    (∀ eff ∈ (sendAll defaultEnv "c1" demoState tenSends).2, isRateLimited eff = false)
    ∧ (sendMessage defaultEnv (sendAll defaultEnv "c1" demoState tenSends).1 "c1"
          (sendArgs "AAAAAA" 11)).2
        = [.emitSocket "c1" "rate-limit-exceeded" rateLimitNotice]
    ∧ (sendMessage defaultEnv (sendAll defaultEnv "c1" demoState tenSends).1 "c1"
          (sendArgs "AAAAAA" 11)).1.rooms
        = (sendAll defaultEnv "c1" demoState tenSends).1.rooms
    ∧ (sendMessage defaultEnv (sendAll defaultEnv "c1" demoState tenSends).1 "c1"
          (sendArgs "AAAAAA" 11)).1.db
        = (sendAll defaultEnv "c1" demoState tenSends).1.db :=
  rate_limit_one_window defaultEnv 10 demoState "c1" "AAAAAA"
    { users := [("c1", { username := "Guest_Swift_Wolf", lastActivity := 0 })],
      messages := [], lastActivity := 0 }
    { username := "Guest_Swift_Wolf", lastActivity := 0 }
    { count := 0, lastReset := 0 } tenSends (sendArgs "AAAAAA" 11)
    (by decide) (by decide) (by decide) (by decide) (by decide) (by decide)
    (Or.inl ⟨by decide, by decide⟩)

/-- C2, as stated, fails when RATE_LIMIT_MAX is configured as 0: the first send
after the window has elapsed sets the count to 1, which exceeds the maximum
0, and the message is nevertheless accepted, stored and broadcast. -/
theorem limiter_accepts_after_window_when_max_is_zero :
    zeroMaxEnv.RATE_LIMIT_MAX_MESSAGES = 0
    ∧ JSMap.get demoState.rateLimits "c1" = some { count := 0, lastReset := 0 }
    ∧ JSMap.get (sendMessage zeroMaxEnv demoState "c1" (sendArgs "AAAAAA" 60001)).1.rateLimits
        "c1" = some { count := 1, lastReset := 60001 }
    ∧ isRateLimited (sendMessage zeroMaxEnv demoState "c1" (sendArgs "AAAAAA" 60001)).2 = false
    ∧ (sendMessage zeroMaxEnv demoState "c1" (sendArgs "AAAAAA" 60001)).2
        = [.db (.insertMessage "AAAAAA" "Guest_Swift_Wolf" [104, 105] 60001),
           .db (.touchRoom "AAAAAA" 60001),
           .emitRoom "AAAAAA" "new-message"
             (.newMessage { id := 1, username := "Guest_Swift_Wolf", message := [104, 105],
                            timestamp := "00:01", isSelf := false })] := by
  decide

/-- C2, amended: one send attempt by a participant with limiter state
`(count, lastReset)` at instant `now`: past `lastReset + RATE_LIMIT_WINDOW_MS`
the state becomes `(1, now)` and the attempt is not rejected, whatever the
count was; otherwise the state becomes `(count + 1, lastReset)`; and the
attempt is rejected exactly when the window has not elapsed and the updated
count exceeds RATE_LIMIT_MAX_MESSAGES. -/
theorem rate_limiter_step (env : Env) (s : State) (socket : SocketId) (a : SendArgs)
    (room : Room) (user : User) (limit : RateLimit)
    (hroom : JSMap.get s.rooms a.roomId = some room)
    (huser : JSMap.get room.users socket = some user)
    (hlimit : JSMap.get s.rateLimits socket = some limit) :
    (limit.lastReset + env.RATE_LIMIT_WINDOW_MS < a.now →
        JSMap.get (sendMessage env s socket a).1.rateLimits socket
          = some { count := 1, lastReset := a.now }
        ∧ isRateLimited (sendMessage env s socket a).2 = false)
    ∧ (¬ limit.lastReset + env.RATE_LIMIT_WINDOW_MS < a.now →
        JSMap.get (sendMessage env s socket a).1.rateLimits socket
          = some { count := limit.count + 1, lastReset := limit.lastReset })
    ∧ ∀ limit', JSMap.get (sendMessage env s socket a).1.rateLimits socket = some limit' →
        ((isRateLimited (sendMessage env s socket a).2 = true
            ↔ ¬ limit.lastReset + env.RATE_LIMIT_WINDOW_MS < a.now
              ∧ env.RATE_LIMIT_MAX_MESSAGES < (limit'.count : Int))
          ∧ (1 ≤ env.RATE_LIMIT_MAX_MESSAGES →
              (isRateLimited (sendMessage env s socket a).2 = true
                ↔ env.RATE_LIMIT_MAX_MESSAGES < (limit'.count : Int)))) := by
  rw [sendMessage_rateLimits env s socket a room user limit hroom huser hlimit,
    JSMap.get_set_self,
    sendMessage_isRateLimited env s socket a room user limit hroom huser hlimit]
  by_cases h : limit.lastReset + env.RATE_LIMIT_WINDOW_MS < a.now
  · rw [rateLimitStep_elapsed env limit a.now h]
    refine ⟨fun _ => ⟨rfl, rfl⟩, fun hn => absurd h hn, ?_⟩
    intro limit' hl
    cases hl
    refine ⟨by simp [h], fun hmax => ?_⟩
    simp only [Bool.not_true, Bool.false_eq_true, false_iff, not_lt]
    exact_mod_cast hmax
  · rw [rateLimitStep_within env limit a.now h]
    refine ⟨fun hn => absurd hn h, fun _ => rfl, ?_⟩
    intro limit' hl
    cases hl
    refine ⟨by simp [h], fun _ => by simp⟩

/-- Witness of `rate_limiter_step`: the socket of `demoState` sends at
instant 5 under the default configuration. -/
theorem rate_limiter_step_witness :
    ((0 : Int) + defaultEnv.RATE_LIMIT_WINDOW_MS < 5 →
        JSMap.get (sendMessage defaultEnv demoState "c1" (sendArgs "AAAAAA" 5)).1.rateLimits "c1"
          = some { count := 1, lastReset := 5 }
        ∧ isRateLimited (sendMessage defaultEnv demoState "c1" (sendArgs "AAAAAA" 5)).2 = false)
    ∧ (¬ (0 : Int) + defaultEnv.RATE_LIMIT_WINDOW_MS < 5 →
        JSMap.get (sendMessage defaultEnv demoState "c1" (sendArgs "AAAAAA" 5)).1.rateLimits "c1"
          = some { count := 0 + 1, lastReset := 0 })
    ∧ ∀ limit',
        JSMap.get (sendMessage defaultEnv demoState "c1" (sendArgs "AAAAAA" 5)).1.rateLimits "c1"
          = some limit' →
        ((isRateLimited (sendMessage defaultEnv demoState "c1" (sendArgs "AAAAAA" 5)).2 = true
            ↔ ¬ (0 : Int) + defaultEnv.RATE_LIMIT_WINDOW_MS < 5
              ∧ defaultEnv.RATE_LIMIT_MAX_MESSAGES < (limit'.count : Int))
          ∧ (1 ≤ defaultEnv.RATE_LIMIT_MAX_MESSAGES →
              (isRateLimited (sendMessage defaultEnv demoState "c1" (sendArgs "AAAAAA" 5)).2
                  = true
                ↔ defaultEnv.RATE_LIMIT_MAX_MESSAGES < (limit'.count : Int)))) :=
  rate_limiter_step defaultEnv demoState "c1" (sendArgs "AAAAAA" 5)
    { users := [("c1", { username := "Guest_Swift_Wolf", lastActivity := 0 })],
      messages := [], lastActivity := 0 }
    { username := "Guest_Swift_Wolf", lastActivity := 0 }
    { count := 0, lastReset := 0 } (by decide) (by decide) (by decide)

/-- C3: a send by a participant that passes the limiter, with a message that
is not a string, or is empty after trimming, or has more than 500 code units,
is answered by `message-error` to the sender alone (no store call, no
broadcast) and leaves the rooms (caches, activity instants) and the store as
they were; and every content handed to or stored in the durable store by a
`send-message` is non-empty and at most 500 code units long. -/
theorem invalid_message_never_stored (env : Env) (s : State) (socket : SocketId)
    (a : SendArgs) :
    (∀ (room : Room) (user : User) (limit : RateLimit),
        JSMap.get s.rooms a.roomId = some room →
        JSMap.get room.users socket = some user →
        JSMap.get s.rateLimits socket = some limit →
        (rateLimitStep env limit a.now).2 = true →
        ((∀ str, a.message ≠ .str str)
          ∨ ∃ str, a.message = .str str ∧ (trim str = [] ∨ 500 < str.length)) →
        (sendMessage env s socket a).2
            = [.emitSocket socket "message-error"
                (.notice "Invalid message content or length.")]
          ∧ (sendMessage env s socket a).1.rooms = s.rooms
          ∧ (sendMessage env s socket a).1.db = s.db)
    ∧ (∀ roomId username content t,
        Effect.db (.insertMessage roomId username content t) ∈ (sendMessage env s socket a).2 →
        content ≠ [] ∧ content.length ≤ 500)
    ∧ (∀ row ∈ (sendMessage env s socket a).1.db.messages,
        row ∈ s.db.messages ∨ (row.content ≠ [] ∧ row.content.length ≤ 500)) := by
  refine ⟨?_, ?_, ?_⟩
  · intro room user limit hroom huser hlimit hpass hbad
    have hinv : invalidMessage a.message = true := by
      rcases hbad with hns | ⟨str, hstr, hempty | hlong⟩
      · cases hm : a.message with
        | other t => rfl
        | str str => exact absurd hm (hns str)
      · simp [hstr, invalidMessage, hempty]
      · simp [hstr, invalidMessage, hlong]
    rw [sendMessage_invalid env s socket a room user limit hroom huser hlimit hpass hinv]
    exact ⟨rfl, rfl, rfl⟩
  · intro roomId username content t h
    obtain ⟨hc, hv⟩ := sendMessage_insert_content env s socket a roomId username content t h
    rw [hc]
    exact valid_content a.message hv
  · intro row hrow
    rcases sendMessage_db_messages env s socket a with hsame | ⟨row', happ, hc, hv⟩
    · exact Or.inl (hsame ▸ hrow)
    · rw [happ, List.mem_append, List.mem_singleton] at hrow
      rcases hrow with hold | rfl
      · exact Or.inl hold
      · right
        rw [hc]
        exact valid_content a.message hv

/-- Witness of `invalid_message_never_stored`: the socket of `demoState` sends
a message of two spaces at instant 5. -/
theorem invalid_message_never_stored_witness :
    (sendMessage defaultEnv demoState "c1"
        { sendArgs "AAAAAA" 5 with message := .str [32, 32] }).2
      = [.emitSocket "c1" "message-error" (.notice "Invalid message content or length.")]
    ∧ (sendMessage defaultEnv demoState "c1"
        { sendArgs "AAAAAA" 5 with message := .str [32, 32] }).1.rooms = demoState.rooms
    ∧ (sendMessage defaultEnv demoState "c1"
        { sendArgs "AAAAAA" 5 with message := .str [32, 32] }).1.db = demoState.db :=
  (invalid_message_never_stored defaultEnv demoState "c1"
      { sendArgs "AAAAAA" 5 with message := .str [32, 32] }).1
    { users := [("c1", { username := "Guest_Swift_Wolf", lastActivity := 0 })],
      messages := [], lastActivity := 0 }
    { username := "Guest_Swift_Wolf", lastActivity := 0 }
    { count := 0, lastReset := 0 } (by decide) (by decide) (by decide) (by decide)
    (Or.inr ⟨[32, 32], rfl, Or.inl (by decide)⟩)

/-- C4: when the durable store has no row for the room id, or the lookup
fails, `join-room` answers `success: false` and the whole server state, the
rooms map included, is as before: no entry is created and nobody is added. -/
theorem join_unknown_room_fails (env : Env) (s : State) (socket : SocketId) (a : JoinArgs)
    (h : (∀ r ∈ s.db.rooms, r.id ≠ a.roomId) ∨ a.lookupFault ≠ none) :
    (joinRoom env s socket a).2
        = [.db (.selectRoom a.roomId),
           .callback socket (.failure "Room not found or database error.")]
    ∧ (joinRoom env s socket a).1 = s := by
  have hfound : ((s.db.selectRoomSingle a.roomId a.lookupFault).error.isSome
      || (s.db.selectRoomSingle a.roomId a.lookupFault).data.isNone) = true := by
    cases hf : a.lookupFault with
    | some e => simp [Db.selectRoomSingle]
    | none =>
      rcases h with hno | hfault
      · have hnil : s.db.rooms.filter (fun r => decide (r.id = a.roomId)) = [] := by
          rw [List.filter_eq_nil_iff]
          intro r hr
          simpa using hno r hr
        simp [Db.selectRoomSingle, hnil]
      · exact absurd hf hfault
  rw [joinRoom_not_found env s socket a hfound]
  exact ⟨rfl, rfl⟩

/-- Witness of `join_unknown_room_fails`: the socket of `demoState` asks for
the room `ZZZZZZ`, which the store does not have. -/
theorem join_unknown_room_fails_witness :
    (joinRoom defaultEnv demoState "c1" (joinArgs "ZZZZZZ" 7)).2
        = [.db (.selectRoom "ZZZZZZ"),
           .callback "c1" (.failure "Room not found or database error.")]
    ∧ (joinRoom defaultEnv demoState "c1" (joinArgs "ZZZZZZ" 7)).1 = demoState :=
  join_unknown_room_fails defaultEnv demoState "c1" (joinArgs "ZZZZZZ" 7)
    (Or.inl (by decide))

/-- C10: `send-message` for a room that has no in-memory entry, or from a
socket that is not in the room's participant map, returns the state as it
was (rooms, caches, activity instants, limiter counters, store) and has no
effect at all: no store call and no event, whatever the message. -/
theorem send_from_non_participant_is_noop (env : Env) (s : State) (socket : SocketId)
    (a : SendArgs)
    (h : JSMap.get s.rooms a.roomId = none
      ∨ ∃ room, JSMap.get s.rooms a.roomId = some room ∧ JSMap.get room.users socket = none) :
    sendMessage env s socket a = (s, []) := by
  unfold sendMessage
  rcases h with hnone | ⟨room, hroom, huser⟩
  · simp only [hnone]
  · simp only [hroom, huser]

/-- Witness of `send_from_non_participant_is_noop`: a socket `c2` that never
joined sends to the room of `demoState`. -/
theorem send_from_non_participant_is_noop_witness :
    sendMessage defaultEnv demoState "c2" (sendArgs "AAAAAA" 5) = (demoState, []) :=
  send_from_non_participant_is_noop defaultEnv demoState "c2" (sendArgs "AAAAAA" 5)
    (Or.inr ⟨{ users := [("c1", { username := "Guest_Swift_Wolf", lastActivity := 0 })],
               messages := [], lastActivity := 0 }, by decide, by decide⟩)

/-- C5 fails on the history-fetch path (defect of the code): the room
`AAAAAA` exists, the fetch of its messages fails, `join-room` answers
`success: false` without `user-joined`, and yet the socket has been added to
the room's participant map, the room's activity instant and the durable
last-activity have moved from 0 to 7, and the socket has joined the transport
room. -/
theorem join_fetch_failure_leaves_participant :
    (joinRoom defaultEnv lobbyState "c1" failedFetchArgs).2
        = [.db (.selectRoom "AAAAAA"), .db (.touchRoom "AAAAAA" 7),
           .db (.selectMessages "AAAAAA" 50),
           .callback "c1" (.failure "Failed to load messages from database.")]
    ∧ lobbyState.rooms = [("AAAAAA", { users := [], messages := [], lastActivity := 0 })]
    ∧ (joinRoom defaultEnv lobbyState "c1" failedFetchArgs).1.rooms
        = [("AAAAAA",
            { users := [("c1", { username := "Guest_Swift_Wolf", lastActivity := 7 })],
              messages := [], lastActivity := 7 })]
    ∧ lobbyState.joined = [("c1", "c1")]
    ∧ (joinRoom defaultEnv lobbyState "c1" failedFetchArgs).1.joined
        = [("c1", "c1"), ("c1", "AAAAAA")]
    ∧ lobbyState.db.rooms = [{ id := "AAAAAA", created_at := 0, last_activity := 0 }]
    ∧ (joinRoom defaultEnv lobbyState "c1" failedFetchArgs).1.db.rooms
        = [{ id := "AAAAAA", created_at := 0, last_activity := 7 }] := by
  decide

/-- C6 fails (defect of the code): the room has 51 stored messages, sent at
the minutes 0, ..., 50; a successful `join-room` returns the 50 oldest ones
(minutes 0, ..., 49), and the newest message is not among them. -/
theorem join_replays_oldest_not_newest :
    archiveDb.messages = (List.range 51).map archiveRow
    ∧ archiveDb.messages.all
        (fun row => row.room_id = "AAAAAA" && decide (row.timestamp ≤ (archiveRow 50).timestamp))
        = true
    ∧ repliedHistory (joinRoom defaultEnv archiveState "c1" (joinArgs "AAAAAA" 3600000)).2
        = some (formatMessages defaultEnv ((List.range 50).map archiveRow))
    ∧ formatMessages defaultEnv [archiveRow 50]
        = [{ username := "Guest_Swift_Wolf", message := [53, 48], timestamp := "00:50" }]
    ∧ ({ username := "Guest_Swift_Wolf", message := [53, 48], timestamp := "00:50" }
          : HistoryMessage)
        ∉ formatMessages defaultEnv ((List.range 50).map archiveRow) := by
  decide

/-- C7 fails (defect of the code): a socket that joins `AAAAAA` and then
`BBBBBB` is in the participant maps of both rooms. -/
theorem socket_in_two_rooms_after_second_join :
    roomsOf twoRoomsState "c1" = ["AAAAAA", "BBBBBB"] := by
  decide

/-- C8 fails (defect of the code): after the disconnect of a socket that had
joined two rooms, the socket is no longer connected and is still in the
participant map of the second room. -/
theorem disconnected_socket_stays_participant :
    "c1" ∉ (disconnect twoRoomsState "c1" 9).1.sockets
    ∧ roomsOf (disconnect twoRoomsState "c1" 9).1 "c1" = ["BBBBBB"]
    ∧ (disconnect twoRoomsState "c1" 9).2
        = [.emitRoom "AAAAAA" "user-left" (.userLeft "Guest_Swift_Wolf" [])] := by
  decide

/-- C9: the handler of `disconnect` makes no store call and leaves the store
as it was; the rooms map is either unchanged, or exactly one participant
entry, keyed by the disconnecting socket, is removed from one room, whose
other entries and message cache stay, as do all other rooms; the room ids of
the map are the same; and when the socket is in no room the rooms map is
unchanged. -/
theorem disconnect_frame (s : State) (socket : SocketId) (now : Int) :
    (disconnect s socket now).1.db = s.db
    ∧ (∀ e ∈ (disconnect s socket now).2, e.isDb = false)
    ∧ ((disconnect s socket now).1.rooms = s.rooms
        ∨ ∃ pre roomId room post upre user upost,
            s.rooms = pre ++ (roomId, room) :: post
            ∧ room.users = upre ++ (socket, user) :: upost
            ∧ (disconnect s socket now).1.rooms
                = pre ++ (roomId, { users := upre ++ upost, messages := room.messages,
                                    lastActivity := now }) :: post)
    ∧ (disconnect s socket now).1.rooms.map Prod.fst = s.rooms.map Prod.fst
    ∧ participantEntries s.rooms ≤ participantEntries (disconnect s socket now).1.rooms + 1
    ∧ ((∀ e ∈ s.rooms, JSMap.get e.2.users socket = none) →
        (disconnect s socket now).1.rooms = s.rooms) := by
  have hrooms : (disconnect s socket now).1.rooms = (leaveFirstRoom socket now s.rooms).1 := rfl
  have heff : (disconnect s socket now).2 = (leaveFirstRoom socket now s.rooms).2 := rfl
  refine ⟨rfl, ?_, ?_, ?_, ?_, ?_⟩
  · rw [heff]
    rcases leaveFirstRoom_frame socket now s.rooms with ⟨_, heq⟩ |
      ⟨pre, rid, room, post, upre, user, upost, _, _, heq⟩
    · simp [heq]
    · simp [heq, Effect.isDb]
  · rw [hrooms]
    rcases leaveFirstRoom_frame socket now s.rooms with ⟨_, heq⟩ |
      ⟨pre, rid, room, post, upre, user, upost, hr, hu, heq⟩
    · left; rw [heq]
    · right
      exact ⟨pre, rid, room, post, upre, user, upost, hr, hu, by rw [heq]⟩
  · rw [hrooms]
    rcases leaveFirstRoom_frame socket now s.rooms with ⟨_, heq⟩ |
      ⟨pre, rid, room, post, upre, user, upost, hr, hu, heq⟩
    · rw [heq]
    · rw [heq, hr]
      simp
  · rw [hrooms]
    rcases leaveFirstRoom_frame socket now s.rooms with ⟨_, heq⟩ |
      ⟨pre, rid, room, post, upre, user, upost, hr, hu, heq⟩
    · rw [heq]
      exact Nat.le_succ _
    · rw [heq, hr]
      simp only [participantEntries, List.map_append, List.map_cons, List.sum_append,
        List.sum_cons, hu, List.length_append, List.length_cons]
      omega
  · intro hnone
    rw [hrooms]
    rcases leaveFirstRoom_frame socket now s.rooms with ⟨_, heq⟩ |
      ⟨pre, rid, room, post, upre, user, upost, hr, hu, heq⟩
    · rw [heq]
    · exfalso
      have hmem : (rid, room) ∈ s.rooms := by rw [hr]; simp
      have hget := hnone (rid, room) hmem
      have hsome : JSMap.get room.users socket ≠ none := by
        rw [hu]
        clear hu hget hmem hr heq
        induction upre with
        | nil => simp [JSMap.get]
        | cons e rest ih =>
          obtain ⟨k, v⟩ := e
          by_cases hk : k = socket
          · simp [JSMap.get, hk]
          · simpa [JSMap.get, hk] using ih
      exact hsome hget

/-- Witness of `disconnect_frame`: a socket `c2` that is in no room of
`demoState` disconnects. -/
theorem disconnect_frame_witness :
    (∀ e ∈ demoState.rooms, JSMap.get e.2.users "c2" = none)
    ∧ (disconnect demoState "c2" 9).1.rooms = demoState.rooms :=
  ⟨by decide, (disconnect_frame demoState "c2" 9).2.2.2.2.2 (by decide)⟩

/-! ## Claims C11-C20 -/

/-- C11: a valid message from a participant under the rate limit whose
durable insert fails: `message-error` goes to the sender alone, no
`new-message` is sent, and the rooms map is as before, so the room's message
cache, the room's activity instant and the participant's activity instant are
unchanged; the store is unchanged too. -/
theorem insert_failure_stops_send (env : Env) (s : State) (socket : SocketId) (a : SendArgs)
    (room : Room) (user : User) (limit : RateLimit) (e : DbError)
    (hroom : JSMap.get s.rooms a.roomId = some room)
    (huser : JSMap.get room.users socket = some user)
    (hlimit : JSMap.get s.rateLimits socket = some limit)
    (hpass : (rateLimitStep env limit a.now).2 = true)
    (hvalid : invalidMessage a.message = false)
    (hfault : a.insertFault = some e) :
    (sendMessage env s socket a).2
        = [.db (.insertMessage a.roomId user.username (trim a.message.text) a.messageTimestamp),
           .emitSocket socket "message-error"
             (.notice "Failed to send message (database error).")]
    ∧ "new-message" ∉ emittedEvents (sendMessage env s socket a).2
    ∧ (sendMessage env s socket a).1.rooms = s.rooms
    ∧ JSMap.get (sendMessage env s socket a).1.rooms a.roomId = some room
    ∧ (sendMessage env s socket a).1.db = s.db := by
  rw [sendMessage_insert_failed env s socket a room user limit e hroom huser hlimit hpass
    hvalid hfault]
  refine ⟨rfl, ?_, rfl, hroom, rfl⟩
  simp [emittedEvents]

/-- Witness of `insert_failure_stops_send`: the socket of `demoState` sends
`hi` at instant 5 and the insert fails. -/
theorem insert_failure_stops_send_witness :
    (sendMessage defaultEnv demoState "c1" failedInsertArgs).2
        = [.db (.insertMessage "AAAAAA" "Guest_Swift_Wolf" (trim [104, 105]) 5),
           .emitSocket "c1" "message-error"
             (.notice "Failed to send message (database error).")]
    ∧ "new-message" ∉ emittedEvents (sendMessage defaultEnv demoState "c1" failedInsertArgs).2
    ∧ (sendMessage defaultEnv demoState "c1" failedInsertArgs).1.rooms = demoState.rooms
    ∧ JSMap.get (sendMessage defaultEnv demoState "c1" failedInsertArgs).1.rooms "AAAAAA"
        = some { users := [("c1", { username := "Guest_Swift_Wolf", lastActivity := 0 })],
                 messages := [], lastActivity := 0 }
    ∧ (sendMessage defaultEnv demoState "c1" failedInsertArgs).1.db = demoState.db :=
  insert_failure_stops_send defaultEnv demoState "c1" failedInsertArgs
    { users := [("c1", { username := "Guest_Swift_Wolf", lastActivity := 0 })],
      messages := [], lastActivity := 0 }
    { username := "Guest_Swift_Wolf", lastActivity := 0 }
    { count := 0, lastReset := 0 } { code := "57014" }
    (by decide) (by decide) (by decide) (by decide) (by decide) (by decide)

/-- The run of `delete-room` during which no other handler is scheduled, in
one piece. -/
theorem deleteRoom_eq (s : State) (socket : SocketId) (a : DeleteArgs) :
    deleteRoom s socket a =
      (
      if socket ∉ s.adminSockets then
        (s, [.callback socket (.failure "Unauthorized.")])
      else
        let found := s.db.selectRoomSingle a.roomId a.lookupFault
        if found.error.isSome || found.data.isNone then
          (s, [.db (.selectRoom a.roomId),
               .callback socket (.failure "Room not found in database.")])
        else
          let evicted := evictParticipants s a
          let s1 := evicted.1
          let delMessages := s1.db.deleteMessages a.roomId a.messagesFault
          match delMessages.2 with
          | some _ =>
            ({ s1 with db := delMessages.1 },
             .db (.selectRoom a.roomId) :: evicted.2 ++ [.db (.deleteMessages a.roomId),
               .callback socket (.failure "Failed to delete room messages in database.")])
          | none =>
            let delRoom := delMessages.1.deleteRoom a.roomId a.roomFault
            match delRoom.2 with
            | some _ =>
              ({ s1 with db := delRoom.1 },
               .db (.selectRoom a.roomId) :: evicted.2
                 ++ [.db (.deleteMessages a.roomId), .db (.deleteRoom a.roomId),
                     .callback socket (.failure "Failed to delete room in database.")])
            | none =>
              ({ s1 with db := delRoom.1 },
               .db (.selectRoom a.roomId) :: evicted.2
                 ++ [.db (.deleteMessages a.roomId), .db (.deleteRoom a.roomId),
                     .callback socket (.done ("Room " ++ a.roomId ++ " deleted."))]
                 ++ (s1.adminSockets.filter (fun admin => admin ≠ socket)).map
                      (fun admin => Effect.emitRoom admin "room-deleted-admin-notify"
                        (.roomDeleted a.roomId
                          ("Room " ++ a.roomId ++ " was deleted by another administrator."))))) := by
  unfold deleteRoom deleteRoomWith
  by_cases hadmin : socket ∈ s.adminSockets
  · simp only [hadmin, not_true_eq_false, if_false]
    cases hfound : ((s.db.selectRoomSingle a.roomId a.lookupFault).error.isSome
        || (s.db.selectRoomSingle a.roomId a.lookupFault).data.isNone) with
    | true => simp
    | false =>
      simp only [Bool.false_eq_true, if_false]
      rcases Option.eq_none_or_eq_some a.messagesFault with hm | ⟨e, hm⟩
      · rcases Option.eq_none_or_eq_some a.roomFault with hr | ⟨e, hr⟩
        · simp [Db.deleteMessages, Db.deleteRoom, hm, hr]
        · simp [Db.deleteMessages, Db.deleteRoom, hm, hr]
      · simp [Db.deleteMessages, hm]
  · simp [hadmin]

/-- C13: for a socket outside the authenticated-admin set, `list-rooms` and
`delete-room` answer `Unauthorized.` and nothing else happens: no store call,
the state unchanged, nobody disconnected; and `delete-room` by an
authenticated admin for a room id without a durable row answers
`success: false` after the lookup and leaves the whole state, store included,
unchanged. -/
theorem admin_gate (s : State) (socket : SocketId) :
    (socket ∉ s.adminSockets →
      (∀ fault, listRooms s socket fault
          = (s, [.callback socket (.failure "Unauthorized.")]))
      ∧ ∀ a, deleteRoom s socket a = (s, [.callback socket (.failure "Unauthorized.")]))
    ∧ (socket ∈ s.adminSockets →
        ∀ a, (∀ r ∈ s.db.rooms, r.id ≠ a.roomId) →
          deleteRoom s socket a
            = (s, [.db (.selectRoom a.roomId),
                   .callback socket (.failure "Room not found in database.")])) := by
  refine ⟨fun hno => ⟨fun fault => ?_, fun a => ?_⟩, fun hadmin a habsent => ?_⟩
  · simp [listRooms, hno]
  · simp [deleteRoom, deleteRoomWith, hno]
  · have hnil : s.db.rooms.filter (fun r => decide (r.id = a.roomId)) = [] := by
      rw [List.filter_eq_nil_iff]
      intro r hr
      simpa using habsent r hr
    have hfound : ((s.db.selectRoomSingle a.roomId a.lookupFault).error.isSome
        || (s.db.selectRoomSingle a.roomId a.lookupFault).data.isNone) = true := by
      cases hf : a.lookupFault <;> simp [Db.selectRoomSingle, hnil]
    rw [deleteRoom_eq]
    simp only [hadmin, not_true_eq_false, if_false, hfound, if_true]

/-- Witness of `admin_gate`: in `adminState` the socket `c1` is no admin, and
the admin `a1` asks for the deletion of `ZZZZZZ`, which the store lacks. -/
theorem admin_gate_witness :
    ((∀ fault, listRooms adminState "c1" fault
          = (adminState, [.callback "c1" (.failure "Unauthorized.")]))
      ∧ ∀ a, deleteRoom adminState "c1" a
          = (adminState, [.callback "c1" (.failure "Unauthorized.")]))
    ∧ deleteRoom adminState "a1" (deleteArgs "ZZZZZZ" 9)
        = (adminState, [.db (.selectRoom "ZZZZZZ"),
                        .callback "a1" (.failure "Room not found in database.")]) :=
  ⟨(admin_gate adminState "c1").1 (by decide),
   (admin_gate adminState "a1").2 (by decide) (deleteArgs "ZZZZZZ" 9) (by decide)⟩

/-- C15 fails (defect of the code): a login with the configured secret adds
the socket to the admin set and answers `success: true`, but the only event
emitted is `active-rooms-list`; `admin-authenticated`, which the client waits
for, is sent by no run of the handler. -/
theorem admin_login_never_emits_authenticated :
    (∀ (env : Env) (s : State) (socket : SocketId) (a : LoginArgs),
        "admin-authenticated" ∉ emittedEvents (adminLogin env s socket a).2)
    ∧ (adminLogin defaultEnv (connection demoState "a1" 1) "a1" goodLogin).1.adminSockets
        = ["a1"]
    ∧ (adminLogin defaultEnv (connection demoState "a1" 1) "a1" goodLogin).2
        = [.callback "a1" .success, .db .selectRooms,
           .emitSocket "a1" "active-rooms-list"
             (.roomsList [{ id := "AAAAAA", userCount := 1, createdAt := 0, lastActivity := 0 }]
               none)]
    ∧ emittedEvents (adminLogin defaultEnv (connection demoState "a1" 1) "a1" goodLogin).2
        = ["active-rooms-list"] := by
  refine ⟨?_, by decide, by decide, by decide⟩
  intro env s socket a
  unfold adminLogin
  split
  · cases a.roomsFault <;> simp [Db.selectRooms, emittedEvents]
  · simp [emittedEvents]

/-! ### The room code generator -/

theorem charAt_characters (k : Nat) (hk : k < 36) :
    charAt characters k = String.singleton (characters.toList.getD k 'A') := by
  unfold charAt
  have hlen : characters.toList.length = 36 := by decide
  have hlt : k < characters.toList.length := by omega
  rw [List.get?_eq_get hlt, List.getD_eq_getElem _ _ hlt]
  rfl

theorem foldl_charAt_toList (f : Nat → Nat) (l : List Nat) (acc : String)
    (h : ∀ i ∈ l, f i < 36) :
    (l.foldl (fun result i => result ++ charAt characters (f i)) acc).toList
      = acc.toList ++ l.map (fun i => characters.toList.getD (f i) 'A') := by
  induction l generalizing acc with
  | nil => simp
  | cons i rest ih =>
    simp only [List.foldl_cons, List.map_cons]
    rw [ih _ (fun j hj => h j (List.mem_cons_of_mem _ hj)),
      charAt_characters (f i) (h i (List.mem_cons_self _ _))]
    simp [String.toList]

theorem excessBits_spec (fuel N : Nat) :
    excessBits fuel N = 0 ∨ (0 < excessBits fuel N ∧ 2 ^ 52 * 2 ^ excessBits fuel N ≤ N) := by
  induction fuel generalizing N with
  | zero => left; rfl
  | succ fuel ih =>
    unfold excessBits
    by_cases h : N < 2 ^ 53
    · left; rw [if_pos h]
    · right
      rw [if_neg h]
      refine ⟨Nat.succ_pos _, ?_⟩
      have h2 : 2 * (N / 2) ≤ N := Nat.mul_div_le N 2
      rcases ih (N / 2) with h0 | ⟨_, hle⟩
      · rw [h0]
        have h53 : (2 : Nat) ^ 52 * 2 ^ (0 + 1) = 2 ^ 53 := by norm_num
        rw [h53]
        exact Nat.le_of_not_lt h
      · rw [Nat.pow_succ]
        calc 2 ^ 52 * (2 ^ excessBits fuel (N / 2) * 2)
            = 2 * (2 ^ 52 * 2 ^ excessBits fuel (N / 2)) := by ring
          _ ≤ 2 * (N / 2) := Nat.mul_le_mul_left 2 hle
          _ ≤ N := h2

theorem roundToDouble_exact (N : Nat) (h : excessBits N N = 0) : roundToDouble N = N := by
  unfold roundToDouble
  simp [h, Nat.mod_one]

/-- The rounded significand is the multiple of `2 ^ s` just below `N` or the
one just above it, the latter only when `N` lies in the upper half of the
interval between the two. -/
theorem roundToDouble_cases (N : Nat) :
    roundToDouble N = N / 2 ^ excessBits N N * 2 ^ excessBits N N
    ∨ (roundToDouble N = (N / 2 ^ excessBits N N + 1) * 2 ^ excessBits N N
        ∧ 2 ^ excessBits N N ≤ 2 * (N % 2 ^ excessBits N N)) := by
  unfold roundToDouble
  simp only
  split
  · rename_i h
    right
    refine ⟨rfl, ?_⟩
    rcases h with h | ⟨h, _⟩ <;> omega
  · left; rfl

theorem excessBits_fuel (fuel N : Nat) (h : N < 2 ^ 53 * 2 ^ fuel) :
    N / 2 ^ excessBits fuel N < 2 ^ 53 := by
  induction fuel generalizing N with
  | zero =>
    have : excessBits 0 N = 0 := rfl
    rw [this]
    simpa using h
  | succ fuel ih =>
    unfold excessBits
    by_cases hN : N < 2 ^ 53
    · rw [if_pos hN]
      simpa using hN
    · rw [if_neg hN]
      have hhalf : N / 2 < 2 ^ 53 * 2 ^ fuel := by
        rw [Nat.div_lt_iff_lt_mul (by decide)]
        calc N < 2 ^ 53 * 2 ^ (fuel + 1) := h
          _ = 2 ^ 53 * 2 ^ fuel * 2 := by
            have e : 2 ^ (fuel + 1) = 2 ^ fuel * 2 := Nat.pow_succ 2 fuel
            rw [e, Nat.mul_assoc]
      have := ih (N / 2) hhalf
      rwa [Nat.div_div_eq_div_mul, ← Nat.pow_succ'] at this

/-- With the fuel `N` the halvings of `excessBits` reach a significand of at
most 53 bits: the rounded significand is `q * 2 ^ s` with `q ≤ 2 ^ 53`. -/
theorem roundToDouble_significand (N : Nat) :
    N / 2 ^ excessBits N N < 2 ^ 53
    ∧ ∃ q, q ≤ 2 ^ 53 ∧ roundToDouble N = q * 2 ^ excessBits N N := by
  have hlt : N / 2 ^ excessBits N N < 2 ^ 53 := by
    apply excessBits_fuel
    calc N < 2 ^ N := Nat.lt_two_pow N
      _ ≤ 2 ^ 53 * 2 ^ N := Nat.le_mul_of_pos_left _ (Nat.two_pow_pos _)
  refine ⟨hlt, ?_⟩
  rcases roundToDouble_cases N with h | ⟨h, _⟩
  · exact ⟨_, Nat.le_of_lt hlt, h⟩
  · exact ⟨_, hlt, h⟩

/-- The index computed from a double of `[0, 1)`, in plain arithmetic: it is
below 36, and it is `⌊num * 36 / 2 ^ exp⌋` or, when the product needs more
than 53 bits and lies within `32 / 2 ^ exp` of the next integer, that
integer. -/
theorem Draw.floorTimes_bounds (d : Draw) (h53 : d.num < 2 ^ 53) (hunit : d.num < 2 ^ d.exp) :
    d.floorTimes 36 < 36
    ∧ (d.floorTimes 36 = d.num * 36 / 2 ^ d.exp
        ∨ (d.floorTimes 36 = d.num * 36 / 2 ^ d.exp + 1
            ∧ 2 ^ 53 ≤ d.num * 36
            ∧ d.floorTimes 36 * 2 ^ d.exp ≤ d.num * 36 + 32)) := by
  have hE : 0 < 2 ^ d.exp := Nat.two_pow_pos _
  have hF : d.num * 36 / 2 ^ d.exp < 36 := by
    rw [Nat.div_lt_iff_lt_mul hE]
    omega
  unfold Draw.floorTimes
  rcases excessBits_spec (d.num * 36) (d.num * 36) with h0 | ⟨hpos, hbig⟩
  · rw [roundToDouble_exact _ h0]
    exact ⟨hF, Or.inl rfl⟩
  · have hround := roundToDouble_cases (d.num * 36)
    generalize excessBits (d.num * 36) (d.num * 36) = s at hbig hpos hround
    have h53lit : (2 : Nat) ^ 53 = 9007199254740992 := by norm_num
    have h52lit : (2 : Nat) ^ 52 = 4503599627370496 := by norm_num
    rw [h53lit] at h53
    rw [h52lit] at hbig
    have hs6 : s ≤ 6 := by
      by_contra hgt
      have h7 : 2 ^ 7 ≤ 2 ^ s := Nat.pow_le_pow_right (by decide) (by omega)
      have h7lit : (2 : Nat) ^ 7 = 128 := by norm_num
      rw [h7lit] at h7
      omega
    have hP64 : 2 ^ s ≤ 64 := by
      have h6 : 2 ^ s ≤ 2 ^ 6 := Nat.pow_le_pow_right (by decide) hs6
      have h6lit : (2 : Nat) ^ 6 = 64 := by norm_num
      rw [h6lit] at h6
      exact h6
    have hP2 : 2 ≤ 2 ^ s := by
      have h1 : 2 ^ 1 ≤ 2 ^ s := Nat.pow_le_pow_right (by decide) hpos
      simpa using h1
    have h2_53 : 2 ^ 53 ≤ d.num * 36 := by
      rw [h53lit]
      omega
    have hse : s ≤ d.exp := by
      by_contra hlt
      have hle : 2 ^ d.exp ≤ 2 ^ s := Nat.pow_le_pow_right (by decide) (by omega)
      omega
    obtain ⟨t, ht⟩ : ∃ t, d.exp = s + t := ⟨d.exp - s, by omega⟩
    have hEP : 2 ^ d.exp = 2 ^ s * 2 ^ t := by rw [ht, Nat.pow_add]
    have hP : 0 < 2 ^ s := Nat.two_pow_pos _
    have hdm := Nat.div_add_mod (d.num * 36) (2 ^ s)
    have hFq : d.num * 36 / 2 ^ d.exp = d.num * 36 / 2 ^ s / 2 ^ t := by
      rw [hEP, Nat.div_div_eq_div_mul]
    rcases hround with hdown | ⟨hup, hhalf⟩
    · have hk : roundToDouble (d.num * 36) / 2 ^ d.exp = d.num * 36 / 2 ^ d.exp := by
        rw [hdown, hFq, hEP, Nat.mul_comm, Nat.mul_div_mul_left _ _ hP]
      rw [hk]
      exact ⟨hF, Or.inl rfl⟩
    · have hk : roundToDouble (d.num * 36) / 2 ^ d.exp
          = (d.num * 36 / 2 ^ s + 1) / 2 ^ t := by
        rw [hup, hEP, Nat.mul_comm, Nat.mul_div_mul_left _ _ hP]
      rw [hk]
      by_cases hdvd : 2 ^ t ∣ d.num * 36 / 2 ^ s + 1
      · have hsucc : (d.num * 36 / 2 ^ s + 1) / 2 ^ t = d.num * 36 / 2 ^ d.exp + 1 := by
          rw [Nat.succ_div, if_pos hdvd, hFq]
        have hmul : (d.num * 36 / 2 ^ s + 1) / 2 ^ t * 2 ^ t = d.num * 36 / 2 ^ s + 1 :=
          Nat.div_mul_cancel hdvd
        have hbound : (d.num * 36 / 2 ^ s + 1) / 2 ^ t * 2 ^ d.exp ≤ d.num * 36 + 32 := by
          calc (d.num * 36 / 2 ^ s + 1) / 2 ^ t * 2 ^ d.exp
              = ((d.num * 36 / 2 ^ s + 1) / 2 ^ t * 2 ^ t) * 2 ^ s := by rw [hEP]; ring
            _ = (d.num * 36 / 2 ^ s + 1) * 2 ^ s := by rw [hmul]
            _ = 2 ^ s * (d.num * 36 / 2 ^ s) + 2 ^ s := by ring
            _ ≤ d.num * 36 + 32 := by omega
        refine ⟨?_, Or.inr ⟨hsucc, h2_53, hbound⟩⟩
        by_contra hge
        have h36 : 36 * 2 ^ d.exp ≤ (d.num * 36 / 2 ^ s + 1) / 2 ^ t * 2 ^ d.exp :=
          Nat.mul_le_mul_right _ (by omega)
        omega
      · have hsame : (d.num * 36 / 2 ^ s + 1) / 2 ^ t = d.num * 36 / 2 ^ d.exp := by
          rw [Nat.succ_div, if_neg hdvd, hFq]
          rfl
        rw [hsame]
        exact ⟨hF, Or.inl rfl⟩

theorem generateRoomCode_toList (random : Nat → Draw) (n : Nat)
    (hdraws : ∀ i, (random i).num < 2 ^ 53 ∧ (random i).num < 2 ^ (random i).exp) :
    (generateRoomCode random n).toList
      = (List.range n).map (fun i => characters.toList.getD ((random i).floorTimes 36) 'A') := by
  have hlen36 : characters.length = 36 := by decide
  unfold generateRoomCode
  rw [hlen36, foldl_charAt_toList (fun i => (random i).floorTimes 36) (List.range n) ""
    (fun i _ => (Draw.floorTimes_bounds _ (hdraws i).1 (hdraws i).2).1)]
  simp

/-- C20, as stated, fails: for the draw `r = 2001599834386887 / 2 ^ 52`, a
double of `[0, 1)`, the exact product `r × 36` is below 16, so that
`floor(r × 36) = 15`, the index of `P`; the product computed in double
arithmetic is rounded to 16, and the code generated is `Q`. -/
theorem room_code_index_differs_from_exact_floor :
    (2001599834386887 < 2 ^ 53 ∧ 2001599834386887 < 2 ^ 52)
    ∧ 2001599834386887 * 36 / 2 ^ 52 = 15
    ∧ characters.toList.getD 15 'A' = 'P'
    ∧ roundToDouble (2001599834386887 * 36) = 16 * 2 ^ 52
    ∧ Draw.floorTimes { num := 2001599834386887, exp := 52 } 36 = 16
    ∧ generateRoomCode (fun _ => { num := 2001599834386887, exp := 52 }) 1 = "Q"
    ∧ generateRoomCode (fun _ => { num := 2001599834386887, exp := 52 }) 6 = "QQQQQQ" := by
  decide

/-- C20, amended: for every length `n` and every sequence of draws that are
doubles of `[0, 1)` (`num / 2 ^ exp` with `num < 2 ^ 53` and
`num < 2 ^ exp`), `generateRoomCode(n)` is a string of exactly `n`
characters, each an uppercase letter or a digit; its `i`-th character is the
one at an index `k < 36` of the 36-character alphabet, where `k` is
`floor(r_i × 36)` or, only when the exact product `num × 36` needs more than
53 bits and `k × 2 ^ exp ≤ num × 36 + 32`, `floor(r_i × 36) + 1`; with the
default length the code has exactly 6 characters. -/
theorem room_code_format (random : Nat → Draw) (n : Nat)
    (hdraws : ∀ i, (random i).num < 2 ^ 53 ∧ (random i).num < 2 ^ (random i).exp) :
    (generateRoomCode random n).length = n
    ∧ (∀ c ∈ (generateRoomCode random n).toList,
        ('A' ≤ c ∧ c ≤ 'Z') ∨ ('0' ≤ c ∧ c ≤ '9'))
    ∧ (∀ i, i < n → ∃ k,
        (generateRoomCode random n).toList.get? i = some (characters.toList.getD k 'A')
        ∧ k < 36
        ∧ (k = (random i).num * 36 / 2 ^ (random i).exp
            ∨ (k = (random i).num * 36 / 2 ^ (random i).exp + 1
                ∧ 2 ^ 53 ≤ (random i).num * 36
                ∧ k * 2 ^ (random i).exp ≤ (random i).num * 36 + 32)))
    ∧ (generateRoomCode random 6).length = 6 := by
  have hlen : ∀ m, (generateRoomCode random m).length = m := by
    intro m
    have hdata : (generateRoomCode random m).length
        = (generateRoomCode random m).toList.length := rfl
    rw [hdata, generateRoomCode_toList random m hdraws]
    simp
  refine ⟨hlen n, ?_, ?_, hlen 6⟩
  · intro c hc
    rw [generateRoomCode_toList random n hdraws, List.mem_map] at hc
    obtain ⟨i, _, rfl⟩ := hc
    have hk : (random i).floorTimes 36 < 36 :=
      (Draw.floorTimes_bounds _ (hdraws i).1 (hdraws i).2).1
    have hall : ∀ k, k < 36 →
        ('A' ≤ characters.toList.getD k 'A' ∧ characters.toList.getD k 'A' ≤ 'Z')
        ∨ ('0' ≤ characters.toList.getD k 'A' ∧ characters.toList.getD k 'A' ≤ '9') := by
      decide
    exact hall _ hk
  · intro i hi
    obtain ⟨hlt, hk⟩ := Draw.floorTimes_bounds _ (hdraws i).1 (hdraws i).2
    refine ⟨(random i).floorTimes 36, ?_, hlt, hk⟩
    rw [generateRoomCode_toList random n hdraws]
    simp [List.get?_eq_getElem?, hi]

/-- Witness of `room_code_format`: every draw is `4 / 2 ^ 7`, which picks
`B`. -/
theorem room_code_format_witness :
    (generateRoomCode (constantDraw 1) 4).length = 4
    ∧ (∀ c ∈ (generateRoomCode (constantDraw 1) 4).toList,
        ('A' ≤ c ∧ c ≤ 'Z') ∨ ('0' ≤ c ∧ c ≤ '9'))
    ∧ (∀ i, i < 4 → ∃ k,
        (generateRoomCode (constantDraw 1) 4).toList.get? i
          = some (characters.toList.getD k 'A')
        ∧ k < 36
        ∧ (k = (constantDraw 1 i).num * 36 / 2 ^ (constantDraw 1 i).exp
            ∨ (k = (constantDraw 1 i).num * 36 / 2 ^ (constantDraw 1 i).exp + 1
                ∧ 2 ^ 53 ≤ (constantDraw 1 i).num * 36
                ∧ k * 2 ^ (constantDraw 1 i).exp ≤ (constantDraw 1 i).num * 36 + 32)))
    ∧ (generateRoomCode (constantDraw 1) 6).length = 6 :=
  room_code_format (constantDraw 1) 4
    (fun _ => (by decide : (4 : Nat) < 2 ^ 53 ∧ (4 : Nat) < 2 ^ 7))

/-! ### The cleanup loop -/

theorem JSMap.get_delete_ne {κ ν : Type} [DecidableEq κ] (m : JSMap κ ν) (k k₂ : κ)
    (hne : k₂ ≠ k) : JSMap.get (JSMap.delete m k) k₂ = JSMap.get m k₂ := by
  induction m with
  | nil => simp [JSMap.delete]
  | cons e rest ih =>
    obtain ⟨k', v'⟩ := e
    by_cases h : k' = k
    · subst h
      simp [JSMap.delete, JSMap.get, Ne.symm hne]
    · by_cases h2 : k' = k₂
      · subst h2
        simp [JSMap.delete, JSMap.get, h]
      · simp [JSMap.delete, JSMap.get, h, h2, ih]

theorem sweepRoom_busy (a : SweepArgs) (acc : State × List Effect) (rid : RoomId)
    (h : noActiveUsers acc.1.rooms rid = false) : sweepRoom a acc rid = acc := by
  unfold sweepRoom
  simp [h]

theorem sweepRoom_messages_failed (a : SweepArgs) (acc : State × List Effect) (rid : RoomId)
    (e : DbError) (h : noActiveUsers acc.1.rooms rid = true) (hmf : a.messagesFault rid = some e) :
    sweepRoom a acc rid = (acc.1, acc.2 ++ [.db (.deleteMessages rid)]) := by
  unfold sweepRoom
  simp [h, hmf, Db.deleteMessages]

theorem sweepRoom_row_failed (a : SweepArgs) (acc : State × List Effect) (rid : RoomId)
    (e : DbError) (h : noActiveUsers acc.1.rooms rid = true) (hmf : a.messagesFault rid = none)
    (hrf : a.roomFault rid = some e) :
    sweepRoom a acc rid
      = ({ acc.1 with
           db := { acc.1.db with
                   messages := acc.1.db.messages.filter (fun m => m.room_id ≠ rid) } },
         acc.2 ++ [.db (.deleteMessages rid), .db (.deleteRoom rid)]) := by
  unfold sweepRoom
  simp [h, hmf, hrf, Db.deleteMessages, Db.deleteRoom]

theorem sweepRoom_deleted (a : SweepArgs) (acc : State × List Effect) (rid : RoomId)
    (h : noActiveUsers acc.1.rooms rid = true) (hmf : a.messagesFault rid = none)
    (hrf : a.roomFault rid = none) :
    sweepRoom a acc rid
      = ({ acc.1 with
           db := { acc.1.db with
                   messages := acc.1.db.messages.filter (fun m => m.room_id ≠ rid)
                   rooms := acc.1.db.rooms.filter (fun r => r.id ≠ rid) }
           rooms := if JSMap.has acc.1.rooms rid then JSMap.delete acc.1.rooms rid
                    else acc.1.rooms },
         acc.2 ++ [.db (.deleteMessages rid), .db (.deleteRoom rid)]
           ++ acc.1.adminSockets.map
                (fun admin => Effect.emitRoom admin "room-deleted-admin-notify"
                  (.roomDeleted rid
                    ("Room " ++ rid ++ " was automatically cleaned up due to inactivity.")))) := by
  unfold sweepRoom
  simp [h, hmf, hrf, Db.deleteMessages, Db.deleteRoom]

/-- What the loop body keeps of a room that has a participant. -/
theorem sweepRoom_spares (a : SweepArgs) (acc : State × List Effect) (rid roomId : RoomId)
    (room : Room)
    (hroom : JSMap.get acc.1.rooms roomId = some room) (hlive : room.users ≠ []) :
    JSMap.get (sweepRoom a acc rid).1.rooms roomId = some room
    ∧ (sweepRoom a acc rid).1.db.messages.filter (fun m => m.room_id = roomId)
        = acc.1.db.messages.filter (fun m => m.room_id = roomId)
    ∧ (sweepRoom a acc rid).1.db.rooms.filter (fun r => r.id = roomId)
        = acc.1.db.rooms.filter (fun r => r.id = roomId)
    ∧ ((∀ e ∈ acc.2, e.sweeps roomId = false) →
        ∀ e ∈ (sweepRoom a acc rid).2, e.sweeps roomId = false) := by
  cases hidle : noActiveUsers acc.1.rooms rid with
  | false =>
    rw [sweepRoom_busy a acc rid hidle]
    exact ⟨hroom, rfl, rfl, fun h => h⟩
  | true =>
    have hrid : rid ≠ roomId := by
      intro h
      subst h
      unfold noActiveUsers at hidle
      rw [hroom] at hidle
      cases hu : room.users with
      | nil => exact hlive hu
      | cons e rest => simp [hu] at hidle
    have hne : roomId ≠ rid := Ne.symm hrid
    have hmsgs : ∀ l : List MessageRow,
        (l.filter (fun m => decide (m.room_id ≠ rid))).filter
            (fun m => decide (m.room_id = roomId))
          = l.filter (fun m => decide (m.room_id = roomId)) := by
      intro l
      rw [List.filter_filter]
      congr 1
      funext m
      by_cases hm : m.room_id = roomId
      · simp [hm, hne]
      · simp [hm]
    have hrows : ∀ l : List RoomRow,
        (l.filter (fun r => decide (r.id ≠ rid))).filter (fun r => decide (r.id = roomId))
          = l.filter (fun r => decide (r.id = roomId)) := by
      intro l
      rw [List.filter_filter]
      congr 1
      funext r
      by_cases hr : r.id = roomId
      · simp [hr, hne]
      · simp [hr]
    cases hmf : a.messagesFault rid with
    | some e =>
      rw [sweepRoom_messages_failed a acc rid e hidle hmf]
      refine ⟨hroom, rfl, rfl, ?_⟩
      intro hacc e he
      rcases List.mem_append.mp he with h | h
      · exact hacc e h
      · rw [List.mem_singleton] at h
        subst h
        simp [Effect.sweeps, hrid]
    | none =>
      cases hrf : a.roomFault rid with
      | some e =>
        rw [sweepRoom_row_failed a acc rid e hidle hmf hrf]
        refine ⟨hroom, hmsgs _, rfl, ?_⟩
        intro hacc e he
        rcases List.mem_append.mp he with h | h
        · exact hacc e h
        · simp only [List.mem_cons, List.mem_singleton, List.not_mem_nil, or_false] at h
          rcases h with rfl | rfl <;> simp [Effect.sweeps, hrid]
      | none =>
        rw [sweepRoom_deleted a acc rid hidle hmf hrf]
        refine ⟨?_, hmsgs _, hrows _, ?_⟩
        · show JSMap.get (if JSMap.has acc.1.rooms rid then JSMap.delete acc.1.rooms rid
            else acc.1.rooms) roomId = some room
          split
          · rw [JSMap.get_delete_ne _ _ _ hne]
            exact hroom
          · exact hroom
        · intro hacc e he
          rcases List.mem_append.mp he with h | h
          · rcases List.mem_append.mp h with h | h
            · exact hacc e h
            · simp only [List.mem_cons, List.mem_singleton, List.not_mem_nil, or_false] at h
              rcases h with rfl | rfl <;> simp [Effect.sweeps, hrid]
          · rw [List.mem_map] at h
            obtain ⟨admin, _, rfl⟩ := h
            simp [Effect.sweeps, hrid]

theorem sweepRooms_spares (a : SweepArgs) (ids : List RoomId) (roomId : RoomId) (room : Room)
    (hlive : room.users ≠ []) :
    ∀ acc : State × List Effect, JSMap.get acc.1.rooms roomId = some room →
      JSMap.get (sweepRooms a acc ids).1.rooms roomId = some room
      ∧ (sweepRooms a acc ids).1.db.messages.filter (fun m => m.room_id = roomId)
          = acc.1.db.messages.filter (fun m => m.room_id = roomId)
      ∧ (sweepRooms a acc ids).1.db.rooms.filter (fun r => r.id = roomId)
          = acc.1.db.rooms.filter (fun r => r.id = roomId)
      ∧ ((∀ e ∈ acc.2, e.sweeps roomId = false) →
          ∀ e ∈ (sweepRooms a acc ids).2, e.sweeps roomId = false) := by
  induction ids with
  | nil => intro acc hroom; exact ⟨hroom, rfl, rfl, fun h => h⟩
  | cons rid rest ih =>
    intro acc hroom
    obtain ⟨h1, h2, h3, h4⟩ := sweepRoom_spares a acc rid roomId room hroom hlive
    obtain ⟨g1, g2, g3, g4⟩ := ih (sweepRoom a acc rid) h1
    have hfold : sweepRooms a acc (rid :: rest) = sweepRooms a (sweepRoom a acc rid) rest := rfl
    rw [hfold]
    exact ⟨g1, g2.trans h2, g3.trans h3, fun h => g4 (h4 h)⟩

/-- C16: a room whose in-memory entry has at least one participant survives
the cleanup, over every list of room ids answered by the store and in the
whole timer callback: its in-memory entry is unchanged, its durable messages
and its durable row are kept, and the run contains neither of its two
deletions nor a deletion notice for it. -/
theorem sweep_spares_live_room (env : Env) (s : State) (a : SweepArgs) (roomId : RoomId)
    (room : Room)
    (hroom : JSMap.get s.rooms roomId = some room) (hlive : 1 ≤ room.users.length) :
    (∀ inactiveRooms : List RoomId,
      JSMap.get (sweepRooms a (s, []) inactiveRooms).1.rooms roomId = some room
      ∧ (sweepRooms a (s, []) inactiveRooms).1.db.messages.filter (fun m => m.room_id = roomId)
          = s.db.messages.filter (fun m => m.room_id = roomId)
      ∧ (sweepRooms a (s, []) inactiveRooms).1.db.rooms.filter (fun r => r.id = roomId)
          = s.db.rooms.filter (fun r => r.id = roomId)
      ∧ ∀ e ∈ (sweepRooms a (s, []) inactiveRooms).2, e.sweeps roomId = false)
    ∧ JSMap.get (cleanup env s a).1.rooms roomId = some room
    ∧ (cleanup env s a).1.db.messages.filter (fun m => m.room_id = roomId)
        = s.db.messages.filter (fun m => m.room_id = roomId)
    ∧ (cleanup env s a).1.db.rooms.filter (fun r => r.id = roomId)
        = s.db.rooms.filter (fun r => r.id = roomId)
    ∧ ∀ e ∈ (cleanup env s a).2, e.sweeps roomId = false := by
  have hne : room.users ≠ [] := by
    intro h
    rw [h] at hlive
    simp at hlive
  refine ⟨fun ids => ?_, ?_⟩
  · obtain ⟨h1, h2, h3, h4⟩ := sweepRooms_spares a ids roomId room hne (s, []) hroom
    exact ⟨h1, h2, h3, h4 (by simp)⟩
  · unfold cleanup
    cases hf : a.fetchFault with
    | some e =>
      simp only [Db.selectInactive]
      exact ⟨hroom, trivial, trivial, by simp [Effect.sweeps]⟩
    | none =>
      simp only [Db.selectInactive]
      obtain ⟨h1, h2, h3, h4⟩ := sweepRooms_spares a
        ((s.db.rooms.filter (fun r => r.last_activity
            < a.now - env.ROOM_EXPIRY_HOURS * 60 * 60 * 1000)).map (fun r => r.id))
        roomId room hne (s, [.db (.selectInactive
          (a.now - env.ROOM_EXPIRY_HOURS * 60 * 60 * 1000))]) hroom
      exact ⟨h1, h2, h3, h4 (by simp [Effect.sweeps])⟩

/-- Witness of `sweep_spares_live_room`: the room of `demoState`, idle in the
store since instant 0, has the participant `c1` when the cleanup runs ten
hours later. -/
theorem sweep_spares_live_room_witness :
    JSMap.get (cleanup defaultEnv demoState (sweepArgs 36000000)).1.rooms "AAAAAA"
        = some { users := [("c1", { username := "Guest_Swift_Wolf", lastActivity := 0 })],
                 messages := [], lastActivity := 0 }
    ∧ (cleanup defaultEnv demoState (sweepArgs 36000000)).1.db.messages.filter
          (fun m => m.room_id = "AAAAAA")
        = demoState.db.messages.filter (fun m => m.room_id = "AAAAAA")
    ∧ (cleanup defaultEnv demoState (sweepArgs 36000000)).1.db.rooms.filter
          (fun r => r.id = "AAAAAA")
        = demoState.db.rooms.filter (fun r => r.id = "AAAAAA")
    ∧ ∀ e ∈ (cleanup defaultEnv demoState (sweepArgs 36000000)).2, e.sweeps "AAAAAA" = false :=
  (sweep_spares_live_room defaultEnv demoState (sweepArgs 36000000) "AAAAAA"
    { users := [("c1", { username := "Guest_Swift_Wolf", lastActivity := 0 })],
      messages := [], lastActivity := 0 } (by decide) (by decide)).2

/-! ### `create-room` -/

theorem JSMap.mem_set {κ ν : Type} [DecidableEq κ] (m : JSMap κ ν) (k : κ) (v : ν)
    (e : κ × ν) (h : e ∈ JSMap.set m k v) : e = (k, v) ∨ e ∈ m := by
  induction m with
  | nil =>
    simp only [JSMap.set, List.mem_singleton] at h
    exact Or.inl h
  | cons x rest ih =>
    obtain ⟨k', v'⟩ := x
    by_cases hk : k' = k
    · subst hk
      simp only [JSMap.set, if_true, List.mem_cons] at h
      rcases h with h | h
      · exact Or.inl h
      · exact Or.inr (List.mem_cons_of_mem _ h)
    · simp only [JSMap.set, hk, if_false, List.mem_cons] at h
      rcases h with h | h
      · exact Or.inr (h ▸ List.mem_cons_self _ _)
      · rcases ih h with h | h
        · exact Or.inl h
        · exact Or.inr (List.mem_cons_of_mem _ h)

theorem JSMap.filter_set_self {κ ν : Type} [DecidableEq κ] (m : JSMap κ ν) (k : κ) (v : ν)
    (hkeys : (m.map Prod.fst).Nodup) :
    (JSMap.set m k v).filter (fun e => e.1 = k) = [(k, v)] := by
  induction m with
  | nil => simp [JSMap.set]
  | cons x rest ih =>
    obtain ⟨k', v'⟩ := x
    simp only [List.map_cons, List.nodup_cons] at hkeys
    by_cases hk : k' = k
    · subst hk
      have hrest : rest.filter (fun e => decide (e.1 = k')) = [] := by
        rw [List.filter_eq_nil_iff]
        intro e he hek
        apply hkeys.1
        simp only [decide_eq_true_eq] at hek
        rw [← hek]
        exact List.mem_map_of_mem Prod.fst he
      simp [JSMap.set, hrest]
    · simp [JSMap.set, hk, ih hkeys.2]

theorem findFreeCode_spec (db : Db) (attempts : List CodeAttempt) :
    ∀ calls res, findFreeCode db attempts = some (calls, res) →
      (∀ e ∈ calls, e.isDb = true)
      ∧ ∀ roomId, res = some roomId →
          ∃ att ∈ attempts, roomId = generateRoomCode att.random 6
            ∧ ∃ e, (db.selectRoomSingle roomId att.fault).error = some e
                ∧ e.code = "PGRST116" := by
  induction attempts with
  | nil => intro calls res h; simp [findFreeCode] at h
  | cons a rest ih =>
    intro calls res h
    unfold findFreeCode at h
    cases herr : (db.selectRoomSingle (generateRoomCode a.random 6) a.fault).error with
    | some e =>
      simp only [herr] at h
      by_cases hcode : e.code = "PGRST116"
      · simp only [hcode, if_true, Option.some.injEq, Prod.mk.injEq] at h
        obtain ⟨hc, hr⟩ := h
        subst hc hr
        refine ⟨by simp [Effect.isDb], ?_⟩
        intro roomId hroom
        cases hroom
        exact ⟨a, List.mem_cons_self _ _, rfl, e, herr, hcode⟩
      · simp only [hcode, if_false, Option.some.injEq, Prod.mk.injEq] at h
        obtain ⟨hc, hr⟩ := h
        subst hc hr
        exact ⟨by simp [Effect.isDb], fun roomId hroom => by cases hroom⟩
    | none =>
      simp only [herr] at h
      cases hrec : findFreeCode db rest with
      | none => simp [hrec] at h
      | some p =>
        obtain ⟨calls', res'⟩ := p
        simp only [hrec, Option.map_some', Option.some.injEq, Prod.mk.injEq] at h
        obtain ⟨hc, hr⟩ := h
        subst hc hr
        obtain ⟨hdb, hfree⟩ := ih calls' res' hrec
        refine ⟨?_, ?_⟩
        · intro e he
          rcases List.mem_cons.mp he with rfl | he
          · rfl
          · exact hdb e he
        · intro roomId hroom
          obtain ⟨att, hatt, hrest⟩ := hfree roomId hroom
          exact ⟨att, List.mem_cons_of_mem _ hatt, hrest⟩

theorem Db.insertRoom_cases (db : Db) (roomId : RoomId) (t : Int) (fault : Option DbError) :
    ((db.insertRoom roomId t fault).2 ≠ none ∧ (db.insertRoom roomId t fault).1 = db)
    ∨ ((db.insertRoom roomId t fault).2 = none
        ∧ (db.insertRoom roomId t fault).1.rooms
            = db.rooms ++ [{ id := roomId, created_at := t, last_activity := t }]) := by
  unfold Db.insertRoom
  cases fault with
  | some e => left; simp
  | none =>
    by_cases h : db.rooms.any (fun r => decide (r.id = roomId)) = true
    · left; simp only [h, if_true]; simp
    · right; simp only [h, if_false]; simp

/-- C18: on every run in which `create-room` answers `success: true` with a
room id, that id is a generated code for which the existence check answered
that no row was found, a durable row with that id has been inserted, the
rooms map (a `Map`, so without duplicate keys) holds exactly one entry for
the id, with no participant and an empty cache, and every entry holding the
creating socket was already there; and whenever `create-room` answers
`success: false` the rooms map is unchanged. -/
theorem create_room_postcondition (s : State) (socket : SocketId) (a : CreateArgs)
    (r : State × List Effect)
    (hkeys : (s.rooms.map Prod.fst).Nodup)
    (hrun : createRoom s socket a = some r) :
    (∀ roomId, Effect.callback socket (.created roomId) ∈ r.2 →
        (∃ att ∈ a.attempts, roomId = generateRoomCode att.random 6
          ∧ ∃ e, (s.db.selectRoomSingle roomId att.fault).error = some e
              ∧ e.code = "PGRST116")
        ∧ Effect.db (.insertRoom roomId) ∈ r.2
        ∧ r.1.db.rooms
            = s.db.rooms ++ [{ id := roomId, created_at := a.storeTime,
                               last_activity := a.storeTime }]
        ∧ r.1.rooms.filter (fun e => e.1 = roomId)
            = [(roomId, { users := [], messages := [], lastActivity := a.now })]
        ∧ ∀ e ∈ r.1.rooms, JSMap.has e.2.users socket = true → e ∈ s.rooms)
    ∧ ((∃ message, Effect.callback socket (.failure message) ∈ r.2) → r.1.rooms = s.rooms) := by
  unfold createRoom at hrun
  cases hfind : findFreeCode s.db a.attempts with
  | none => simp [hfind] at hrun
  | some p =>
    obtain ⟨calls, res⟩ := p
    obtain ⟨hdb, hfree⟩ := findFreeCode_spec s.db a.attempts calls res hfind
    have hcalls : ∀ reply, Effect.callback socket reply ∉ calls := by
      intro reply hmem
      have := hdb _ hmem
      simp [Effect.isDb] at this
    cases res with
    | none =>
      simp only [hfind, Option.some.injEq] at hrun
      subst hrun
      refine ⟨?_, fun _ => rfl⟩
      intro roomId hmem
      rcases List.mem_append.mp hmem with h | h
      · exact absurd h (hcalls _)
      · simp at h
    | some code =>
      simp only [hfind] at hrun
      rcases Db.insertRoom_cases s.db code a.storeTime a.insertFault with ⟨hfail, hsame⟩ |
        ⟨hok, hrows⟩
      · cases hins : (s.db.insertRoom code a.storeTime a.insertFault).2 with
        | none => exact absurd hins hfail
        | some e =>
          simp only [hins, Option.some.injEq] at hrun
          subst hrun
          refine ⟨?_, fun _ => rfl⟩
          intro roomId hmem
          rcases List.mem_append.mp hmem with h | h
          · exact absurd h (hcalls _)
          · simp at h
      · simp only [hok, Option.some.injEq] at hrun
        subst hrun
        refine ⟨?_, ?_⟩
        · intro roomId hmem
          have hid : roomId = code := by
            rcases List.mem_append.mp hmem with h | h
            · rcases List.mem_append.mp h with h | h
              · exact absurd h (hcalls _)
              · simpa using h
            · simp at h
          subst hid
          refine ⟨hfree roomId rfl, ?_, hrows, JSMap.filter_set_self _ _ _ hkeys, ?_⟩
          · simp
          · intro e he hhas
            rcases JSMap.mem_set _ _ _ e he with h | h
            · subst h
              simp [JSMap.has, JSMap.get] at hhas
            · exact h
        · rintro ⟨message, hmem⟩
          exfalso
          rcases List.mem_append.mp hmem with h | h
          · rcases List.mem_append.mp h with h | h
            · exact absurd h (hcalls _)
            · simp at h
          · simp at h

/-- Witness of `create_room_postcondition`: socket `c1`, just connected to a
fresh server with an empty store, creates the room `AAAAAA`. -/
theorem create_room_postcondition_witness :
    (∀ roomId, Effect.callback "c1" (.created roomId) ∈ ([.db (.selectRoom "AAAAAA"),
          .db (.insertRoom "AAAAAA"), .callback "c1" (.created "AAAAAA")] : List Effect) →
        (∃ att ∈ (createArgs 0 0).attempts, roomId = generateRoomCode att.random 6
          ∧ ∃ e, ((connection (initialState emptyDb) "c1" 0).db.selectRoomSingle roomId
                    att.fault).error = some e
              ∧ e.code = "PGRST116")
        ∧ Effect.db (.insertRoom roomId) ∈ ([.db (.selectRoom "AAAAAA"),
            .db (.insertRoom "AAAAAA"), .callback "c1" (.created "AAAAAA")] : List Effect)
        ∧ lobbyState.db.rooms
            = (connection (initialState emptyDb) "c1" 0).db.rooms
                ++ [{ id := roomId, created_at := (createArgs 0 0).storeTime,
                      last_activity := (createArgs 0 0).storeTime }]
        ∧ lobbyState.rooms.filter (fun e => e.1 = roomId)
            = [(roomId, { users := [], messages := [], lastActivity := (createArgs 0 0).now })]
        ∧ ∀ e ∈ lobbyState.rooms, JSMap.has e.2.users "c1" = true →
            e ∈ (connection (initialState emptyDb) "c1" 0).rooms)
    ∧ ((∃ message, Effect.callback "c1" (.failure message) ∈ ([.db (.selectRoom "AAAAAA"),
          .db (.insertRoom "AAAAAA"), .callback "c1" (.created "AAAAAA")] : List Effect)) →
        lobbyState.rooms = (connection (initialState emptyDb) "c1" 0).rooms) :=
  create_room_postcondition (connection (initialState emptyDb) "c1" 0) "c1" (createArgs 0 0)
    (lobbyState, [.db (.selectRoom "AAAAAA"), .db (.insertRoom "AAAAAA"),
                  .callback "c1" (.created "AAAAAA")])
    (by decide) (by decide)

/-! ### `delete-room` -/

theorem leaveFirstRoom_keys (socket : SocketId) (now : Int) (rooms : JSMap RoomId Room) :
    (leaveFirstRoom socket now rooms).1.map Prod.fst = rooms.map Prod.fst := by
  rcases leaveFirstRoom_frame socket now rooms with ⟨_, heq⟩ |
    ⟨pre, rid, room, post, upre, user, upost, hr, _, heq⟩
  · rw [heq]
  · rw [heq, hr]
    simp

theorem leaveFirstRoom_effects (socket : SocketId) (now : Int) (rooms : JSMap RoomId Room) :
    ∀ e ∈ (leaveFirstRoom socket now rooms).2, e.isDb = false := by
  rcases leaveFirstRoom_frame socket now rooms with ⟨_, heq⟩ |
    ⟨pre, rid, room, post, upre, user, upost, _, _, heq⟩
  · rw [heq]; simp
  · rw [heq]; simp [Effect.isDb]

/-- The loop of forced disconnects: the store and the room ids stay, sockets
and admins are only removed, every visited participant ends up disconnected,
and no store call is added. -/
theorem forceDisconnect_fold (clock : SocketId → Int) (users : List SocketId) :
    ∀ acc : State × List Effect,
      (users.foldl (forceDisconnect clock) acc).1.db = acc.1.db
      ∧ (users.foldl (forceDisconnect clock) acc).1.rooms.map Prod.fst
          = acc.1.rooms.map Prod.fst
      ∧ (∀ x ∈ (users.foldl (forceDisconnect clock) acc).1.sockets, x ∈ acc.1.sockets)
      ∧ (∀ u ∈ users, u ∉ (users.foldl (forceDisconnect clock) acc).1.sockets)
      ∧ ((∀ e ∈ acc.2, e.isDb = false) →
          ∀ e ∈ (users.foldl (forceDisconnect clock) acc).2, e.isDb = false) := by
  induction users with
  | nil => intro acc; exact ⟨rfl, rfl, fun x h => h, by simp, fun h => h⟩
  | cons u rest ih =>
    intro acc
    have hstep : (forceDisconnect clock acc u).1.db = acc.1.db
        ∧ (forceDisconnect clock acc u).1.rooms.map Prod.fst = acc.1.rooms.map Prod.fst
        ∧ (∀ x ∈ (forceDisconnect clock acc u).1.sockets, x ∈ acc.1.sockets)
        ∧ u ∉ (forceDisconnect clock acc u).1.sockets
        ∧ ((∀ e ∈ acc.2, e.isDb = false) →
            ∀ e ∈ (forceDisconnect clock acc u).2, e.isDb = false) := by
      by_cases hu : u ∈ acc.1.sockets
      · have heq : forceDisconnect clock acc u
            = ((disconnect acc.1 u (clock u)).1,
               acc.2 ++ [.closeSocket u] ++ (disconnect acc.1 u (clock u)).2) := by
          unfold forceDisconnect
          simp [hu]
        rw [heq]
        refine ⟨rfl, leaveFirstRoom_keys u (clock u) acc.1.rooms, ?_, ?_, ?_⟩
        · intro x hx
          exact (List.mem_filter.mp hx).1
        · intro hmem
          have := (List.mem_filter.mp hmem).2
          simp at this
        · intro hacc e he
          rcases List.mem_append.mp he with h | h
          · rcases List.mem_append.mp h with h | h
            · exact hacc e h
            · rw [List.mem_singleton] at h
              subst h
              rfl
          · exact leaveFirstRoom_effects u (clock u) acc.1.rooms e h
      · have heq : forceDisconnect clock acc u = acc := by
          unfold forceDisconnect
          simp [hu]
        rw [heq]
        exact ⟨rfl, rfl, fun x h => h, hu, fun h => h⟩
    obtain ⟨h1, h2, h3, h4, h5⟩ := hstep
    obtain ⟨g1, g2, g3, g4, g5⟩ := ih (forceDisconnect clock acc u)
    simp only [List.foldl_cons]
    refine ⟨g1.trans h1, g2.trans h2, fun x hx => h3 x (g3 x hx), ?_, fun h => g5 (h5 h)⟩
    intro v hv
    rcases List.mem_cons.mp hv with rfl | hv
    · exact fun hmem => h4 (g3 _ hmem)
    · exact g4 v hv

theorem JSMap.get_delete_self {κ ν : Type} [DecidableEq κ] (m : JSMap κ ν) (k : κ)
    (hkeys : (m.map Prod.fst).Nodup) : JSMap.get (JSMap.delete m k) k = none := by
  induction m with
  | nil => simp [JSMap.delete, JSMap.get]
  | cons x rest ih =>
    obtain ⟨k', v'⟩ := x
    simp only [List.map_cons, List.nodup_cons] at hkeys
    by_cases hk : k' = k
    · subst hk
      simp only [JSMap.delete, if_true]
      clear ih
      induction rest with
      | nil => simp [JSMap.get]
      | cons y rest' ih' =>
        obtain ⟨k₂, v₂⟩ := y
        simp only [List.map_cons, List.mem_cons, not_or, List.nodup_cons] at hkeys
        have hne : ¬ k₂ = k' := fun h => hkeys.1.1 h.symm
        simp only [JSMap.get, hne, if_false]
        exact ih' ⟨hkeys.1.2, hkeys.2.2⟩
    · simp [JSMap.delete, JSMap.get, hk, ih hkeys.2]

theorem JSMap.get_eq_none_of_not_mem {κ ν : Type} [DecidableEq κ] (m : JSMap κ ν) (k : κ)
    (h : k ∉ m.map Prod.fst) : JSMap.get m k = none := by
  induction m with
  | nil => simp [JSMap.get]
  | cons x rest ih =>
    obtain ⟨k', v'⟩ := x
    simp only [List.map_cons, List.mem_cons, not_or] at h
    have hne : ¬ k' = k := fun hk => h.1 hk.symm
    simp only [JSMap.get, hne, if_false]
    exact ih h.2

/-- What lines 395-407 of `delete-room` achieve on a map without duplicate
keys. -/
theorem evictParticipants_spec (s : State) (a : DeleteArgs)
    (hkeys : (s.rooms.map Prod.fst).Nodup) :
    (evictParticipants s a).1.db = s.db
    ∧ JSMap.get (evictParticipants s a).1.rooms a.roomId = none
    ∧ (∀ room u, JSMap.get s.rooms a.roomId = some room → u ∈ room.users.map Prod.fst →
        u ∉ (evictParticipants s a).1.sockets)
    ∧ ∀ e ∈ (evictParticipants s a).2, e.isDb = false := by
  unfold evictParticipants
  cases hroom : JSMap.get s.rooms a.roomId with
  | none =>
    refine ⟨rfl, hroom, ?_, by simp⟩
    intro room u h
    cases h
  | some room =>
    obtain ⟨h1, h2, _, h4, h5⟩ := forceDisconnect_fold a.disconnectTime
      (room.users.map Prod.fst)
      (s, [.emitRoom a.roomId "room-deleted-user-notify"
             (.notice ("This room (" ++ a.roomId
                ++ ") has been deleted by an administrator. You will be disconnected."))])
    refine ⟨h1, ?_, ?_, h5 (by simp [Effect.isDb])⟩
    · exact JSMap.get_delete_self _ _ (h2 ▸ hkeys)
    · intro room' u hr hu
      cases hr
      exact h4 u hu

theorem deleteRoom_done (s : State) (socket : SocketId) (a : DeleteArgs) (row : RoomRow)
    (hadmin : socket ∈ s.adminSockets)
    (hrow : s.db.rooms.filter (fun r => r.id = a.roomId) = [row])
    (hlookup : a.lookupFault = none) (hmessages : a.messagesFault = none)
    (hroomFault : a.roomFault = none) :
    deleteRoom s socket a
      = ({ (evictParticipants s a).1 with
           db := { (evictParticipants s a).1.db with
                   messages := (evictParticipants s a).1.db.messages.filter
                     (fun m => m.room_id ≠ a.roomId)
                   rooms := (evictParticipants s a).1.db.rooms.filter
                     (fun r => r.id ≠ a.roomId) } },
         .db (.selectRoom a.roomId) :: (evictParticipants s a).2
           ++ [.db (.deleteMessages a.roomId), .db (.deleteRoom a.roomId),
               .callback socket (.done ("Room " ++ a.roomId ++ " deleted."))]
           ++ ((evictParticipants s a).1.adminSockets.filter (fun admin => admin ≠ socket)).map
                (fun admin => Effect.emitRoom admin "room-deleted-admin-notify"
                  (.roomDeleted a.roomId
                    ("Room " ++ a.roomId ++ " was deleted by another administrator.")))) := by
  have hfound : ((s.db.selectRoomSingle a.roomId a.lookupFault).error.isSome
      || (s.db.selectRoomSingle a.roomId a.lookupFault).data.isNone) = false := by
    simp [Db.selectRoomSingle, hlookup, hrow]
  rw [deleteRoom_eq]
  simp only [hadmin, not_true_eq_false, if_false, hfound, Bool.false_eq_true, hmessages,
    hroomFault, Db.deleteMessages, Db.deleteRoom]

/-- The run of `delete-room` during which no other handler is scheduled: an
authenticated admin deletes a room that has a durable row, and the two
durable deletions succeed (the rooms map being a `Map`, without duplicate
keys). Then every participant of the room's in-memory entry is disconnected,
the registry has no entry for the room, the deletion of the messages is the
store call right before the deletion of the row, the store holds neither
messages nor a row of the room, and no room list answered by a later
`list-rooms` contains the room. -/
theorem deleteRoom_uninterrupted (s : State) (socket : SocketId) (a : DeleteArgs)
    (row : RoomRow)
    (hadmin : socket ∈ s.adminSockets)
    (hrow : s.db.rooms.filter (fun r => r.id = a.roomId) = [row])
    (hlookup : a.lookupFault = none) (hmessages : a.messagesFault = none)
    (hroomFault : a.roomFault = none)
    (hkeys : (s.rooms.map Prod.fst).Nodup) :
    (∀ room u, JSMap.get s.rooms a.roomId = some room → u ∈ room.users.map Prod.fst →
        u ∉ (deleteRoom s socket a).1.sockets)
    ∧ JSMap.get (deleteRoom s socket a).1.rooms a.roomId = none
    ∧ (∃ pre post, (deleteRoom s socket a).2
          = pre ++ .db (.deleteMessages a.roomId) :: .db (.deleteRoom a.roomId) :: post
        ∧ ∀ e ∈ pre, e ≠ .db (.deleteRoom a.roomId))
    ∧ (deleteRoom s socket a).1.db.messages
        = s.db.messages.filter (fun m => m.room_id ≠ a.roomId)
    ∧ (deleteRoom s socket a).1.db.rooms = s.db.rooms.filter (fun r => r.id ≠ a.roomId)
    ∧ ∀ socket' fault infos,
        Effect.callback socket' (.rooms infos)
            ∈ (listRooms (deleteRoom s socket a).1 socket' fault).2 →
          ∀ info ∈ infos, info.id ≠ a.roomId := by
  obtain ⟨hdb, hgone, hout, heff⟩ := evictParticipants_spec s a hkeys
  rw [deleteRoom_done s socket a row hadmin hrow hlookup hmessages hroomFault]
  refine ⟨hout, hgone, ?_, by rw [hdb], by rw [hdb], ?_⟩
  · refine ⟨.db (.selectRoom a.roomId) :: (evictParticipants s a).2,
      .callback socket (.done ("Room " ++ a.roomId ++ " deleted."))
        :: ((evictParticipants s a).1.adminSockets.filter (fun admin => admin ≠ socket)).map
            (fun admin => Effect.emitRoom admin "room-deleted-admin-notify"
              (.roomDeleted a.roomId
                ("Room " ++ a.roomId ++ " was deleted by another administrator."))), ?_, ?_⟩
    · simp
    · intro e he
      rcases List.mem_cons.mp he with rfl | he
      · simp
      · intro heq
        have := heff e he
        rw [heq] at this
        simp [Effect.isDb] at this
  · intro socket' fault infos hmem
    unfold listRooms at hmem
    by_cases hadm : socket' ∈ (evictParticipants s a).1.adminSockets
    · simp only [hadm, not_true_eq_false, if_false] at hmem
      cases fault with
      | some e => simp [Db.selectRooms] at hmem
      | none =>
        simp only [Db.selectRooms, List.mem_cons, List.mem_singleton, Effect.callback.injEq,
          Reply.rooms.injEq, List.not_mem_nil, or_false, false_or, true_and, reduceCtorEq]
          at hmem
        intro info hinfo
        rw [hmem, hdb] at hinfo
        simp only [roomSnapshot, List.mem_map, List.mem_filter] at hinfo
        obtain ⟨r, ⟨_, hr⟩, rfl⟩ := hinfo
        simpa using hr
    · simp only [hadm, not_false_eq_true, if_true] at hmem
      simp at hmem

/-! ### Store failures in `join-room` and `send-message` -/

theorem joinRoom_fetch_failed (env : Env) (s : State) (socket : SocketId) (a : JoinArgs)
    (e : DbError)
    (hfound : ((s.db.selectRoomSingle a.roomId a.lookupFault).error.isSome
      || (s.db.selectRoomSingle a.roomId a.lookupFault).data.isNone) = false)
    (hfault : a.messagesFault = some e) :
    (joinRoom env s socket a).2
      = [.db (.selectRoom a.roomId), .db (.touchRoom a.roomId a.touchTime),
         .db (.selectMessages a.roomId MESSAGE_HISTORY_LIMIT),
         .callback socket (.failure "Failed to load messages from database.")] := by
  unfold joinRoom
  simp [hfound, hfault, Db.selectMessages]

theorem joinRoom_effects_touch (env : Env) (s : State) (socket : SocketId) (a : JoinArgs)
    (fault : Option DbError) :
    (joinRoom env s socket { a with touchFault := fault }).2 = (joinRoom env s socket a).2 := by
  unfold joinRoom
  simp only
  split
  · rfl
  · cases hm : a.messagesFault with
    | some e => simp [Db.selectMessages, hm]
    | none => simp [Db.selectMessages, hm, Db.touchRoom_messages]

theorem sendMessage_no_room (env : Env) (s : State) (socket : SocketId) (a : SendArgs)
    (h : JSMap.get s.rooms a.roomId = none) : sendMessage env s socket a = (s, []) := by
  unfold sendMessage
  simp only [h]

theorem sendMessage_no_user (env : Env) (s : State) (socket : SocketId) (a : SendArgs)
    (room : Room) (hroom : JSMap.get s.rooms a.roomId = some room)
    (h : JSMap.get room.users socket = none) : sendMessage env s socket a = (s, []) := by
  unfold sendMessage
  simp only [hroom, h]

theorem sendMessage_no_limit (env : Env) (s : State) (socket : SocketId) (a : SendArgs)
    (room : Room) (user : User) (hroom : JSMap.get s.rooms a.roomId = some room)
    (huser : JSMap.get room.users socket = some user)
    (h : JSMap.get s.rateLimits socket = none) :
    sendMessage env s socket a = (s, [.typeError]) := by
  unfold sendMessage
  simp only [hroom, huser, h]

theorem sendMessage_effects_touch (env : Env) (s : State) (socket : SocketId) (a : SendArgs)
    (fault : Option DbError) :
    (sendMessage env s socket { a with touchFault := fault }).2
      = (sendMessage env s socket a).2 := by
  cases hroom : JSMap.get s.rooms a.roomId with
  | none =>
    rw [sendMessage_no_room env s socket a hroom,
      sendMessage_no_room env s socket { a with touchFault := fault } hroom]
  | some room =>
    cases huser : JSMap.get room.users socket with
    | none =>
      rw [sendMessage_no_user env s socket a room hroom huser,
        sendMessage_no_user env s socket { a with touchFault := fault } room hroom huser]
    | some user =>
      cases hlimit : JSMap.get s.rateLimits socket with
      | none =>
        rw [sendMessage_no_limit env s socket a room user hroom huser hlimit,
          sendMessage_no_limit env s socket { a with touchFault := fault } room user hroom
            huser hlimit]
      | some limit =>
        cases hstep : (rateLimitStep env limit a.now).2 with
        | false =>
          rw [sendMessage_rejected env s socket a room user limit hroom huser hlimit hstep,
            sendMessage_rejected env s socket { a with touchFault := fault } room user limit
              hroom huser hlimit hstep]
        | true =>
          cases hinv : invalidMessage a.message with
          | true =>
            rw [sendMessage_invalid env s socket a room user limit hroom huser hlimit hstep hinv,
              sendMessage_invalid env s socket { a with touchFault := fault } room user limit
                hroom huser hlimit hstep hinv]
          | false =>
            rcases Option.eq_none_or_eq_some a.insertFault with hf | ⟨e, hf⟩
            · rw [sendMessage_stored env s socket a room user limit hroom huser hlimit hstep
                  hinv hf,
                sendMessage_stored env s socket { a with touchFault := fault } room user limit
                  hroom huser hlimit hstep hinv hf]
            · rw [sendMessage_insert_failed env s socket a room user limit e hroom huser hlimit
                  hstep hinv hf,
                sendMessage_insert_failed env s socket { a with touchFault := fault } room user
                  limit e hroom huser hlimit hstep hinv hf]

/-- C17 fails (defect of the code): the answer of the update of the durable
last-activity is awaited and dropped (lines 196-199 and 291-294), while the
error of every other store call of the two handlers is read. When only that
update fails, `join-room` still answers `success: true` after the
`user-joined` broadcast, and `send-message` still broadcasts `new-message`
and sends no `message-error`; the store keeps the old last-activity 0. -/
theorem touch_failure_is_not_reported :
    (joinRoom defaultEnv lobbyState "c1" failedTouchJoin).2
        = [.db (.selectRoom "AAAAAA"), .db (.touchRoom "AAAAAA" 7),
           .db (.selectMessages "AAAAAA" 50),
           .emitRoom "AAAAAA" "user-joined"
             (.userJoined "Guest_Swift_Wolf" ["Guest_Swift_Wolf"]),
           .callback "c1" (.joined "Guest_Swift_Wolf" [] ["Guest_Swift_Wolf"])]
    ∧ (joinRoom defaultEnv lobbyState "c1" failedTouchJoin).1.db.rooms
        = [{ id := "AAAAAA", created_at := 0, last_activity := 0 }]
    ∧ (sendMessage defaultEnv demoState "c1" failedTouchSend).2
        = [.db (.insertMessage "AAAAAA" "Guest_Swift_Wolf" [104, 105] 5),
           .db (.touchRoom "AAAAAA" 5),
           .emitRoom "AAAAAA" "new-message"
             (.newMessage { id := 1, username := "Guest_Swift_Wolf", message := [104, 105],
                            timestamp := "00:00", isSelf := false })]
    ∧ (sendMessage defaultEnv demoState "c1" failedTouchSend).1.db.rooms
        = [{ id := "AAAAAA", created_at := 0, last_activity := 0 }] := by
  decide

/-- The store calls whose answer the handlers read: when one of them fails,
the request is answered by a failure and nothing else but store calls. The
room lookup or the history fetch of `join-room` gives a `success: false`
callback, the insert of `send-message` gives `message-error` to the sender.
The fault of the update of the durable last-activity has no influence on the
answers and broadcasts of either handler. -/
theorem read_store_failures_are_reported (env : Env) (s : State) (socket : SocketId) :
    (∀ a : JoinArgs, a.lookupFault ≠ none →
        (joinRoom env s socket a).2
          = [.db (.selectRoom a.roomId),
             .callback socket (.failure "Room not found or database error.")])
    ∧ (∀ a : JoinArgs, a.messagesFault ≠ none →
        ∃ calls message,
          (joinRoom env s socket a).2 = calls ++ [.callback socket (.failure message)]
          ∧ ∀ e ∈ calls, e.isDb = true)
    ∧ (∀ (a : SendArgs) (room : Room) (user : User) (limit : RateLimit),
        JSMap.get s.rooms a.roomId = some room →
        JSMap.get room.users socket = some user →
        JSMap.get s.rateLimits socket = some limit →
        (rateLimitStep env limit a.now).2 = true →
        invalidMessage a.message = false →
        a.insertFault ≠ none →
        (sendMessage env s socket a).2
          = [.db (.insertMessage a.roomId user.username (trim a.message.text)
                a.messageTimestamp),
             .emitSocket socket "message-error"
               (.notice "Failed to send message (database error).")])
    ∧ (∀ (a : JoinArgs) fault,
        (joinRoom env s socket { a with touchFault := fault }).2 = (joinRoom env s socket a).2)
    ∧ (∀ (a : SendArgs) fault,
        (sendMessage env s socket { a with touchFault := fault }).2
          = (sendMessage env s socket a).2) := by
  refine ⟨?_, ?_, ?_, fun a fault => joinRoom_effects_touch env s socket a fault,
    fun a fault => sendMessage_effects_touch env s socket a fault⟩
  · intro a hfault
    have hfound : ((s.db.selectRoomSingle a.roomId a.lookupFault).error.isSome
        || (s.db.selectRoomSingle a.roomId a.lookupFault).data.isNone) = true := by
      cases hf : a.lookupFault with
      | none => exact absurd hf hfault
      | some e => simp [Db.selectRoomSingle]
    rw [joinRoom_not_found env s socket a hfound]
  · intro a hfault
    cases hfound : ((s.db.selectRoomSingle a.roomId a.lookupFault).error.isSome
        || (s.db.selectRoomSingle a.roomId a.lookupFault).data.isNone) with
    | true =>
      rw [joinRoom_not_found env s socket a hfound]
      exact ⟨[.db (.selectRoom a.roomId)], _, rfl, by simp [Effect.isDb]⟩
    | false =>
      cases hf : a.messagesFault with
      | none => exact absurd hf hfault
      | some e =>
        rw [joinRoom_fetch_failed env s socket a e hfound hf]
        exact ⟨[.db (.selectRoom a.roomId), .db (.touchRoom a.roomId a.touchTime),
          .db (.selectMessages a.roomId MESSAGE_HISTORY_LIMIT)], _, rfl, by simp [Effect.isDb]⟩
  · intro a room user limit hroom huser hlimit hpass hvalid hfault
    cases hf : a.insertFault with
    | none => exact absurd hf hfault
    | some e =>
      rw [sendMessage_insert_failed env s socket a room user limit e hroom huser hlimit hpass
        hvalid hf]

/-- Witness of `read_store_failures_are_reported`: in `lobbyState` the history
fetch of a `join-room` of `AAAAAA` fails. -/
theorem read_store_failures_are_reported_witness :
    ∃ calls message,
      (joinRoom defaultEnv lobbyState "c1" failedFetchArgs).2
        = calls ++ [.callback "c1" (.failure message)]
      ∧ ∀ e ∈ calls, e.isDb = true :=
  (read_store_failures_are_reported defaultEnv lobbyState "c1").2.1 failedFetchArgs (by decide)

/-! ### The message cache -/

theorem lastN_length {α : Type} (k : Nat) (l : List α) : (lastN k l).length = min l.length k := by
  unfold lastN
  rw [List.length_drop]
  omega

theorem lastN_append_lastN {α : Type} (k : Nat) (x y : List α) :
    lastN k (lastN k x ++ y) = lastN k (x ++ y) := by
  unfold lastN
  have h1 : List.drop (x.length - k) x ++ y = List.drop (x.length - k) (x ++ y) := by
    rw [List.drop_append_of_le_length (Nat.sub_le _ _)]
  rw [h1, List.drop_drop]
  congr 1
  simp only [List.length_drop, List.length_append]
  omega

theorem pushBounded_eq_lastN (c : List ChatMessage) (m : ChatMessage)
    (h : c.length ≤ MESSAGE_HISTORY_LIMIT) :
    pushBounded c m = lastN MESSAGE_HISTORY_LIMIT (c ++ [m]) := by
  unfold pushBounded lastN
  simp only [List.length_append, List.length_singleton]
  by_cases hfull : c.length + 1 > MESSAGE_HISTORY_LIMIT
  · have : c.length + 1 - MESSAGE_HISTORY_LIMIT = 1 := by omega
    simp only [hfull, if_true, this]
    rw [List.drop_one]
  · have : c.length + 1 - MESSAGE_HISTORY_LIMIT = 0 := by omega
    simp only [hfull, if_false, this]
    rfl

theorem pushBounded_length (c : List ChatMessage) (m : ChatMessage)
    (h : c.length ≤ MESSAGE_HISTORY_LIMIT) :
    (pushBounded c m).length ≤ MESSAGE_HISTORY_LIMIT := by
  rw [pushBounded_eq_lastN c m h, lastN_length]
  exact Nat.min_le_right _ _

theorem foldl_pushBounded (l c : List ChatMessage) (h : c.length ≤ MESSAGE_HISTORY_LIMIT) :
    l.foldl pushBounded c = lastN MESSAGE_HISTORY_LIMIT (c ++ l) := by
  induction l generalizing c with
  | nil =>
    unfold lastN
    have : c.length - MESSAGE_HISTORY_LIMIT = 0 := by omega
    simp [this]
  | cons m rest ih =>
    rw [List.foldl_cons, ih _ (pushBounded_length c m h), pushBounded_eq_lastN c m h,
      lastN_append_lastN]
    simp

/-- The cache of every room after a `send-message`: the messages broadcast to
the room by the event, pushed onto the cache it had. -/
theorem sendMessage_cache (env : Env) (s : State) (socket : SocketId) (a : SendArgs)
    (roomId : RoomId) :
    cacheOf (sendMessage env s socket a).1 roomId
      = (cacheOf s roomId).map
          (fun c => (newMessagesTo roomId (sendMessage env s socket a).2).foldl pushBounded c) := by
  have hid : ∀ (s' : State) (eff : List Effect), s'.rooms = s.rooms →
      newMessagesTo roomId eff = [] →
      cacheOf s' roomId = (cacheOf s roomId).map
        (fun c => (newMessagesTo roomId eff).foldl pushBounded c) := by
    intro s' eff hrooms hnone
    unfold cacheOf
    rw [hrooms, hnone]
    cases JSMap.get s.rooms roomId <;> rfl
  cases hroom : JSMap.get s.rooms a.roomId with
  | none =>
    rw [sendMessage_no_room env s socket a hroom]
    exact hid s [] rfl rfl
  | some room =>
    cases huser : JSMap.get room.users socket with
    | none =>
      rw [sendMessage_no_user env s socket a room hroom huser]
      exact hid s [] rfl rfl
    | some user =>
      cases hlimit : JSMap.get s.rateLimits socket with
      | none =>
        rw [sendMessage_no_limit env s socket a room user hroom huser hlimit]
        exact hid s _ rfl rfl
      | some limit =>
        cases hstep : (rateLimitStep env limit a.now).2 with
        | false =>
          rw [sendMessage_rejected env s socket a room user limit hroom huser hlimit hstep]
          exact hid _ _ rfl rfl
        | true =>
          cases hinv : invalidMessage a.message with
          | true =>
            rw [sendMessage_invalid env s socket a room user limit hroom huser hlimit hstep
              hinv]
            exact hid _ _ rfl rfl
          | false =>
            rcases Option.eq_none_or_eq_some a.insertFault with hf | ⟨e, hf⟩
            · rw [sendMessage_stored env s socket a room user limit hroom huser hlimit hstep
                hinv hf]
              by_cases hr : roomId = a.roomId
              · subst hr
                unfold cacheOf
                simp only [afterLimiter]
                rw [JSMap.get_set_self, hroom]
                simp [newMessagesTo, newMessageOf]
              · unfold cacheOf
                simp only [afterLimiter]
                rw [JSMap.get_set_ne _ _ _ _ hr]
                have hnone : newMessagesTo roomId
                    [.db (.insertMessage a.roomId user.username (trim a.message.text)
                        a.messageTimestamp),
                     .db (.touchRoom a.roomId a.messageTimestamp),
                     .emitRoom a.roomId "new-message"
                       (.newMessage
                         { id := s.db.nextMessageId, username := user.username,
                           message := trim a.message.text,
                           timestamp := env.toLocaleTimeString a.messageTimestamp,
                           isSelf := false })] = [] := by
                  simp [newMessagesTo, newMessageOf, Ne.symm hr]
                rw [hnone]
                cases JSMap.get s.rooms roomId <;> rfl
            · rw [sendMessage_insert_failed env s socket a room user limit e hroom huser hlimit
                hstep hinv hf]
              exact hid _ _ rfl rfl

theorem sendMany_cache (env : Env) (roomId : RoomId) (sends : List (SocketId × SendArgs)) :
    ∀ s : State,
      cacheOf (sendMany env s sends).1 roomId
        = (cacheOf s roomId).map
            (fun c => (newMessagesTo roomId (sendMany env s sends).2).foldl pushBounded c) := by
  induction sends with
  | nil =>
    intro s
    simp only [sendMany, newMessagesTo, List.filterMap_nil, List.foldl_nil]
    cases cacheOf s roomId <;> rfl
  | cons x rest ih =>
    intro s
    obtain ⟨socket, a⟩ := x
    simp only [sendMany]
    rw [ih, sendMessage_cache env s socket a roomId]
    cases cacheOf s roomId with
    | none => rfl
    | some c =>
      simp only [Option.map_some', newMessagesTo, List.filterMap_append, List.foldl_append]

theorem JSMap.mem_of_get {κ ν : Type} [DecidableEq κ] (m : JSMap κ ν) (k : κ) (v : ν)
    (h : JSMap.get m k = some v) : (k, v) ∈ m := by
  induction m with
  | nil => simp [JSMap.get] at h
  | cons x rest ih =>
    obtain ⟨k', v'⟩ := x
    by_cases hk : k' = k
    · subst hk
      simp only [JSMap.get, if_true, Option.some.injEq] at h
      subst h
      exact List.mem_cons_self _ _
    · simp only [JSMap.get, hk, if_false] at h
      exact List.mem_cons_of_mem _ (ih h)

theorem JSMap.mem_delete {κ ν : Type} [DecidableEq κ] (m : JSMap κ ν) (k : κ) (e : κ × ν)
    (h : e ∈ JSMap.delete m k) : e ∈ m := by
  induction m with
  | nil => simp [JSMap.delete] at h
  | cons x rest ih =>
    obtain ⟨k', v'⟩ := x
    by_cases hk : k' = k
    · simp only [JSMap.delete, hk, if_true] at h
      exact List.mem_cons_of_mem _ h
    · simp only [JSMap.delete, hk, if_false, List.mem_cons] at h
      rcases h with h | h
      · exact h ▸ List.mem_cons_self _ _
      · exact List.mem_cons_of_mem _ (ih h)

theorem CachesKept.refl (rooms : JSMap RoomId Room) : CachesKept rooms rooms :=
  fun e' he' => Or.inr ⟨e', he', rfl, rfl⟩

theorem CachesKept.trans {r₁ r₂ r₃ : JSMap RoomId Room} (h₁ : CachesKept r₁ r₂)
    (h₂ : CachesKept r₂ r₃) : CachesKept r₁ r₃ := by
  intro e₃ he₃
  rcases h₂ e₃ he₃ with h | ⟨e₂, he₂, hk, hm⟩
  · exact Or.inl h
  · rcases h₁ e₂ he₂ with h | ⟨e₁, he₁, hk₁, hm₁⟩
    · exact Or.inl (hm ▸ h)
    · exact Or.inr ⟨e₁, he₁, hk₁.trans hk, hm₁.trans hm⟩

theorem CachesKept.of_eq {r₁ r₂ : JSMap RoomId Room} (h : r₂ = r₁) : CachesKept r₁ r₂ :=
  h ▸ CachesKept.refl r₁

theorem CachesKept.set (rooms : JSMap RoomId Room) (k : RoomId) (v : Room)
    (h : v.messages = [] ∨ ∃ e ∈ rooms, e.1 = k ∧ e.2.messages = v.messages) :
    CachesKept rooms (JSMap.set rooms k v) := by
  intro e' he'
  rcases JSMap.mem_set rooms k v e' he' with rfl | hmem
  · exact h
  · exact Or.inr ⟨e', hmem, rfl, rfl⟩

theorem CachesKept.delete (rooms : JSMap RoomId Room) (k : RoomId) :
    CachesKept rooms (JSMap.delete rooms k) :=
  fun e' he' => Or.inr ⟨e', JSMap.mem_delete rooms k e' he', rfl, rfl⟩

theorem CachesKept.leaveFirstRoom (socket : SocketId) (now : Int) (rooms : JSMap RoomId Room) :
    CachesKept rooms (leaveFirstRoom socket now rooms).1 := by
  rcases leaveFirstRoom_frame socket now rooms with ⟨_, heq⟩ |
    ⟨pre, rid, room, post, upre, user, upost, hr, _, heq⟩
  · rw [heq]
    exact CachesKept.refl rooms
  · rw [heq]
    intro e' he'
    right
    rcases List.mem_append.mp he' with h | h
    · exact ⟨e', by rw [hr]; exact List.mem_append_left _ h, rfl, rfl⟩
    · rcases List.mem_cons.mp h with rfl | h
      · exact ⟨(rid, room), by rw [hr]; simp, rfl, rfl⟩
      · exact ⟨e', by rw [hr]; simp [h], rfl, rfl⟩

theorem createRoom_caches (s : State) (socket : SocketId) (a : CreateArgs)
    (r : State × List Effect) (h : createRoom s socket a = some r) :
    CachesKept s.rooms r.1.rooms := by
  unfold createRoom at h
  cases hfind : findFreeCode s.db a.attempts with
  | none => simp [hfind] at h
  | some p =>
    obtain ⟨calls, res⟩ := p
    cases res with
    | none =>
      simp only [hfind, Option.some.injEq] at h
      subst h
      exact CachesKept.refl _
    | some code =>
      simp only [hfind] at h
      cases hins : (s.db.insertRoom code a.storeTime a.insertFault).2 with
      | some e =>
        simp only [hins, Option.some.injEq] at h
        subst h
        exact CachesKept.refl _
      | none =>
        simp only [hins, Option.some.injEq] at h
        subst h
        exact CachesKept.set _ _ _ (Or.inl rfl)

theorem joinRoom_rooms (env : Env) (s : State) (socket : SocketId) (a : JoinArgs)
    (hfound : ((s.db.selectRoomSingle a.roomId a.lookupFault).error.isSome
      || (s.db.selectRoomSingle a.roomId a.lookupFault).data.isNone) = false) :
    (joinRoom env s socket a).1.rooms
      = JSMap.set
          (if !JSMap.has s.rooms a.roomId then
            JSMap.set s.rooms a.roomId
              { users := [], messages := [], lastActivity := a.createTime }
          else s.rooms) a.roomId
          { (JSMap.get s.rooms a.roomId).getD
              { users := [], messages := [], lastActivity := a.createTime } with
            users := JSMap.set ((JSMap.get s.rooms a.roomId).getD
                { users := [], messages := [], lastActivity := a.createTime }).users socket
              { username := generateUsername a.adjDraw a.nounDraw, lastActivity := a.userTime }
            lastActivity := a.activityTime } := by
  unfold joinRoom
  simp only [hfound, Bool.false_eq_true, if_false]
  split <;> rfl

theorem joinRoom_caches (env : Env) (s : State) (socket : SocketId) (a : JoinArgs) :
    CachesKept s.rooms (joinRoom env s socket a).1.rooms := by
  cases hfound : ((s.db.selectRoomSingle a.roomId a.lookupFault).error.isSome
      || (s.db.selectRoomSingle a.roomId a.lookupFault).data.isNone) with
  | true =>
    rw [joinRoom_not_found env s socket a hfound]
    exact CachesKept.refl _
  | false =>
    rw [joinRoom_rooms env s socket a hfound]
    have hfirst : CachesKept s.rooms
        (if !JSMap.has s.rooms a.roomId then
          JSMap.set s.rooms a.roomId
            { users := [], messages := [], lastActivity := a.createTime }
        else s.rooms) := by
      split
      · exact CachesKept.set _ _ _ (Or.inl rfl)
      · exact CachesKept.refl _
    refine CachesKept.trans hfirst (CachesKept.set _ _ _ ?_)
    cases hget : JSMap.get s.rooms a.roomId with
    | none => exact Or.inl rfl
    | some room =>
      right
      have hhas : JSMap.has s.rooms a.roomId = true := by simp [JSMap.has, hget]
      simp only [hhas, Bool.not_true, Bool.false_eq_true, if_false]
      exact ⟨(a.roomId, room), JSMap.mem_of_get _ _ _ hget, rfl, rfl⟩

theorem forceDisconnect_caches (clock : SocketId → Int) (users : List SocketId) :
    ∀ acc : State × List Effect,
      CachesKept acc.1.rooms (users.foldl (forceDisconnect clock) acc).1.rooms := by
  induction users with
  | nil => intro acc; exact CachesKept.refl _
  | cons u rest ih =>
    intro acc
    have hstep : CachesKept acc.1.rooms (forceDisconnect clock acc u).1.rooms := by
      unfold forceDisconnect
      split
      · exact CachesKept.leaveFirstRoom u (clock u) acc.1.rooms
      · exact CachesKept.refl _
    exact CachesKept.trans hstep (ih _)

theorem evictParticipants_caches (s : State) (a : DeleteArgs) :
    CachesKept s.rooms (evictParticipants s a).1.rooms := by
  unfold evictParticipants
  split
  · exact CachesKept.refl _
  · exact CachesKept.trans (forceDisconnect_caches a.disconnectTime _ _)
      (CachesKept.delete _ _)

theorem deleteRoom_rooms (s : State) (socket : SocketId) (a : DeleteArgs) :
    (deleteRoom s socket a).1.rooms = s.rooms
    ∨ (deleteRoom s socket a).1.rooms = (evictParticipants s a).1.rooms := by
  rw [deleteRoom_eq]
  by_cases hadm : socket ∈ s.adminSockets
  · simp only [hadm, not_true_eq_false, if_false]
    cases hfound : ((s.db.selectRoomSingle a.roomId a.lookupFault).error.isSome
        || (s.db.selectRoomSingle a.roomId a.lookupFault).data.isNone) with
    | true => left; simp
    | false =>
      right
      simp only [Bool.false_eq_true, if_false]
      cases a.messagesFault with
      | some e => simp [Db.deleteMessages]
      | none =>
        cases a.roomFault with
        | some e => simp [Db.deleteMessages, Db.deleteRoom]
        | none => simp [Db.deleteMessages, Db.deleteRoom]
  · left
    simp [hadm]

theorem deleteRoom_caches (s : State) (socket : SocketId) (a : DeleteArgs) :
    CachesKept s.rooms (deleteRoom s socket a).1.rooms := by
  rcases deleteRoom_rooms s socket a with h | h
  · rw [h]; exact CachesKept.refl _
  · rw [h]; exact evictParticipants_caches s a

theorem sweepRooms_caches (a : SweepArgs) (ids : List RoomId) :
    ∀ acc : State × List Effect, CachesKept acc.1.rooms (sweepRooms a acc ids).1.rooms := by
  induction ids with
  | nil => intro acc; exact CachesKept.refl _
  | cons rid rest ih =>
    intro acc
    have hstep : CachesKept acc.1.rooms (sweepRoom a acc rid).1.rooms := by
      cases hidle : noActiveUsers acc.1.rooms rid with
      | false =>
        rw [sweepRoom_busy a acc rid hidle]
        exact CachesKept.refl _
      | true =>
        rcases Option.eq_none_or_eq_some (a.messagesFault rid) with hmf | ⟨e, hmf⟩
        · rcases Option.eq_none_or_eq_some (a.roomFault rid) with hrf | ⟨e, hrf⟩
          · rw [sweepRoom_deleted a acc rid hidle hmf hrf]
            show CachesKept acc.1.rooms
              (if JSMap.has acc.1.rooms rid then JSMap.delete acc.1.rooms rid else acc.1.rooms)
            split
            · exact CachesKept.delete _ _
            · exact CachesKept.refl _
          · rw [sweepRoom_row_failed a acc rid e hidle hmf hrf]
            exact CachesKept.refl _
        · rw [sweepRoom_messages_failed a acc rid e hidle hmf]
          exact CachesKept.refl _
    exact CachesKept.trans hstep (ih _)

theorem cleanup_caches (env : Env) (s : State) (a : SweepArgs) :
    CachesKept s.rooms (cleanup env s a).1.rooms := by
  unfold cleanup
  simp only
  split
  · exact CachesKept.refl _
  · exact CachesKept.refl _
  · exact sweepRooms_caches a _ _

/-- Every event but `send-message` keeps the cache of each entry or leaves an
empty one. -/
theorem step_caches (env : Env) (s : State) (e : Event) (r : State × List Effect)
    (h : step env s e = some r) (hne : ∀ socket a, e ≠ .sendMessage socket a) :
    CachesKept s.rooms r.1.rooms := by
  cases e with
  | connection socket now =>
    simp only [step, Option.some.injEq] at h
    subst h
    exact CachesKept.refl _
  | createRoom socket a => exact createRoom_caches s socket a r h
  | joinRoom socket a =>
    simp only [step, Option.some.injEq] at h
    subst h
    exact joinRoom_caches env s socket a
  | sendMessage socket a => exact absurd rfl (hne socket a)
  | typing socket roomId isTyping =>
    simp only [step, Option.some.injEq] at h
    subst h
    unfold typing
    split
    · exact CachesKept.refl _
    · split <;> exact CachesKept.refl _
  | adminLogin socket a =>
    simp only [step, Option.some.injEq] at h
    subst h
    unfold adminLogin
    split
    · simp only
      split <;> exact CachesKept.refl _
    · exact CachesKept.refl _
  | listRooms socket fault =>
    simp only [step, Option.some.injEq] at h
    subst h
    unfold listRooms
    split
    · exact CachesKept.refl _
    · simp only
      split <;> exact CachesKept.refl _
  | deleteRoom socket a =>
    simp only [step, Option.some.injEq] at h
    subst h
    exact deleteRoom_caches s socket a
  | disconnect socket now =>
    simp only [step, Option.some.injEq] at h
    subst h
    exact CachesKept.leaveFirstRoom socket now s.rooms
  | cleanup a =>
    simp only [step, Option.some.injEq] at h
    subst h
    exact cleanup_caches env s a

theorem sendMessage_bounded (env : Env) (s : State) (socket : SocketId) (a : SendArgs)
    (h : ∀ e ∈ s.rooms, e.2.messages.length ≤ MESSAGE_HISTORY_LIMIT) :
    ∀ e ∈ (sendMessage env s socket a).1.rooms, e.2.messages.length ≤ MESSAGE_HISTORY_LIMIT := by
  rcases sendMessage_cases env s socket a with h0 | h0 | ⟨room, user, limit, hroom, huser,
    hlimit, hstep | ⟨hstep, hinv⟩ | ⟨hstep, hinv, e, hf⟩ | ⟨hstep, hinv, hf⟩⟩
  · rw [h0]; exact h
  · rw [h0]; exact h
  · rw [sendMessage_rejected env s socket a room user limit hroom huser hlimit hstep]
    exact h
  · rw [sendMessage_invalid env s socket a room user limit hroom huser hlimit hstep hinv]
    exact h
  · rw [sendMessage_insert_failed env s socket a room user limit e hroom huser hlimit hstep
      hinv hf]
    exact h
  · rw [sendMessage_stored env s socket a room user limit hroom huser hlimit hstep hinv hf]
    intro e he
    rcases JSMap.mem_set _ _ _ e he with rfl | hmem
    · exact pushBounded_length _ _ (h _ (JSMap.mem_of_get _ _ _ hroom))
    · exact h e hmem

theorem reachable_caches_bounded (env : Env) (db : Db) (s : State) (h : Reachable env db s) :
    ∀ e ∈ s.rooms, e.2.messages.length ≤ MESSAGE_HISTORY_LIMIT := by
  induction h with
  | init => intro e he; simp [initialState] at he
  | @next s e r _ hstep ih =>
    by_cases hsend : ∃ socket a, e = .sendMessage socket a
    · obtain ⟨socket, a, rfl⟩ := hsend
      simp only [step, Option.some.injEq] at hstep
      subst hstep
      exact sendMessage_bounded env s socket a ih
    · have hkept := step_caches env s e r hstep
        (fun socket a heq => hsend ⟨socket, a, heq⟩)
      intro e' he'
      rcases hkept e' he' with hnil | ⟨e₀, he₀, _, hm⟩
      · rw [hnil]; exact Nat.zero_le _
      · rw [← hm]; exact ih e₀ he₀

/-! ### Accepted attempts inside an interval of one window length -/

theorem acceptedIn_late (env : Env) (T : Int) (l : List Int) :
    ∀ limit, (∀ x ∈ l, T + env.RATE_LIMIT_WINDOW_MS < x) → acceptedIn env T limit l = 0 := by
  induction l with
  | nil => intro limit _; rfl
  | cons x rest ih =>
    intro limit h
    have hx := h x (List.mem_cons_self _ _)
    have hnot : ¬ x ≤ T + env.RATE_LIMIT_WINDOW_MS := by omega
    simp only [acceptedIn, hnot, decide_False, Bool.and_false, Bool.false_eq_true, if_false,
      Nat.zero_add]
    exact ih _ (fun y hy => h y (List.mem_cons_of_mem _ hy))

/-- Once the window start is inside the interval, no attempt of the interval
restarts the window, and at most `MAX - count` more are accepted. -/
theorem acceptedIn_same_window (env : Env) (T : Int) (l : List Int) :
    ∀ limit : RateLimit, T ≤ limit.lastReset → l.Pairwise (· ≤ ·) →
      (acceptedIn env T limit l : Int)
        ≤ max 0 (env.RATE_LIMIT_MAX_MESSAGES - (limit.count : Int)) := by
  induction l with
  | nil => intro limit _ _; simp [acceptedIn]
  | cons x rest ih =>
    intro limit hT hsorted
    rw [List.pairwise_cons] at hsorted
    by_cases hlate : T + env.RATE_LIMIT_WINDOW_MS < x
    · rw [acceptedIn_late env T (x :: rest) limit]
      · simp
      · intro y hy
        rcases List.mem_cons.mp hy with rfl | hy
        · exact hlate
        · have := hsorted.1 y hy
          omega
    · have hw : ¬ limit.lastReset + env.RATE_LIMIT_WINDOW_MS < x := by omega
      have hstep := rateLimitStep_within env limit x hw
      have hrec := ih { count := limit.count + 1, lastReset := limit.lastReset } hT hsorted.2
      simp only [acceptedIn, hstep]
      by_cases hc : env.RATE_LIMIT_MAX_MESSAGES < ((limit.count + 1 : Nat) : Int)
      · simp only [hc, decide_True, Bool.not_true, Bool.false_and, Bool.false_eq_true, if_false,
          Nat.zero_add]
        push_cast at hrec hc ⊢
        omega
      · have hle : (if (!decide (env.RATE_LIMIT_MAX_MESSAGES < ((limit.count + 1 : Nat) : Int))
            && decide (T ≤ x) && decide (x ≤ T + env.RATE_LIMIT_WINDOW_MS)) = true
            then 1 else 0) ≤ 1 := by
          split <;> omega
        push_cast at hrec hc ⊢
        omega

/-- From any limiter state, attempts that all come at or after `T`: at most
the rest of the current window and one full window are accepted inside
`[T, T + window]`. -/
theorem acceptedIn_from_start (env : Env) (T : Int) (hmax : 1 ≤ env.RATE_LIMIT_MAX_MESSAGES)
    (l : List Int) :
    ∀ limit : RateLimit, (∀ x ∈ l, T ≤ x) → l.Pairwise (· ≤ ·) →
      (acceptedIn env T limit l : Int)
        ≤ max 0 (env.RATE_LIMIT_MAX_MESSAGES - (limit.count : Int))
          + env.RATE_LIMIT_MAX_MESSAGES := by
  induction l with
  | nil => intro limit _ _; simp only [acceptedIn]; push_cast; omega
  | cons x rest ih =>
    intro limit hT hsorted
    have hsorted' := hsorted
    rw [List.pairwise_cons] at hsorted'
    by_cases hlate : T + env.RATE_LIMIT_WINDOW_MS < x
    · rw [acceptedIn_late env T (x :: rest) limit]
      · push_cast; omega
      · intro y hy
        rcases List.mem_cons.mp hy with rfl | hy
        · exact hlate
        · have := hsorted'.1 y hy
          omega
    · have hx : T ≤ x := hT x (List.mem_cons_self _ _)
      by_cases hw : limit.lastReset + env.RATE_LIMIT_WINDOW_MS < x
      · have hstep := rateLimitStep_elapsed env limit x hw
        have hrec := acceptedIn_same_window env T rest { count := 1, lastReset := x } hx
          hsorted'.2
        simp only [acceptedIn, hstep]
        have hle : (if (true && decide (T ≤ x) && decide (x ≤ T + env.RATE_LIMIT_WINDOW_MS))
            = true then 1 else 0) ≤ 1 := by
          split <;> omega
        push_cast at hrec ⊢
        omega
      · have hstep := rateLimitStep_within env limit x hw
        have hrec := ih { count := limit.count + 1, lastReset := limit.lastReset }
          (fun y hy => hT y (List.mem_cons_of_mem _ hy)) hsorted'.2
        simp only [acceptedIn, hstep]
        by_cases hc : env.RATE_LIMIT_MAX_MESSAGES < ((limit.count + 1 : Nat) : Int)
        · simp only [hc, decide_True, Bool.not_true, Bool.false_and, Bool.false_eq_true,
            if_false, Nat.zero_add]
          push_cast at hrec hc ⊢
          omega
        · have hle : (if (!decide (env.RATE_LIMIT_MAX_MESSAGES
                < ((limit.count + 1 : Nat) : Int))
              && decide (T ≤ x) && decide (x ≤ T + env.RATE_LIMIT_WINDOW_MS)) = true
              then 1 else 0) ≤ 1 := by
            split <;> omega
          push_cast at hrec hc ⊢
          omega

theorem acceptedIn_le (env : Env) (T : Int) (hmax : 1 ≤ env.RATE_LIMIT_MAX_MESSAGES)
    (l : List Int) :
    ∀ limit : RateLimit, l.Pairwise (· ≤ ·) →
      (acceptedIn env T limit l : Int) ≤ 2 * env.RATE_LIMIT_MAX_MESSAGES := by
  induction l with
  | nil => intro limit _; simp only [acceptedIn]; push_cast; omega
  | cons x rest ih =>
    intro limit hsorted
    have hsorted' := hsorted
    rw [List.pairwise_cons] at hsorted'
    by_cases hx : T ≤ x
    · have h := acceptedIn_from_start env T hmax (x :: rest) limit
        (by
          intro y hy
          rcases List.mem_cons.mp hy with rfl | hy
          · exact hx
          · have := hsorted'.1 y hy
            omega)
        hsorted
      omega
    · have hrec := ih (rateLimitStep env limit x).1 hsorted'.2
      simp only [acceptedIn, hx, decide_False, Bool.and_false, Bool.false_and,
        Bool.false_eq_true, if_false, Nat.zero_add]
      exact hrec

/-- For a participant, the handler counts as the limiter does. -/
theorem acceptedWithin_eq (env : Env) (socket : SocketId) (roomId : RoomId) (T : Int)
    (attempts : List SendArgs) :
    ∀ (s : State) (room : Room) (user : User) (limit : RateLimit),
      JSMap.get s.rooms roomId = some room →
      JSMap.get room.users socket = some user →
      JSMap.get s.rateLimits socket = some limit →
      (∀ a ∈ attempts, a.roomId = roomId) →
      acceptedWithin env socket T s attempts
        = acceptedIn env T limit (attempts.map (fun a => a.now)) := by
  induction attempts with
  | nil => intro s room user limit _ _ _ _; rfl
  | cons a rest ih =>
    intro s room user limit hroom huser hlimit hids
    have hid : a.roomId = roomId := hids a (List.mem_cons_self _ _)
    subst hid
    obtain ⟨room1, user1, hroom1, huser1⟩ :=
      sendMessage_keeps_participant env s socket a room user hroom huser
    have hlimit1 : JSMap.get (sendMessage env s socket a).1.rateLimits socket
        = some (rateLimitStep env limit a.now).1 := by
      rw [sendMessage_rateLimits env s socket a room user limit hroom huser hlimit,
        JSMap.get_set_self]
    simp only [acceptedWithin, List.map_cons, acceptedIn]
    rw [ih (sendMessage env s socket a).1 room1 user1 (rateLimitStep env limit a.now).1 hroom1
        huser1 hlimit1 (fun b hb => hids b (List.mem_cons_of_mem _ hb)),
      sendMessage_isRateLimited env s socket a room user limit hroom huser hlimit]
    simp

/-- C19, as stated, fails when RATE_LIMIT_MAX is configured as 0: the send
that restarts the window is accepted, so one attempt is accepted inside an
interval of one window length, more than twice the maximum. -/
theorem burst_bound_fails_when_max_is_zero :
    zeroMaxEnv.RATE_LIMIT_MAX_MESSAGES = 0
    ∧ roomsOf demoState "c1" = ["AAAAAA"]
    ∧ isRateLimited (sendMessage zeroMaxEnv demoState "c1" (sendArgs "AAAAAA" 60001)).2 = false
    ∧ acceptedWithin zeroMaxEnv "c1" 60001 demoState [sendArgs "AAAAAA" 60001] = 1
    ∧ ¬ ((acceptedWithin zeroMaxEnv "c1" 60001 demoState [sendArgs "AAAAAA" 60001] : Int)
          ≤ 2 * zeroMaxEnv.RATE_LIMIT_MAX_MESSAGES) := by
  decide

/-- C19, amended: for every configuration with RATE_LIMIT_MAX_MESSAGES ≥ 1
(any window length), every limiter state and every sequence of send attempts
of a participant with non-decreasing instants, the number of attempts
accepted by the limiter whose instant lies in an interval
`[T, T + RATE_LIMIT_WINDOW_MS]` is at most `2 * RATE_LIMIT_MAX_MESSAGES`. -/
theorem burst_bound (env : Env) (s : State) (socket : SocketId) (roomId : RoomId)
    (room : Room) (user : User) (limit : RateLimit) (attempts : List SendArgs) (T : Int)
    (hmax : 1 ≤ env.RATE_LIMIT_MAX_MESSAGES)
    (hroom : JSMap.get s.rooms roomId = some room)
    (huser : JSMap.get room.users socket = some user)
    (hlimit : JSMap.get s.rateLimits socket = some limit)
    (hids : ∀ a ∈ attempts, a.roomId = roomId)
    (hsorted : attempts.Pairwise (fun a b => a.now ≤ b.now)) :
    (acceptedWithin env socket T s attempts : Int) ≤ 2 * env.RATE_LIMIT_MAX_MESSAGES := by
  rw [acceptedWithin_eq env socket roomId T attempts s room user limit hroom huser hlimit hids]
  exact acceptedIn_le env T hmax _ limit (List.pairwise_map.mpr hsorted)

/-- Witness of `burst_bound`: the eleven sends of `burst`, which straddle the
window start, counted in the interval that begins at 59995. -/
theorem burst_bound_witness :
    (acceptedWithin defaultEnv "c1" 59995 demoState burst : Int)
      ≤ 2 * defaultEnv.RATE_LIMIT_MAX_MESSAGES :=
  burst_bound defaultEnv demoState "c1" "AAAAAA"
    { users := [("c1", { username := "Guest_Swift_Wolf", lastActivity := 0 })],
      messages := [], lastActivity := 0 }
    { username := "Guest_Swift_Wolf", lastActivity := 0 }
    { count := 0, lastReset := 0 } burst 59995
    (by decide) (by decide) (by decide) (by decide) (by decide) (by decide)

/-! ### The bounded cache -/

theorem demoState_reachable : Reachable defaultEnv emptyDb demoState := by
  have h0 : Reachable defaultEnv emptyDb (connection (initialState emptyDb) "c1" 0) :=
    Reachable.next (e := .connection "c1" 0) Reachable.init rfl
  have h1 : Reachable defaultEnv emptyDb lobbyState :=
    Reachable.next (e := .createRoom "c1" (createArgs 0 0))
      (r := (lobbyState, [.db (.selectRoom "AAAAAA"), .db (.insertRoom "AAAAAA"),
                          .callback "c1" (.created "AAAAAA")])) h0 (by decide)
  exact Reachable.next (e := .joinRoom "c1" (joinArgs "AAAAAA" 0)) h1 rfl

/-- C12: in every reachable state every room's cache has at most
MESSAGE_HISTORY_LIMIT = 50 entries; a successful send broadcasts one message,
appends it at the end of the room's cache and, when the length would exceed
50, drops exactly the first entry; after any run of `send-message` events of
any sockets a room's cache is the last 50 (or all, if fewer) of its previous
cache followed by the messages broadcast to the room, in order; every other
event keeps the cache of an entry or leaves an empty one. -/
theorem message_cache_bounded (env : Env) :
    (∀ db s, Reachable env db s →
        ∀ e ∈ s.rooms, e.2.messages.length ≤ MESSAGE_HISTORY_LIMIT)
    ∧ (∀ (s : State) (socket : SocketId) (a : SendArgs) (room : Room) (user : User)
        (limit : RateLimit),
        JSMap.get s.rooms a.roomId = some room →
        JSMap.get room.users socket = some user →
        JSMap.get s.rateLimits socket = some limit →
        (rateLimitStep env limit a.now).2 = true →
        invalidMessage a.message = false →
        a.insertFault = none →
        ∃ m, newMessagesTo a.roomId (sendMessage env s socket a).2 = [m]
          ∧ cacheOf (sendMessage env s socket a).1 a.roomId
              = some ((room.messages ++ [m]).drop
                  (if MESSAGE_HISTORY_LIMIT < room.messages.length + 1 then 1 else 0)))
    ∧ (∀ (s : State) (roomId : RoomId) (room : Room) (sends : List (SocketId × SendArgs)),
        JSMap.get s.rooms roomId = some room →
        room.messages.length ≤ MESSAGE_HISTORY_LIMIT →
        cacheOf (sendMany env s sends).1 roomId
          = some (lastN MESSAGE_HISTORY_LIMIT
              (room.messages ++ newMessagesTo roomId (sendMany env s sends).2)))
    ∧ (∀ l : List ChatMessage,
        (lastN MESSAGE_HISTORY_LIMIT l).length = min l.length 50)
    ∧ (∀ (s : State) (e : Event) (r : State × List Effect),
        step env s e = some r → (∀ socket a, e ≠ .sendMessage socket a) →
        CachesKept s.rooms r.1.rooms) := by
  refine ⟨fun db s h => reachable_caches_bounded env db s h, ?_, ?_,
    fun l => lastN_length _ l, fun s e r h hne => step_caches env s e r h hne⟩
  · intro s socket a room user limit hroom huser hlimit hpass hvalid hfault
    refine ⟨{ id := s.db.nextMessageId, username := user.username,
              message := trim a.message.text,
              timestamp := env.toLocaleTimeString a.messageTimestamp, isSelf := false }, ?_, ?_⟩
    · rw [sendMessage_stored env s socket a room user limit hroom huser hlimit hpass hvalid
        hfault]
      simp [newMessagesTo, newMessageOf]
    · rw [sendMessage_stored env s socket a room user limit hroom huser hlimit hpass hvalid
        hfault]
      unfold cacheOf
      simp only [afterLimiter]
      rw [JSMap.get_set_self]
      simp only [Option.map_some', pushBounded, List.length_append, List.length_singleton,
        gt_iff_lt]
      split
      · rw [List.drop_one]
      · rfl
  · intro s roomId room sends hroom hlen
    rw [sendMany_cache env roomId sends s]
    unfold cacheOf
    rw [hroom]
    simp only [Option.map_some']
    rw [foldl_pushBounded _ _ hlen]

/-- Witness of `message_cache_bounded`: `demoState` is reachable, and its
socket sends `hi` at instant 5 into the empty cache of its room. -/
theorem message_cache_bounded_witness :
    (∀ e ∈ demoState.rooms, e.2.messages.length ≤ MESSAGE_HISTORY_LIMIT)
    ∧ ∃ m, newMessagesTo "AAAAAA" (sendMessage defaultEnv demoState "c1" (sendArgs "AAAAAA" 5)).2
          = [m]
        ∧ cacheOf (sendMessage defaultEnv demoState "c1" (sendArgs "AAAAAA" 5)).1 "AAAAAA"
            = some (([] ++ [m]).drop
                (if MESSAGE_HISTORY_LIMIT < ([] : List ChatMessage).length + 1 then 1 else 0)) :=
  ⟨(message_cache_bounded defaultEnv).1 emptyDb demoState demoState_reachable,
   (message_cache_bounded defaultEnv).2.1 demoState "c1" (sendArgs "AAAAAA" 5)
     { users := [("c1", { username := "Guest_Swift_Wolf", lastActivity := 0 })],
       messages := [], lastActivity := 0 }
     { username := "Guest_Swift_Wolf", lastActivity := 0 }
     { count := 0, lastReset := 0 } (by decide) (by decide) (by decide) (by decide)
     (by decide) (by decide)⟩

/-! ### The rooms map has no duplicate key -/

theorem JSMap.keys_set {κ ν : Type} [DecidableEq κ] (m : JSMap κ ν) (k : κ) (v : ν) :
    (JSMap.set m k v).map Prod.fst
      = if k ∈ m.map Prod.fst then m.map Prod.fst else m.map Prod.fst ++ [k] := by
  induction m with
  | nil => simp [JSMap.set]
  | cons x rest ih =>
    obtain ⟨k', v'⟩ := x
    by_cases hk : k' = k
    · subst hk
      simp [JSMap.set]
    · have hne : ¬ k = k' := fun h => hk h.symm
      simp only [JSMap.set, hk, if_false, List.map_cons, ih, List.mem_cons, hne, false_or]
      split <;> simp

theorem JSMap.nodup_set {κ ν : Type} [DecidableEq κ] (m : JSMap κ ν) (k : κ) (v : ν)
    (h : (m.map Prod.fst).Nodup) : ((JSMap.set m k v).map Prod.fst).Nodup := by
  rw [JSMap.keys_set]
  split
  · exact h
  · rename_i hk
    rw [List.nodup_append]
    refine ⟨h, List.nodup_singleton k, ?_⟩
    intro x hx hx'
    rw [List.mem_singleton] at hx'
    exact hk (hx' ▸ hx)

theorem JSMap.keys_delete_sublist {κ ν : Type} [DecidableEq κ] (m : JSMap κ ν) (k : κ) :
    ((JSMap.delete m k).map Prod.fst).Sublist (m.map Prod.fst) := by
  induction m with
  | nil => simp [JSMap.delete]
  | cons x rest ih =>
    obtain ⟨k', v'⟩ := x
    by_cases hk : k' = k
    · simp only [JSMap.delete, hk, if_true, List.map_cons]
      exact List.sublist_cons_self _ _
    · simp only [JSMap.delete, hk, if_false, List.map_cons]
      exact ih.cons₂ _

theorem JSMap.nodup_delete {κ ν : Type} [DecidableEq κ] (m : JSMap κ ν) (k : κ)
    (h : (m.map Prod.fst).Nodup) : ((JSMap.delete m k).map Prod.fst).Nodup :=
  h.sublist (JSMap.keys_delete_sublist m k)

theorem sweepRooms_keys (a : SweepArgs) (ids : List RoomId) :
    ∀ acc : State × List Effect, (acc.1.rooms.map Prod.fst).Nodup →
      ((sweepRooms a acc ids).1.rooms.map Prod.fst).Nodup := by
  induction ids with
  | nil => intro acc h; exact h
  | cons rid rest ih =>
    intro acc h
    have hstep : ((sweepRoom a acc rid).1.rooms.map Prod.fst).Nodup := by
      cases hidle : noActiveUsers acc.1.rooms rid with
      | false =>
        rw [sweepRoom_busy a acc rid hidle]
        exact h
      | true =>
        rcases Option.eq_none_or_eq_some (a.messagesFault rid) with hmf | ⟨e, hmf⟩
        · rcases Option.eq_none_or_eq_some (a.roomFault rid) with hrf | ⟨e, hrf⟩
          · rw [sweepRoom_deleted a acc rid hidle hmf hrf]
            show ((if JSMap.has acc.1.rooms rid then JSMap.delete acc.1.rooms rid
              else acc.1.rooms).map Prod.fst).Nodup
            split
            · exact JSMap.nodup_delete _ _ h
            · exact h
          · rw [sweepRoom_row_failed a acc rid e hidle hmf hrf]
            exact h
        · rw [sweepRoom_messages_failed a acc rid e hidle hmf]
          exact h
    exact ih _ hstep

/-- Every event keeps the keys of the rooms map distinct. -/
theorem step_keys (env : Env) (s : State) (e : Event) (r : State × List Effect)
    (h : step env s e = some r) (hk : (s.rooms.map Prod.fst).Nodup) :
    (r.1.rooms.map Prod.fst).Nodup := by
  cases e with
  | connection socket now =>
    simp only [step, Option.some.injEq] at h
    subst h
    exact hk
  | createRoom socket a =>
    simp only [step] at h
    unfold createRoom at h
    cases hfind : findFreeCode s.db a.attempts with
    | none => simp [hfind] at h
    | some p =>
      obtain ⟨calls, res⟩ := p
      cases res with
      | none =>
        simp only [hfind, Option.some.injEq] at h
        subst h
        exact hk
      | some code =>
        simp only [hfind] at h
        cases hins : (s.db.insertRoom code a.storeTime a.insertFault).2 with
        | some e =>
          simp only [hins, Option.some.injEq] at h
          subst h
          exact hk
        | none =>
          simp only [hins, Option.some.injEq] at h
          subst h
          exact JSMap.nodup_set _ _ _ hk
  | joinRoom socket a =>
    simp only [step, Option.some.injEq] at h
    subst h
    cases hfound : ((s.db.selectRoomSingle a.roomId a.lookupFault).error.isSome
        || (s.db.selectRoomSingle a.roomId a.lookupFault).data.isNone) with
    | true =>
      rw [joinRoom_not_found env s socket a hfound]
      exact hk
    | false =>
      rw [joinRoom_rooms env s socket a hfound]
      apply JSMap.nodup_set
      split
      · exact JSMap.nodup_set _ _ _ hk
      · exact hk
  | sendMessage socket a =>
    simp only [step, Option.some.injEq] at h
    subst h
    rcases sendMessage_cases env s socket a with h0 | h0 | ⟨room, user, limit, hroom, huser,
      hlimit, hstep | ⟨hstep, hinv⟩ | ⟨hstep, hinv, e, hf⟩ | ⟨hstep, hinv, hf⟩⟩
    · rw [h0]; exact hk
    · rw [h0]; exact hk
    · rw [sendMessage_rejected env s socket a room user limit hroom huser hlimit hstep]
      exact hk
    · rw [sendMessage_invalid env s socket a room user limit hroom huser hlimit hstep hinv]
      exact hk
    · rw [sendMessage_insert_failed env s socket a room user limit e hroom huser hlimit hstep
        hinv hf]
      exact hk
    · rw [sendMessage_stored env s socket a room user limit hroom huser hlimit hstep hinv hf]
      exact JSMap.nodup_set _ _ _ hk
  | typing socket roomId isTyping =>
    simp only [step, Option.some.injEq] at h
    subst h
    unfold typing
    split
    · exact hk
    · split <;> exact hk
  | adminLogin socket a =>
    simp only [step, Option.some.injEq] at h
    subst h
    unfold adminLogin
    split
    · simp only
      split <;> exact hk
    · exact hk
  | listRooms socket fault =>
    simp only [step, Option.some.injEq] at h
    subst h
    unfold listRooms
    split
    · exact hk
    · simp only
      split <;> exact hk
  | deleteRoom socket a =>
    simp only [step, Option.some.injEq] at h
    subst h
    rcases deleteRoom_rooms s socket a with h | h
    · rw [h]; exact hk
    · rw [h]
      unfold evictParticipants
      split
      · exact hk
      · apply JSMap.nodup_delete
        rw [(forceDisconnect_fold a.disconnectTime _ _).2.1]
        exact hk
  | disconnect socket now =>
    simp only [step, Option.some.injEq] at h
    subst h
    show ((leaveFirstRoom socket now s.rooms).1.map Prod.fst).Nodup
    rw [leaveFirstRoom_keys]
    exact hk
  | cleanup a =>
    simp only [step, Option.some.injEq] at h
    subst h
    unfold cleanup
    simp only
    split
    · exact hk
    · exact hk
    · exact sweepRooms_keys a _ _ hk

/-- In every reachable state the rooms map has no duplicate key, as a
JavaScript `Map` has none. -/
theorem reachable_keys_nodup (env : Env) (db : Db) (s : State) (h : Reachable env db s) :
    (s.rooms.map Prod.fst).Nodup := by
  induction h with
  | init => simp [initialState]
  | @next s e r _ hstep ih => exact step_keys env s e r hstep ih

/-! ### Deletion of a room while a join is handled -/

theorem raceState_reachable : Reachable defaultEnv emptyDb raceState := by
  have h0 : Reachable defaultEnv emptyDb (connection demoState "a1" 1) :=
    Reachable.next (e := .connection "a1" 1) demoState_reachable rfl
  have h1 : Reachable defaultEnv emptyDb adminState :=
    Reachable.next (e := .adminLogin "a1" goodLogin) h0 rfl
  exact Reachable.next (e := .connection "c2" 2) h1 rfl

/-- C14 fails (defect of the code): `delete-room` is not an exclusive section
of the room. In the reachable state `raceState` the admin `a1` deletes the
room `AAAAAA`, which has a durable row and the participant `c1`, and both
durable deletions succeed. While the handler waits at line 410 for the answer
of the deletion of the messages, the `join-room` of `AAAAAA` by the connected
socket `c2` is handled: it finds the durable row and, the entry having been
removed at line 406, creates it again. The handler then deletes the row and
answers `success: true`; afterwards the registry has an entry for `AAAAAA`
whose participant `c2` is connected, and the store has no row of the room.
Without the `join-room` in between, the registry has no entry for the room. -/
theorem delete_room_races_with_join :
    Reachable defaultEnv emptyDb raceState
    ∧ "a1" ∈ raceState.adminSockets
    ∧ raceState.db.rooms = [{ id := "AAAAAA", created_at := 0, last_activity := 0 }]
    ∧ JSMap.get raceState.rooms "AAAAAA"
        = some { users := [("c1", { username := "Guest_Swift_Wolf", lastActivity := 0 })],
                 messages := [], lastActivity := 0 }
    ∧ (deleteRoomWith joinWhileDeleting raceState "a1" (deleteArgs "AAAAAA" 8)).2
        = [.db (.selectRoom "AAAAAA"),
           .emitRoom "AAAAAA" "room-deleted-user-notify"
             (.notice ("This room (AAAAAA) has been deleted by an administrator. "
                ++ "You will be disconnected.")),
           .closeSocket "c1",
           .emitRoom "AAAAAA" "user-left" (.userLeft "Guest_Swift_Wolf" []),
           .db (.deleteMessages "AAAAAA"),
           .db (.selectRoom "AAAAAA"), .db (.touchRoom "AAAAAA" 9),
           .db (.selectMessages "AAAAAA" 50),
           .emitRoom "AAAAAA" "user-joined"
             (.userJoined "Guest_Swift_Wolf" ["Guest_Swift_Wolf"]),
           .callback "c2" (.joined "Guest_Swift_Wolf" [] ["Guest_Swift_Wolf"]),
           .db (.deleteRoom "AAAAAA"),
           .callback "a1" (.done "Room AAAAAA deleted.")]
    ∧ JSMap.get (deleteRoomWith joinWhileDeleting raceState "a1"
          (deleteArgs "AAAAAA" 8)).1.rooms "AAAAAA"
        = some { users := [("c2", { username := "Guest_Swift_Wolf", lastActivity := 9 })],
                 messages := [], lastActivity := 9 }
    ∧ (deleteRoomWith joinWhileDeleting raceState "a1" (deleteArgs "AAAAAA" 8)).1.sockets
        = ["a1", "c2"]
    ∧ (deleteRoomWith joinWhileDeleting raceState "a1" (deleteArgs "AAAAAA" 8)).1.db.rooms
        = []
    ∧ JSMap.get (deleteRoom raceState "a1" (deleteArgs "AAAAAA" 8)).1.rooms "AAAAAA" = none :=
  ⟨raceState_reachable, by decide, by decide, by decide, by decide, by decide, by decide,
   by decide, by decide⟩

end CJChat
